import Mathlib

/-!
# ECE391 MP3 kernel: file system and system-call layer

A shallow embedding of `student-distrib/file_system.c`,
`student-distrib/syscalls.c` and `student-distrib/signals.c`, and of the
helpers they call in `paging.c`, `rtc.c` and `terminal.c`.

Conventions of the embedding
* C arrays indexed at run time are total functions from `Nat`.
* Pointers are addresses (`Nat`), `0` being `NULL`.  Byte memory is a function
  from linear address to byte; addresses are reduced modulo `2^32` and values
  modulo `256` on every access, so every function is a memory.
* The file-system image is a read-only memory of its own (`FileSys.img`): the
  boot module is never written by the kernel and the buffers handed to the
  kernel do not alias it.
* `uint32_t` arithmetic is `Nat` arithmetic reduced modulo `2^32`; `int32_t`
  values are `Int`, obtained from a 32-bit pattern with `toInt32`.
* Diagnostics (`printf`) and the PC speaker (`error_sound`) are outside the
  modelled state.
-/

set_option maxRecDepth 100000

namespace ECE391

/-! ## Machine words and memory -/

/-- Number of 32-bit patterns. -/
def U32 : Nat := 4294967296

/-- Value of a 32-bit pattern read as `int32_t`. -/
def toInt32 (x : Nat) : Int :=
  if x % U32 < 2147483648 then ((x % U32 : Nat) : Int) else ((x % U32 : Nat) : Int) - 4294967296

/-- Bit pattern of an `int32_t` (or of any integer converted to `uint32_t`). -/
def toU32 (x : Int) : Nat := (x % 4294967296).toNat

/-- Value of a byte read as `int8_t`. -/
def toInt8 (b : Nat) : Int :=
  if b % 256 < 128 then ((b % 256 : Nat) : Int) else ((b % 256 : Nat) : Int) - 256

/-- Byte-addressed memory. -/
abbrev Mem := Nat → Nat

/-- Load one byte. -/
def ldb (m : Mem) (a : Nat) : Nat := m (a % U32) % 256

/-- Store one byte. -/
def stb (m : Mem) (a v : Nat) : Mem := fun x => if x = a % U32 then v % 256 else m x

/-- Load a little-endian `uint32_t`. -/
def ld32 (m : Mem) (a : Nat) : Nat :=
  ldb m a + 256 * ldb m (a + 1) + 65536 * ldb m (a + 2) + 16777216 * ldb m (a + 3)

/-- Store a little-endian `uint32_t`. -/
def st32 (m : Mem) (a v : Nat) : Mem :=
  stb (stb (stb (stb m a v) (a + 1) (v / 256)) (a + 2) (v / 65536)) (a + 3) (v / 16777216)

/-! ## C strings and `lib.c` -/

/-- Byte `i` of a C string given by its bytes: past the end of the list the
terminating NUL is read. -/
def cstr (s : List Nat) (i : Nat) : Nat := s.getD i 0 % 256

/-- The bytes of a C string up to (excluding) its first NUL. -/
def cstring (s : List Nat) : List Nat := (s.map (· % 256)).takeWhile (· ≠ 0)

/-- Modelled from the spec: `lib.c` is not under src/; `strlen` is the C library
function, the number of bytes before the first NUL. -/
def strlen (s : List Nat) : Nat := (cstring s).length

/-- Loop of `strncmp`: `i` is the current index, the last argument the number
of bytes still to compare. -/
def strncmp_from (s1 s2 : Nat → Nat) : Nat → Nat → Int
  | _, 0 => 0
  | i, k + 1 =>
    if s1 i ≠ s2 i ∨ s1 i = 0 then toInt8 (s1 i) - toInt8 (s2 i)
    else strncmp_from s1 s2 (i + 1) k

/-- Modelled from the spec: `lib.c` is not under src/; `strncmp` is the C library
comparison of at most `n` bytes ("names compared up to 32 bytes"), which stops
at the first difference or at a NUL of the first string and returns the
difference of the two bytes there, `0` when all `n` bytes agree. -/
def strncmp (s1 s2 : Nat → Nat) (n : Nat) : Int := strncmp_from s1 s2 0 n

/-- Modelled from the spec: `lib.c` is not under src/; `strncpy` copies the
source up to its NUL and pads the destination with NULs to `n` bytes. -/
def strncpy (src : List Nat) (n : Nat) : List Nat :=
  (cstring src).take n ++ List.replicate (n - (cstring src).length) 0

/-- Modelled from the spec: `lib.c` is not under src/; `memcpy` of `n` bytes
from a byte source into memory at `dst`, lowest address first. -/
def memcpy_to (m : Mem) (dst : Nat) (src : Nat → Nat) : Nat → Mem
  | 0 => m
  | n + 1 => stb (memcpy_to m dst src n) (dst + n) (src n)

/-! ## File system (`file_system.c`) -/

/-- BOOT_BLOCK_OFFSET -/
def BOOT_BLOCK_OFFSET : Nat := 64
/-- TOTAL_BLOCK_SIZE -/
def TOTAL_BLOCK_SIZE : Nat := 4096

def FILE_TYPE_RTC : Nat := 0
def FILE_TYPE_DIR : Nat := 1
def FILE_TYPE_FILE : Nat := 2

/-- The mounted image: `file_sys_start_addr` and the memory that holds it. -/
structure FileSys where
  file_sys_start_addr : Nat
  img : Mem

/-- The C struct `dentry_t`. -/
structure dentry_t where
  file_name : List Nat
  file_type : Nat
  inode_number : Nat
  reserved : List Nat
deriving DecidableEq, Repr

/-- Loop of `read_dentry_by_name`: the first argument counts the entries still
to visit, the second is `i`, the address of the current entry. -/
def read_dentry_by_name_loop (fs : FileSys) (fname : List Nat) (dentry : dentry_t) :
    Nat → Nat → Int × dentry_t
  | 0, _ => (-1, dentry)
  | k + 1, i =>
    if strncmp (cstr fname) (fun j => ldb fs.img (i + j)) 32 = 0 then
      (0, { dentry with
              file_name := strncpy fname 32
              file_type := ld32 fs.img (i + 32)
              inode_number := ld32 fs.img (i + 32 + 4) })
    else read_dentry_by_name_loop fs fname dentry k (i + 64)

/-- The function `read_dentry_by_name`: the loop runs `i` from `start + 64` to below
`start + 4096` in steps of 64, that is over 63 entries. -/
def read_dentry_by_name (fs : FileSys) (fname : List Nat) (dentry : dentry_t) :
    Int × dentry_t :=
  if strlen fname > 32 then (-1, dentry)
  else read_dentry_by_name_loop fs fname dentry 63 (fs.file_sys_start_addr + BOOT_BLOCK_OFFSET)

/-- The function `read_dentry_by_index`. -/
def read_dentry_by_index (fs : FileSys) (index : Nat) (dentry : dentry_t) : Int × dentry_t :=
  let entries_count := ld32 fs.img fs.file_sys_start_addr
  if index ≥ entries_count then (-1, dentry)
  else
    let boot_block_start_addr := (fs.file_sys_start_addr + BOOT_BLOCK_OFFSET + 64 * index) % U32
    let inode_num := boot_block_start_addr + 36
    (0, { dentry with
            file_name := strncpy ((List.range 32).map (fun j => ldb fs.img (boot_block_start_addr + j))) 32
            file_type := ld32 fs.img (boot_block_start_addr + 32)
            inode_number := ld32 fs.img inode_num })

/-- The `while` loop of `read_data`.  Arguments after the fixed ones:
`length`, `file_size_remaining`, `bytes_read` and the memory holding `buf`. -/
def read_data_loop (fs : FileSys)
    (datablock_start_addr datablock_index_start_addr datablock_internal_offset buf : Nat) :
    Nat → Int → Nat → Mem → Int × Mem
  | 0, _, bytes_read, mem => ((bytes_read : Int), mem)
  | length + 1, file_size_remaining, bytes_read, mem =>
    if file_size_remaining > 0 then
      let datablock_index_addr :=
        (datablock_index_start_addr + (datablock_internal_offset + bytes_read) / TOTAL_BLOCK_SIZE * 4) % U32
      let datablock_index := ld32 fs.img datablock_index_addr
      let datablock_addr :=
        (datablock_start_addr + TOTAL_BLOCK_SIZE * datablock_index
          + (datablock_internal_offset + bytes_read) % TOTAL_BLOCK_SIZE) % U32
      read_data_loop fs datablock_start_addr datablock_index_start_addr datablock_internal_offset buf
        length (file_size_remaining - 1) (bytes_read + 1)
        (stb mem (buf + bytes_read) (ldb fs.img datablock_addr))
    else ((bytes_read : Int), mem)

/-- The function `read_data (inode, offset, buf, length)`; `mem` is the memory `buf` points
into.  Returns the C return value and the memory afterwards. -/
def read_data (fs : FileSys) (inode offset buf length : Nat) (mem : Mem) : Int × Mem :=
  if buf = 0 then (-1, mem)
  else
    let inode_num := ld32 fs.img (fs.file_sys_start_addr + 4)
    if ¬ (inode_num > inode) then (-1, mem)
    else
      let datablock_start_addr := (fs.file_sys_start_addr + TOTAL_BLOCK_SIZE * (inode_num + 1)) % U32
      let inode_addr := (fs.file_sys_start_addr + TOTAL_BLOCK_SIZE * (inode + 1)) % U32
      let datablock_index_start_addr := (inode_addr + 4 * (offset / TOTAL_BLOCK_SIZE + 1)) % U32
      let file_size_remaining : Int := toInt32 (ld32 fs.img inode_addr + (U32 - offset % U32))
      let datablock_internal_offset := offset % TOTAL_BLOCK_SIZE
      read_data_loop fs datablock_start_addr datablock_index_start_addr datablock_internal_offset buf
        length file_size_remaining 0 mem

/-- The inode count stored in the boot block. -/
def n_inodes (fs : FileSys) : Nat := ld32 fs.img (fs.file_sys_start_addr + 4)

/-- The number of directory entries, the first word of the boot block. -/
def n_dentries (fs : FileSys) : Nat := ld32 fs.img fs.file_sys_start_addr

/-- The size field of an inode block. -/
def inode_size (fs : FileSys) (inode : Nat) : Nat :=
  ld32 fs.img (fs.file_sys_start_addr + TOTAL_BLOCK_SIZE * (inode + 1))

/-- Entry `e` of the block-index table of an inode: the `uint32_t` that follows
the size field and the `e` entries before it. -/
def inode_block_entry (fs : FileSys) (inode e : Nat) : Nat :=
  ld32 fs.img (fs.file_sys_start_addr + TOTAL_BLOCK_SIZE * (inode + 1) + 4 * (e + 1))

/-- Byte `j` of data block number `d`; the data blocks follow the boot block
and the `n_inodes` inode blocks. -/
def data_block_byte (fs : FileSys) (d j : Nat) : Nat :=
  ldb fs.img (fs.file_sys_start_addr + TOTAL_BLOCK_SIZE * (n_inodes fs + 1) + TOTAL_BLOCK_SIZE * d + j)

/-- Address of directory entry `j` of the boot block. -/
def dentry_addr (fs : FileSys) (j : Nat) : Nat :=
  fs.file_sys_start_addr + BOOT_BLOCK_OFFSET + 64 * j

/-- The name stored in directory entry `j`: the bytes of its 32-byte name
field up to the first NUL (all 32 when there is none). -/
def stored_name (fs : FileSys) (j : Nat) : List Nat :=
  ((List.range 32).map (fun t => ldb fs.img (dentry_addr fs j + t))).takeWhile (· ≠ 0)

/-- The file type stored in directory entry `j`. -/
def stored_type (fs : FileSys) (j : Nat) : Nat := ld32 fs.img (dentry_addr fs j + 32)

/-- The inode index stored in directory entry `j`. -/
def stored_inode (fs : FileSys) (j : Nat) : Nat := ld32 fs.img (dentry_addr fs j + 36)

/-- Number of bytes the loop of `read_data` copies, from the values `length`
and `file_size_remaining` have when it is entered. -/
def read_count (length : Nat) (file_size_remaining : Int) : Nat :=
  if file_size_remaining > 0 then min length file_size_remaining.toNat else 0

/-- Address of the byte of the image that the loop of `read_data` copies when
`bytes_read = j`. -/
def read_src_addr (fs : FileSys) (ds is io j : Nat) : Nat :=
  (ds + TOTAL_BLOCK_SIZE * ld32 fs.img ((is + (io + j) / TOTAL_BLOCK_SIZE * 4) % U32)
    + (io + j) % TOTAL_BLOCK_SIZE) % U32

/-- The function `return_file_size`, on the global `open_file_dentry`; returns the value and
the new `open_file_dentry`. -/
def return_file_size (fs : FileSys) (open_file_dentry : dentry_t) (file_name : List Nat) :
    Int × dentry_t :=
  let r := read_dentry_by_name fs file_name open_file_dentry
  if r.1 = -1 then (-1, r.2)
  else
    let inode_ptr := (fs.file_sys_start_addr + (r.2.inode_number + 1) * TOTAL_BLOCK_SIZE) % U32
    (toInt32 (ld32 fs.img inode_ptr), r.2)

/-- The function `check_executable`; `stack` holds the uninitialised local `buf[4]`, placed
at address 1 of that memory.  Returns the value and the new `open_file_dentry`. -/
def check_executable (fs : FileSys) (open_file_dentry : dentry_t) (stack : Mem)
    (file_name : List Nat) : Int × dentry_t :=
  let r := read_dentry_by_name fs file_name open_file_dentry
  if r.1 = -1 then (-1, r.2)
  else
    let buf := (read_data fs r.2.inode_number 0 1 4 stack).2
    let bufTrue : Nat → Nat := fun i => ldb buf (1 + (i + 1))
    if strncmp bufTrue (cstr [69, 76, 70]) 3 = 0 then (1, r.2) else (-1, r.2)

/-! ## Process control blocks and kernel state -/

def FD_STDIN : Int := 0
def FD_STDOUT : Int := 1
def FD_FLAG_EMPTY : Nat := 0
def FD_FLAG_RTC : Nat := 1
def FD_FLAG_DIR : Nat := 2
def FD_FLAG_FILE : Nat := 3
def MAX_CMD_LEN : Nat := 31
def MAX_PID_COUNT : Nat := 6
def TERMINAL_COUNT : Nat := 3
def NULLSIG : Nat := 255
def PROGRAM_PAGE_ADDR : Nat := 0x08048000
def PROGRAM_STACK_ADDR : Nat := 0x08400000
def KERNEL_STACK_ADDR : Nat := 0x00800000
def KERNEL_STACK_OFFSET : Nat := 0x2000
def KEYBOARD_BUFFER_SIZE : Nat := 128

/-- Value of a `struct file_op_ptr_t*`: `NULL`, the address of one of the
three operation tables of `syscalls.c`, or any other value `w`, which only a
copy that runs over the field leaves there. -/
inductive file_op_ptr where
  | null
  | file_sys_calls
  | rtc_sys_calls
  | dir_sys_calls
  | wild (w : Nat)
deriving DecidableEq, Repr

/-- The C struct `file_desc_t`. -/
structure file_desc_t where
  file_op_table_ptr : file_op_ptr
  inode : Nat
  file_position : Int
  flags : Nat
deriving DecidableEq, Repr

/-- The C struct `pcb_t`.  The last field, `pad`, is not a member: it holds the
two padding bytes that lie between `sig_mask` (byte 165) and `arg_len` (byte
168), which only a copy that runs over them writes or reads. -/
structure pcb_t where
  process_id : Nat
  terminal_id : Nat
  previous_id : Nat
  sig_pending : Nat
  command : Nat → Nat
  arg_buffer : Nat → Nat
  sig_stacksize : Nat
  sig_mask : Nat
  arg_len : Nat
  ebp : Nat
  esp : Nat
  tss_esp : Nat
  sig_ebp : Nat
  sig_esp : Nat
  sig_eax : Nat
  user_esp : Nat
  sig_handlers : Nat → Nat
  sig_stackshot : Nat → Nat
  file_descriptor : Nat → file_desc_t
  pad : Nat := 0

/-- The C struct `terminal_t`. -/
structure terminal_t where
  video_backup_addr : Nat
  video_backup_page : Nat
  initialized : Nat
  ebp : Nat
  esp : Nat
  tss_esp : Nat
  screen_x : Int
  screen_y : Int
  pcb : Nat
  echo : Nat
  vidmap : Nat

/-- The C struct `pageDir_t` (bit fields as numbers). -/
structure pageDir_t where
  P : Nat
  RW : Nat
  US : Nat
  PWT : Nat
  PCD : Nat
  A : Nat
  Z : Nat
  PS : Nat
  G : Nat
  AVL : Nat
  pd_address : Nat
deriving DecidableEq, Repr

/-- The C struct `pageTable_t` (bit fields as numbers). -/
structure pageTable_t where
  P : Nat
  RW : Nat
  US : Nat
  PWT : Nat
  PCD : Nat
  A : Nat
  D : Nat
  PAT : Nat
  G : Nat
  AVL : Nat
  physicalAddress : Nat
deriving DecidableEq, Repr

/-- The globals of the kernel that the system calls read and write.
`pcb_mem` gives the `pcb_t` object at an address; `mem` is the byte memory the
kernel addresses through pointers handed to it; `vrtc_counter` and `vrtc_alarm`
are C floats that only take multiples of 0.25, kept here as their number of
quarters; `tty` is the sequence of bytes given to `putc` by `terminal_write`.
The six PCB areas are not part of `mem`: the definitions that follow a pointer
into a PCB say so (`pcb_write`, `pcb_read`, `sys_read_k`).
`op_table_addr` gives the addresses of the three operation tables, which the
linker fixes; they are read only where a copy runs over the pointer of a
descriptor.  The globals of `scheduler.c` come last, with the values their
initialisers give them (`scheduler_enable = 0`, `video_mem = VIDEO_MEM_ADDR`). -/
structure KState where
  fs : FileSys
  open_file_dentry : dentry_t
  mem : Mem
  pcb : Nat
  pcb_mem : Nat → pcb_t
  progress : Nat
  halt_status : Int
  pcb_pool : Nat → Nat
  terminals : Nat → terminal_t
  terminal_active : Nat
  tss_esp0 : Nat
  pageDir : Nat → pageDir_t
  pageTableLow : Nat → pageTable_t
  pageTableHigh : Nat → pageTable_t
  vrtc_counter : Nat → Int
  vrtc_alarm : Nat → Int
  rtc_open_flag : Nat
  buf_local : Nat → Nat → Nat
  buf_ready : Nat → Nat
  buf_size_in : Nat → Nat
  tty : List Nat
  op_table_addr : file_op_ptr → Nat
  scheduler_enable : Nat := 0
  video_mem : Nat := 0xB8000
  screen_x : Int := 0
  screen_y : Int := 0

/-- What reaches a kernel path from outside the C code: the registers at the
point they are read, the contents of uninitialised locals, and the line the
keyboard driver hands over through `copy_buffer` while `terminal_read` spins. -/
structure Env where
  ebp : Nat
  esp : Nat
  stack : Mem
  kbd_buf : Nat → Nat
  kbd_size : Nat

/-- The current PCB, `*pcb`. -/
def KState.cur (s : KState) : pcb_t := s.pcb_mem s.pcb

/-- Assignment through a PCB pointer. -/
def KState.setPcb (s : KState) (p : Nat) (f : pcb_t → pcb_t) : KState :=
  { s with pcb_mem := Function.update s.pcb_mem p (f (s.pcb_mem p)) }

/-- Assignment to `(pcb->file_descriptor)[i]`. -/
def KState.setFd (s : KState) (i : Nat) (d : file_desc_t) : KState :=
  s.setPcb s.pcb (fun p => { p with file_descriptor := Function.update p.file_descriptor i d })

/-- Assignment to `terminals[t]`. -/
def KState.setTerm (s : KState) (t : Nat) (f : terminal_t → terminal_t) : KState :=
  { s with terminals := Function.update s.terminals t (f (s.terminals t)) }

/-! ## The bytes of a PCB

The members of `pcb_t` lie in the order of `signals.h`: four bytes from byte 0,
`command` from 4, `arg_buffer` from 36, `sig_stacksize` at 164, `sig_mask` at
165, two padding bytes, the eight 32-bit members `arg_len` ... `user_esp` from
168, `sig_handlers` from 200, `sig_stackshot` from 220 and the descriptor table
from 328 (16 bytes a descriptor: pointer, inode, position, flags); the object
has 456 bytes.  A copy that is not bounded by the array it is aimed at runs on
into the members behind it, and behind the object into the byte memory. -/

/-- The 32-bit value of a pointer to an operation table. -/
def op_word (s : KState) : file_op_ptr → Nat
  | .null => 0
  | .wild w => w % U32
  | p => s.op_table_addr p

/-- The pointer to an operation table that a 32-bit value is. -/
def op_of_word (s : KState) (w : Nat) : file_op_ptr :=
  if w = 0 then .null
  else if w = s.op_table_addr .file_sys_calls then .file_sys_calls
  else if w = s.op_table_addr .rtc_sys_calls then .rtc_sys_calls
  else if w = s.op_table_addr .dir_sys_calls then .dir_sys_calls
  else .wild w

/-- Byte `b` of an object after `memcpy (object + off, src, len)`; `old` is
what the byte held before. -/
def copied_byte (off len : Nat) (src : Nat → Nat) (b old : Nat) : Nat :=
  if off ≤ b ∧ b < off + len then src (b - off) % 256 else old

/-- The little-endian 32-bit member at the bytes `o .. o + 3` of an object
after `memcpy (object + off, src, len)`; `old` is what it held before. -/
def copied_word (off len : Nat) (src : Nat → Nat) (o old : Nat) : Nat :=
  if off < o + 4 ∧ o < off + len then
    copied_byte off len src o (old % 256)
    + 256 * copied_byte off len src (o + 1) (old / 256 % 256)
    + 65536 * copied_byte off len src (o + 2) (old / 65536 % 256)
    + 16777216 * copied_byte off len src (o + 3) (old / 16777216 % 256)
  else old

/-- Descriptor `j` of a PCB after `memcpy (pcb + off, src, len)`. -/
def copied_fd (s : KState) (off len : Nat) (src : Nat → Nat) (j : Nat) (d : file_desc_t) :
    file_desc_t :=
  { file_op_table_ptr :=
      if off < 328 + 16 * j + 4 ∧ 328 + 16 * j < off + len then
        op_of_word s (copied_word off len src (328 + 16 * j) (op_word s d.file_op_table_ptr))
      else d.file_op_table_ptr
    inode := copied_word off len src (332 + 16 * j) d.inode
    file_position :=
      if off < 336 + 16 * j + 4 ∧ 336 + 16 * j < off + len then
        toInt32 (copied_word off len src (336 + 16 * j) (toU32 d.file_position))
      else d.file_position
    flags := copied_word off len src (340 + 16 * j) d.flags }

/-- The PCB object after `memcpy (pcb + off, src, len)`. -/
def copied_pcb (s : KState) (off len : Nat) (src : Nat → Nat) (x : pcb_t) : pcb_t :=
  { process_id := copied_byte off len src 0 x.process_id
    terminal_id := copied_byte off len src 1 x.terminal_id
    previous_id := copied_byte off len src 2 x.previous_id
    sig_pending := copied_byte off len src 3 x.sig_pending
    command := fun i => if i < 32 then copied_byte off len src (4 + i) (x.command i) else x.command i
    arg_buffer := fun i =>
      if i < 128 then copied_byte off len src (36 + i) (x.arg_buffer i) else x.arg_buffer i
    sig_stacksize := copied_byte off len src 164 x.sig_stacksize
    sig_mask := copied_byte off len src 165 x.sig_mask
    arg_len := copied_word off len src 168 x.arg_len
    ebp := copied_word off len src 172 x.ebp
    esp := copied_word off len src 176 x.esp
    tss_esp := copied_word off len src 180 x.tss_esp
    sig_ebp := copied_word off len src 184 x.sig_ebp
    sig_esp := copied_word off len src 188 x.sig_esp
    sig_eax := copied_word off len src 192 x.sig_eax
    user_esp := copied_word off len src 196 x.user_esp
    sig_handlers := fun i =>
      if i < 5 then copied_word off len src (200 + 4 * i) (x.sig_handlers i) else x.sig_handlers i
    sig_stackshot := fun i =>
      if i < 27 then copied_word off len src (220 + 4 * i) (x.sig_stackshot i)
      else x.sig_stackshot i
    file_descriptor := fun j =>
      if j < 8 then copied_fd s off len src j (x.file_descriptor j) else x.file_descriptor j
    pad :=
      if off < 168 ∧ 166 < off + len then
        copied_byte off len src 166 (x.pad % 256) + 256 * copied_byte off len src 167 (x.pad / 256 % 256)
      else x.pad }

/-- The kernel after `memcpy (p + off, src, len)`, `p` being the address of a
PCB: the bytes of the copy that fall into the object go to its members, those
behind the object (from byte 456 on) to the byte memory. -/
def pcb_write (s : KState) (p off len : Nat) (src : Nat → Nat) : KState :=
  let s1 := s.setPcb p (copied_pcb s off len src)
  let lo := max off 456
  { s1 with mem := memcpy_to s1.mem (p + lo) (fun k => src (lo - off + k)) (off + len - lo) }

/-- Byte `r` of a little-endian 32-bit value. -/
def word_byte (w r : Nat) : Nat := w / 256 ^ r % 256

/-- Byte `k` of the memory at the address `p` of a PCB: a byte of the member
that lies there, or, behind the object, of the byte memory. -/
def pcb_read (s : KState) (p k : Nat) : Nat :=
  let x := s.pcb_mem p
  if k < 1 then x.process_id % 256
  else if k < 2 then x.terminal_id % 256
  else if k < 3 then x.previous_id % 256
  else if k < 4 then x.sig_pending % 256
  else if k < 36 then x.command (k - 4) % 256
  else if k < 164 then x.arg_buffer (k - 36) % 256
  else if k < 165 then x.sig_stacksize % 256
  else if k < 166 then x.sig_mask % 256
  else if k < 168 then word_byte x.pad (k - 166)
  else if k < 172 then word_byte x.arg_len (k - 168)
  else if k < 176 then word_byte x.ebp (k - 172)
  else if k < 180 then word_byte x.esp (k - 176)
  else if k < 184 then word_byte x.tss_esp (k - 180)
  else if k < 188 then word_byte x.sig_ebp (k - 184)
  else if k < 192 then word_byte x.sig_esp (k - 188)
  else if k < 196 then word_byte x.sig_eax (k - 192)
  else if k < 200 then word_byte x.user_esp (k - 196)
  else if k < 220 then word_byte (x.sig_handlers ((k - 200) / 4)) ((k - 200) % 4)
  else if k < 328 then word_byte (x.sig_stackshot ((k - 220) / 4)) ((k - 220) % 4)
  else if k < 456 then
    let d := x.file_descriptor ((k - 328) / 16)
    let r := (k - 328) % 16
    if r < 4 then word_byte (op_word s d.file_op_table_ptr) r
    else if r < 8 then word_byte d.inode (r - 4)
    else if r < 12 then word_byte (toU32 d.file_position) (r - 8)
    else word_byte d.flags (r - 12)
  else ldb s.mem (p + k)

/-! ## Paging helpers (`paging.c`) -/

/-- The function `reMap4MBPage (pid)`: `pd_address` is a 20-bit field. -/
def reMap4MBPage (s : KState) (pid : Int) : KState :=
  let e := s.pageDir 32
  let e1 : pageDir_t := { e with pd_address := ((0x800000 + pid * 0x400000) / 1024 % 1048576).toNat }
  { s with pageDir := Function.update s.pageDir 32 e1 }

/-- The function `map4KBVidMemPage`. -/
def map4KBVidMemPage (s : KState) : KState :=
  let e := s.pageDir 33
  { s with pageDir := Function.update s.pageDir 33 ({ e with P := 1 }) }

/-- The function `unMap4KBVidMemPage`. -/
def unMap4KBVidMemPage (s : KState) : KState :=
  let e := s.pageDir 33
  { s with pageDir := Function.update s.pageDir 33 ({ e with P := 0 }) }

/-! ## Drivers reached through the operation tables -/

/-- The function `file_read`: the inode comes in `buf[0]`, the offset in `fd`. -/
def file_read (s : KState) (fd : Int) (buf : Nat) (nbytes : Int) : Int × KState :=
  let inode_index := ldb s.mem buf
  let r := read_data s.fs inode_index (toU32 fd) buf (toU32 nbytes) s.mem
  (r.1, { s with mem := r.2 })

/-- The function `file_write`. -/
def file_write (s : KState) (_fd : Int) (_buf : Nat) (_nbytes : Int) : Int × KState := (-1, s)

/-- The function `dir_write`. -/
def dir_write (s : KState) (_fd : Int) (_buf : Nat) (_nbytes : Int) : Int × KState := (-1, s)

/-- Byte `i` of the local `dentry_t currFile` of `dir_read` after a successful
`read_dentry_by_index`: name, type and inode number are set, the reserved
bytes and what follows the struct are whatever the stack holds. -/
def dentry_bytes (stack : Mem) (d : dentry_t) (i : Nat) : Nat :=
  if i < 32 then d.file_name.getD i 0 % 256
  else if i < 36 then d.file_type / 256 ^ (i - 32) % 256
  else if i < 40 then d.inode_number / 256 ^ (i - 36) % 256
  else ldb stack i

/-- The function `dir_read`: `fd` carries the index of the entry to read. -/
def dir_read (env : Env) (s : KState) (fd : Int) (buf : Nat) (nbytes : Int) : Int × KState :=
  if fd < 0 then (-1, s)
  else
    let r := read_dentry_by_index s.fs (toU32 fd) ⟨[], 0, 0, []⟩
    if r.1 = -1 then (0, s)
    else (nbytes, { s with mem := memcpy_to s.mem buf (dentry_bytes env.stack r.2) (toU32 nbytes) })

/-- Value of `vrtc_counter[t]` (in quarters) when the spin loop of `rtc_read`
is left: `rtc_handle` takes 1.75 off it on every tick while it is positive. -/
def rtc_spin (c : Int) : Int := if c > 0 then c - 7 * ((c + 6) / 7) else c

/-- The function `rtc_read`: `fd` carries the frequency. `none` is the divide error of
`1024 / fd` for `fd = 0`.  The spin loop is modelled at its exit; what the
interrupt handlers do to other globals meanwhile is not part of the model. -/
def rtc_read (s : KState) (fd : Int) (_buf : Nat) (_nbytes : Int) : Option (Int × KState) :=
  if s.rtc_open_flag = 0 then some (-1, s)
  else if fd = 0 then none
  else
    let t := s.cur.terminal_id
    some (0, { s with vrtc_counter := Function.update s.vrtc_counter t (rtc_spin (4 * Int.tdiv 1024 fd)) })

/-- The `while (freq_rate >= 6)` loop of `rtc_write`; the first argument bounds
the number of iterations, the second is `freq_rate`.  Returns `freq_valid`. -/
def rtc_write_loop (new_freq : Int) : Nat → Nat → Bool
  | 0, _ => false
  | k + 1, freq_rate =>
    if freq_rate ≥ 6 then
      if new_freq = ((32768 >>> (freq_rate - 1) : Nat) : Int) then true
      else rtc_write_loop new_freq k (freq_rate - 1)
    else false

/-- The function `rtc_write`. -/
def rtc_write (s : KState) (_fd : Int) (buf : Nat) (_nbytes : Int) : Int × KState :=
  if s.rtc_open_flag = 0 then (-1, s)
  else if buf = 0 then (-1, s)
  else
    let new_freq := toInt32 (ld32 s.mem buf)
    if rtc_write_loop new_freq 10 15 then (0, s) else (-1, s)

/-- The function `terminal_open (filename)` with a non-null `filename` pointing at the
byte `t`: `sizeof(KEYBOARD_BUFFER_SIZE)` is 4. -/
def terminal_open (s : KState) (t : Nat) : KState :=
  { s with
      buf_local := Function.update s.buf_local t (fun i => if i < 4 then 0 else s.buf_local t i)
      buf_ready := Function.update s.buf_ready t 0
      buf_size_in := Function.update s.buf_size_in t 0 }

/-- The function `copy_buffer (buf, size, terminal_id)` with a non-null `buf`. -/
def copy_buffer (s : KState) (buf : Nat → Nat) (size : Nat) (terminal_id : Nat) : KState :=
  { s with
      buf_size_in := Function.update s.buf_size_in terminal_id size
      buf_local := Function.update s.buf_local terminal_id
        (fun i => if i < size then buf i % 256 else s.buf_local terminal_id i)
      buf_ready := Function.update s.buf_ready terminal_id 1 }

/-- The function `terminal_read`; the spin loop is left when the keyboard driver has called
`copy_buffer` for the caller's terminal with the line of `env`. -/
def terminal_read (env : Env) (s : KState) (_fd : Int) (buf : Nat) (n : Nat) : Int × KState :=
  if buf = 0 then (-1, s)
  else
    let t := s.cur.terminal_id
    let s1 := terminal_open s t
    let s2 := copy_buffer s1 env.kbd_buf env.kbd_size t
    let cnt := min (s2.buf_size_in t) n
    (toInt32 cnt, { s2 with mem := memcpy_to s2.mem buf (s2.buf_local t) cnt })

/-- The function `terminal_write`: every byte goes to `putc`. -/
def terminal_write (s : KState) (_fd : Int) (buf : Nat) (n : Nat) : Int × KState :=
  if buf = 0 then (-1, s)
  else (toInt32 n, { s with tty := s.tty ++ (List.range n).map (fun i => ldb s.mem (buf + i)) })

/-- Call of `file_op_table_ptr -> read`; `none` when the pointer is `NULL`
or points at no table, or the callee faults. -/
def op_read (env : Env) (s : KState) (p : file_op_ptr) (fd : Int) (buf : Nat) (nbytes : Int) :
    Option (Int × KState) :=
  match p with
  | .null => none
  | .file_sys_calls => some (file_read s fd buf nbytes)
  | .rtc_sys_calls => rtc_read s fd buf nbytes
  | .dir_sys_calls => some (dir_read env s fd buf nbytes)
  | .wild _ => none

/-- Call of `file_op_table_ptr -> write`; `none` when the pointer is `NULL`
or points at no table. -/
def op_write (s : KState) (p : file_op_ptr) (fd : Int) (buf : Nat) (nbytes : Int) :
    Option (Int × KState) :=
  match p with
  | .null => none
  | .file_sys_calls => some (file_write s fd buf nbytes)
  | .rtc_sys_calls => some (rtc_write s fd buf nbytes)
  | .dir_sys_calls => some (dir_write s fd buf nbytes)
  | .wild _ => none

/-! ## System calls (`syscalls.c`) -/

/-- Loop of `find_next_pid`: iterations left, then `i`. -/
def find_next_pid_loop (pcb_pool : Nat → Nat) : Nat → Nat → Int
  | 0, _ => -1
  | k + 1, i => if pcb_pool i = 0 then (i : Int) else find_next_pid_loop pcb_pool k (i + 1)

/-- The function `find_next_pid`. -/
def find_next_pid (s : KState) : Int := find_next_pid_loop s.pcb_pool MAX_PID_COUNT 0

/-- The `for (i = 2; i < 8; i++)` loop of `sys_open`, with the dentry found:
iterations left, then `i`. -/
def sys_open_loop (s : KState) (currFileDentry : dentry_t) : Nat → Nat → Int × KState
  | 0, _ => (-1, s)
  | k + 1, i =>
    if (s.cur.file_descriptor i).flags = FD_FLAG_EMPTY then
      if currFileDentry.file_type = FILE_TYPE_RTC then
        ((i : Int), s.setFd i ⟨.rtc_sys_calls, 2, 0, FD_FLAG_RTC⟩)
      else if currFileDentry.file_type = FILE_TYPE_DIR then
        ((i : Int), s.setFd i ⟨.dir_sys_calls, 0, 0, FD_FLAG_DIR⟩)
      else if currFileDentry.file_type = FILE_TYPE_FILE then
        ((i : Int), s.setFd i ⟨.file_sys_calls, currFileDentry.inode_number, 0, FD_FLAG_FILE⟩)
      else (-1, s)
    else sys_open_loop s currFileDentry k (i + 1)

/-- The function `sys_open`; `none` is the null pointer.  The local `currFileDentry` is
only read after `read_dentry_by_name` has filled it. -/
def sys_open (s : KState) (filename : Option (List Nat)) : Int × KState :=
  match filename with
  | none => (-1, s)
  | some f =>
    if cstr f 0 = 0 then (-1, s)
    else
      let r := read_dentry_by_name s.fs f ⟨[], 0, 0, []⟩
      if r.1 = -1 then (-1, s)
      else sys_open_loop s r.2 6 2

/-- The function `sys_close`. -/
def sys_close (s : KState) (fd : Int) : Int × KState :=
  if fd < 2 ∨ fd > 7 then (-1, s)
  else if (s.cur.file_descriptor fd.toNat).flags = FD_FLAG_EMPTY then (-1, s)
  else (0, s.setFd fd.toNat ⟨.null, 0, 0, FD_FLAG_EMPTY⟩)

/-- The function `sys_read`; `none` when the call does not return (call through a null
operation table, divide error in `rtc_read`).  The buffer is taken to lie in
the byte memory; `sys_read_k` below is the same code for a buffer anywhere. -/
def sys_read (env : Env) (s : KState) (fd : Int) (buf : Nat) (nbytes : Int) :
    Option (Int × KState) :=
  if buf = 0 ∨ fd > 7 ∨ fd < 0 ∨ nbytes < 0 ∨ fd = FD_STDOUT then some (-1, s)
  else if fd ≥ 2 ∧ (s.cur.file_descriptor fd.toNat).flags = FD_FLAG_EMPTY then some (-1, s)
  else if fd = FD_STDIN then
    let t := s.cur.terminal_id
    let s1 := s.setTerm t (fun x => { x with echo := 1 })
    let r := terminal_read env s1 fd buf (toU32 nbytes)
    some (r.1, r.2.setTerm r.2.cur.terminal_id (fun x => { x with echo := 0 }))
  else
    let d := s.cur.file_descriptor fd.toNat
    if d.flags = FD_FLAG_RTC then
      op_read env s d.file_op_table_ptr (toInt32 d.inode) buf nbytes
    else if d.flags = FD_FLAG_DIR then
      match op_read env s d.file_op_table_ptr d.file_position buf nbytes with
      | none => none
      | some (bytes_read, s1) =>
        let d1 := s1.cur.file_descriptor fd.toNat
        some (bytes_read, s1.setFd fd.toNat
          { d1 with file_position := toInt32 (toU32 (d1.file_position + (if bytes_read = 0 then 0 else 1))) })
    else if d.flags = FD_FLAG_FILE then
      if nbytes = 0 then some (0, s)
      else
        let inode := d.inode % 256
        let s0 := { s with mem := stb s.mem buf inode }
        match op_read env s0 d.file_op_table_ptr d.file_position buf nbytes with
        | none => none
        | some (bytes_read, s1) =>
          let d1 := s1.cur.file_descriptor fd.toNat
          some (bytes_read, s1.setFd fd.toNat
            { d1 with file_position := toInt32 (toU32 (d1.file_position + bytes_read)) })
    else some (-1, s)

/-- The function `sys_write`; `none` when the call goes through a null operation table. -/
def sys_write (s : KState) (fd : Int) (buf : Nat) (nbytes : Int) : Option (Int × KState) :=
  if buf = 0 ∨ fd > 7 ∨ fd < 0 ∨ nbytes < 0 ∨ fd = FD_STDIN then some (-1, s)
  else if fd ≥ 2 ∧ (s.cur.file_descriptor fd.toNat).flags = FD_FLAG_EMPTY then some (-1, s)
  else if fd = FD_STDOUT then some (terminal_write s fd buf (toU32 nbytes))
  else
    let d := s.cur.file_descriptor fd.toNat
    if d.flags = FD_FLAG_RTC then
      let r := rtc_write s fd buf nbytes
      if r.1 = 0 then
        let d1 := r.2.cur.file_descriptor fd.toNat
        some (r.1, r.2.setFd fd.toNat { d1 with inode := ld32 r.2.mem buf })
      else some r
    else op_write s d.file_op_table_ptr fd buf nbytes

/-- The function `sys_getargs`.  `arg_len + 1` is unsigned, so the comparison with `nbytes`
is made on `uint32_t` values.  The copy takes `arg_len` bytes from the address
of `arg_buffer` (byte 36 of the PCB), whatever `arg_len` is. -/
def sys_getargs (s : KState) (buf : Nat) (nbytes : Int) : Int × KState :=
  if s.cur.arg_len = 0 then (-1, s)
  else if (s.cur.arg_len + 1) % U32 > toU32 nbytes then (-1, s)
  else
    let m1 := memcpy_to s.mem buf (fun i => pcb_read s s.pcb (36 + i)) s.cur.arg_len
    (0, { s with mem := stb m1 (buf + s.cur.arg_len) 0 })

/-- The function `sys_vidmap`. -/
def sys_vidmap (s : KState) (screen_start : Nat) : Int × KState :=
  if screen_start = 0 ∨ screen_start < PROGRAM_PAGE_ADDR ∨ screen_start > PROGRAM_STACK_ADDR - 4 then
    (-1, s)
  else
    let s1 := s.setTerm s.cur.terminal_id (fun x => { x with vidmap := 1 })
    let s2 := if s1.cur.terminal_id = s1.terminal_active then map4KBVidMemPage s1 else s1
    (0, { s2 with mem := st32 s2.mem screen_start PROGRAM_STACK_ADDR })

/-! ## `sys_read` for a buffer anywhere in memory

`sys_read` compares `buf` with `NULL` and with nothing else, and the drivers
store through it.  The definitions above take the buffer to lie in the byte
memory `mem`.  The PCBs lie in the kernel page, at `0x800000 - (p + 1) * 0x2000`
for `p = 0 .. 5`; the definitions below follow the same code with every store
through `buf` going to the member of the PCB it falls into, when it falls into
one. -/

/-- The PCB area an address lies in: its base address and the offset. -/
def pcb_at (a : Nat) : Option (Nat × Nat) :=
  if KERNEL_STACK_ADDR - MAX_PID_COUNT * KERNEL_STACK_OFFSET ≤ a ∧ a < KERNEL_STACK_ADDR ∧
      a % KERNEL_STACK_OFFSET < 456 then
    some (a - a % KERNEL_STACK_OFFSET, a % KERNEL_STACK_OFFSET)
  else none

/-- A store of one byte through a pointer. -/
def kstb (s : KState) (a v : Nat) : KState :=
  match pcb_at (a % U32) with
  | some (p, off) => pcb_write s p off 1 (fun _ => v)
  | none => { s with mem := stb s.mem a v }

/-- A load of one byte through a pointer. -/
def kldb (s : KState) (a : Nat) : Nat :=
  match pcb_at (a % U32) with
  | some (p, off) => pcb_read s p off
  | none => ldb s.mem a

/-- Modelled from the spec: `lib.c` is not under src/; `memcpy` of `n` bytes
from a byte source to the address `dst`, lowest address first. -/
def kmemcpy (s : KState) (dst : Nat) (src : Nat → Nat) : Nat → KState
  | 0 => s
  | n + 1 => kstb (kmemcpy s dst src n) (dst + n) (src n)

/-- The `while` loop of `read_data`, as `read_data_loop`, for any `buf`. -/
def read_data_loop_k (fs : FileSys)
    (datablock_start_addr datablock_index_start_addr datablock_internal_offset buf : Nat) :
    Nat → Int → Nat → KState → Int × KState
  | 0, _, bytes_read, s => ((bytes_read : Int), s)
  | length + 1, file_size_remaining, bytes_read, s =>
    if file_size_remaining > 0 then
      let datablock_index_addr :=
        (datablock_index_start_addr + (datablock_internal_offset + bytes_read) / TOTAL_BLOCK_SIZE * 4) % U32
      let datablock_index := ld32 fs.img datablock_index_addr
      let datablock_addr :=
        (datablock_start_addr + TOTAL_BLOCK_SIZE * datablock_index
          + (datablock_internal_offset + bytes_read) % TOTAL_BLOCK_SIZE) % U32
      read_data_loop_k fs datablock_start_addr datablock_index_start_addr datablock_internal_offset buf
        length (file_size_remaining - 1) (bytes_read + 1)
        (kstb s (buf + bytes_read) (ldb fs.img datablock_addr))
    else ((bytes_read : Int), s)

/-- The function `read_data (inode, offset, buf, length)`, as `read_data`, for
any `buf`. -/
def read_data_k (s : KState) (inode offset buf length : Nat) : Int × KState :=
  if buf = 0 then (-1, s)
  else
    let inode_num := ld32 s.fs.img (s.fs.file_sys_start_addr + 4)
    if ¬ (inode_num > inode) then (-1, s)
    else
      let datablock_start_addr := (s.fs.file_sys_start_addr + TOTAL_BLOCK_SIZE * (inode_num + 1)) % U32
      let inode_addr := (s.fs.file_sys_start_addr + TOTAL_BLOCK_SIZE * (inode + 1)) % U32
      let datablock_index_start_addr := (inode_addr + 4 * (offset / TOTAL_BLOCK_SIZE + 1)) % U32
      let file_size_remaining : Int := toInt32 (ld32 s.fs.img inode_addr + (U32 - offset % U32))
      let datablock_internal_offset := offset % TOTAL_BLOCK_SIZE
      read_data_loop_k s.fs datablock_start_addr datablock_index_start_addr datablock_internal_offset
        buf length file_size_remaining 0 s

/-- The function `file_read`, for any `buf`. -/
def file_read_k (s : KState) (fd : Int) (buf : Nat) (nbytes : Int) : Int × KState :=
  let inode_index := kldb s buf
  read_data_k s inode_index (toU32 fd) buf (toU32 nbytes)

/-- The function `dir_read`, for any `buf`. -/
def dir_read_k (env : Env) (s : KState) (fd : Int) (buf : Nat) (nbytes : Int) : Int × KState :=
  if fd < 0 then (-1, s)
  else
    let r := read_dentry_by_index s.fs (toU32 fd) ⟨[], 0, 0, []⟩
    if r.1 = -1 then (0, s)
    else (nbytes, kmemcpy s buf (dentry_bytes env.stack r.2) (toU32 nbytes))

/-- The function `terminal_read`, for any `buf`. -/
def terminal_read_k (env : Env) (s : KState) (_fd : Int) (buf : Nat) (n : Nat) : Int × KState :=
  if buf = 0 then (-1, s)
  else
    let t := s.cur.terminal_id
    let s1 := terminal_open s t
    let s2 := copy_buffer s1 env.kbd_buf env.kbd_size t
    let cnt := min (s2.buf_size_in t) n
    (toInt32 cnt, kmemcpy s2 buf (s2.buf_local t) cnt)

/-- Call of `file_op_table_ptr -> read`, for any `buf`. -/
def op_read_k (env : Env) (s : KState) (p : file_op_ptr) (fd : Int) (buf : Nat) (nbytes : Int) :
    Option (Int × KState) :=
  match p with
  | .null => none
  | .file_sys_calls => some (file_read_k s fd buf nbytes)
  | .rtc_sys_calls => rtc_read s fd buf nbytes
  | .dir_sys_calls => some (dir_read_k env s fd buf nbytes)
  | .wild _ => none

/-- The function `sys_read`, for any `buf`: the descriptor is read where the
code reads it, before or after the stores through `buf`. -/
def sys_read_k (env : Env) (s : KState) (fd : Int) (buf : Nat) (nbytes : Int) :
    Option (Int × KState) :=
  if buf = 0 ∨ fd > 7 ∨ fd < 0 ∨ nbytes < 0 ∨ fd = FD_STDOUT then some (-1, s)
  else if fd ≥ 2 ∧ (s.cur.file_descriptor fd.toNat).flags = FD_FLAG_EMPTY then some (-1, s)
  else if fd = FD_STDIN then
    let t := s.cur.terminal_id
    let s1 := s.setTerm t (fun x => { x with echo := 1 })
    let r := terminal_read_k env s1 fd buf (toU32 nbytes)
    some (r.1, r.2.setTerm r.2.cur.terminal_id (fun x => { x with echo := 0 }))
  else
    let d := s.cur.file_descriptor fd.toNat
    if d.flags = FD_FLAG_RTC then
      op_read_k env s d.file_op_table_ptr (toInt32 d.inode) buf nbytes
    else if d.flags = FD_FLAG_DIR then
      match op_read_k env s d.file_op_table_ptr d.file_position buf nbytes with
      | none => none
      | some (bytes_read, s1) =>
        let d1 := s1.cur.file_descriptor fd.toNat
        some (bytes_read, s1.setFd fd.toNat
          { d1 with file_position := toInt32 (toU32 (d1.file_position + (if bytes_read = 0 then 0 else 1))) })
    else if d.flags = FD_FLAG_FILE then
      if nbytes = 0 then some (0, s)
      else
        let inode := d.inode % 256
        let s0 := kstb s buf inode
        let d0 := s0.cur.file_descriptor fd.toNat
        match op_read_k env s0 d0.file_op_table_ptr d0.file_position buf nbytes with
        | none => none
        | some (bytes_read, s1) =>
          let d1 := s1.cur.file_descriptor fd.toNat
          some (bytes_read, s1.setFd fd.toNat
            { d1 with file_position := toInt32 (toU32 (d1.file_position + bytes_read)) })
    else some (-1, s)

/-- The loop `for (i = 0; i < len; i++) { if (stop (s [i])) break; }` of the
command parser: the first argument bounds the iterations, the second is `i`;
returns the final `i`. -/
def scan_until (stop : Nat → Bool) (s : Nat → Nat) (len : Nat) : Nat → Nat → Nat
  | 0, i => i
  | k + 1, i =>
    if i < len then (if stop (s i) then i else scan_until stop s len k (i + 1)) else i

/-- The loop `for (arg_end = strlen - 1; arg_end >= 0; arg_end--)` that trims
the end of the argument, started at index `i`.  It is only entered with
`command[0]` neither NUL nor a space, so it stops at index 0 at the latest. -/
def scan_back (s : Nat → Nat) : Nat → Nat
  | 0 => 0
  | i + 1 => if s (i + 1) ≠ 32 then i + 1 else scan_back s i

/-- How `sys_execute` ends: it returns a value, or it leaves the kernel through
`iret` into the loaded program. -/
inductive exec_outcome where
  | ret (v : Int)
  | iret (prog_esp prog_eip : Nat)
deriving DecidableEq, Repr

/-- The argument part of `sys_execute`: from `command` (already past the
program name) to `arg_buffer_local` and `arg_len_local`.  The result gives the
memory at the address of `arg_buffer_local`: the 128 bytes of the array and,
from index 128 on, the bytes of the stack frame behind it, which the copy of an
argument of 128 bytes or more runs into.  The bytes that are not written are
what the stack holds. -/
def parse_args (stack : Mem) (command : List Nat) : (Nat → Nat) × Nat :=
  if cstr command 0 ≠ 0 then
    let arg_start := scan_until (fun c => c ≠ 32) (cstr command) (strlen command) (strlen command) 0
    let command := command.drop arg_start
    if cstr command 0 ≠ 0 then
      let arg_end := scan_back (cstr command) (strlen command - 1)
      let arg_len_local := arg_end + 1
      (fun i => if i < arg_len_local then cstr command i
                else if i = arg_len_local then 0 else ldb stack (16 + i), arg_len_local)
    else (fun i => ldb stack (16 + i), 0)
  else (fun i => ldb stack (16 + i), 0)

/-- Lines 199-207 of `sys_execute`: the first members of the new PCB, written
one after the other through `pcb_pointer` (which may be the current `pcb`). -/
def execute_init_pcb (s : KState) (pid : Nat) : KState :=
  let pcb_pointer := KERNEL_STACK_ADDR - (pid + 1) * KERNEL_STACK_OFFSET
  let s1 := s.setPcb pcb_pointer (fun p => { p with process_id := pid })
  let s2 := s1.setPcb pcb_pointer (fun p => { p with terminal_id := s1.cur.terminal_id })
  let s3 := s2.setPcb pcb_pointer (fun p => { p with previous_id := s2.cur.process_id })
  s3.setPcb pcb_pointer (fun p => { p with
    sig_pending := NULLSIG
    user_esp := 0
    sig_stacksize := 0
    sig_mask := 0
    sig_stackshot := fun i => if i < 20 then 0 else p.sig_stackshot i
    sig_handlers := fun i => if i < 5 then 0 else p.sig_handlers i })

/-- Lines 199-227 of `sys_execute`: the new PCB.  After the first members the
`memcpy` into `arg_buffer` (byte 36 of the PCB, 128 bytes) takes
`arg_len_local` bytes: from byte 128 on they run over `sig_stacksize`,
`sig_mask` and the members behind them.  Then `arg_len`, `command` and the
flags of the eight descriptors are written. -/
def execute_create_pcb (s : KState) (pid : Nat) (prog_name : List Nat) (prog_name_len : Nat)
    (arg_buffer_local : Nat → Nat) (arg_len_local : Nat) : KState :=
  let pcb_pointer := KERNEL_STACK_ADDR - (pid + 1) * KERNEL_STACK_OFFSET
  let s4b := pcb_write (execute_init_pcb s pid) pcb_pointer 36 arg_len_local arg_buffer_local
  let cmd_len := if prog_name_len > MAX_CMD_LEN then MAX_CMD_LEN else prog_name_len
  s4b.setPcb pcb_pointer (fun p => { p with
    arg_len := arg_len_local
    command := fun i =>
      if i = MAX_CMD_LEN then 0
      else if i < cmd_len then cstr prog_name i
      else if i < MAX_CMD_LEN + 1 then 0 else p.command i
    file_descriptor := fun fd_i =>
      if fd_i < 8 then { p.file_descriptor fd_i with flags := FD_FLAG_EMPTY }
      else p.file_descriptor fd_i })

/-- Lines 229-261 of `sys_execute`: saved frame, kernel stack, current PCB,
terminal table, alarm counter, process pool, progress flag. -/
def execute_commit (env : Env) (s : KState) (pid : Nat) : KState :=
  let pcb_pointer := KERNEL_STACK_ADDR - (pid + 1) * KERNEL_STACK_OFFSET
  let s1 := s.setPcb pcb_pointer (fun p => { p with ebp := env.ebp, esp := env.esp })
  let s2 : KState := { s1 with tss_esp0 := KERNEL_STACK_ADDR - pid * KERNEL_STACK_OFFSET - 4 }
  let s3 := s2.setPcb pcb_pointer (fun p => { p with tss_esp := s2.tss_esp0 })
  let s4 : KState := { s3 with pcb := pcb_pointer }
  let s5 := s4.setTerm s4.cur.terminal_id (fun x => { x with pcb := s4.pcb })
  let s6 : KState := { s5 with vrtc_alarm := Function.update s5.vrtc_alarm s5.cur.terminal_id 0 }
  let s7 : KState := { s6 with pcb_pool := Function.update s6.pcb_pool pid s6.pcb }
  { s7 with progress := 0 }

/-- Lines 124-276 of `sys_execute`, entered once all checks have passed, with
`command` pointing just behind the program name. -/
def execute_start (env : Env) (s : KState) (available_pid : Int) (prog_name : List Nat)
    (prog_name_len : Nat) (command : List Nat) : exec_outcome × KState :=
  let args := parse_args env.stack command
  let s1 := reMap4MBPage s available_pid
  let sz := return_file_size s1.fs s1.open_file_dentry prog_name
  let s2 : KState := { s1 with open_file_dentry := sz.2 }
  let rd := read_dentry_by_name s2.fs prog_name ⟨[], 0, 0, []⟩
  if rd.1 = -1 ∨ sz.1 = -1 then (.ret (-1), { s2 with progress := 0 })
  else
    let s3 : KState := { s2 with mem :=
      (read_data s2.fs rd.2.inode_number 0 PROGRAM_PAGE_ADDR (toU32 sz.1) s2.mem).2 }
    let prog_eip := ld32 s3.mem (PROGRAM_PAGE_ADDR + 24)
    let s4 := execute_create_pcb s3 available_pid.toNat prog_name prog_name_len args.1 args.2
    (.iret (PROGRAM_STACK_ADDR - 4) prog_eip, execute_commit env s4 available_pid.toNat)

/-- Lines 64-122 of `sys_execute`: the parameter check, the program name and
the executable check. -/
def execute_parse (env : Env) (s : KState) (available_pid : Int) (command : Option (List Nat)) :
    exec_outcome × KState :=
  match command with
  | none => (.ret (-1), { s with progress := 0 })
  | some command =>
    let prog_name_start :=
      scan_until (fun c => c ≠ 32) (cstr command) (strlen command) (strlen command) 0
    let command1 := command.drop prog_name_start
    let prog_name_len :=
      scan_until (fun c => c = 32) (cstr command1) (strlen command1) (strlen command1) 0
    if prog_name_len = 0 then (.ret (-1), { s with progress := 0 })
    else
      let prog_name := command1.take prog_name_len
      let ce := check_executable s.fs s.open_file_dentry env.stack prog_name
      if ce.1 = -1 then (.ret (-1), { s with open_file_dentry := ce.2, progress := 0 })
      else
        execute_start env { s with open_file_dentry := ce.2 } available_pid prog_name prog_name_len
          (command1.drop prog_name_len)

/-- The function `sys_execute`; `none` is the null command pointer. -/
def sys_execute (env : Env) (s : KState) (command : Option (List Nat)) : exec_outcome × KState :=
  let s1 : KState := { s with progress := 1 }
  let available_pid := find_next_pid s1
  if available_pid = -1 then (.ret (-1), { s1 with progress := 0 })
  else execute_parse env s1 available_pid command

/-- The program name `sys_execute` extracts from a command: the leading
spaces are skipped and the bytes up to the next space (or the end) are taken. -/
def prog_name_of (command : List Nat) : List Nat :=
  let command1 := command.drop
    (scan_until (fun c => c ≠ 32) (cstr command) (strlen command) (strlen command) 0)
  command1.take (scan_until (fun c => c = 32) (cstr command1) (strlen command1) (strlen command1) 0)

/-! ## Signals and `sys_halt` (`signals.c`, `syscalls.c`) -/

def DIV_ZERO : Nat := 0
def SEGFAULT : Nat := 1
def INTERRUPT : Nat := 2
def ALARM : Nat := 3
def USER1 : Nat := 4
def SYSKILL : Nat := 5

/-- The command "shell" that `sys_halt` executes for a base shell. -/
def shell_cmd : List Nat := [115, 104, 101, 108, 108]

/-- How `sys_halt` ends: in the `while (1)` of an invalid PID, in the shell it
has executed again, by returning a value to its own caller (the restart did
not start a program), or by returning `halt_status` in the frame `ebp`/`esp`
that the parent's `sys_execute` had saved. -/
inductive halt_outcome where
  | hang
  | shell (prog_esp prog_eip : Nat)
  | ret (v : Int)
  | to_parent (halt_status : Int) (ebp esp : Nat)
deriving DecidableEq, Repr

/-- The loop `for (fd_i = 2; fd_i < 7; fd_i++) sys_close (fd_i)` of `sys_halt`:
iterations left, then `fd_i`. -/
def halt_close_loop (s : KState) : Nat → Nat → KState
  | 0, _ => s
  | k + 1, fd_i =>
    if fd_i < 7 then halt_close_loop (sys_close s (fd_i : Int)).2 k (fd_i + 1) else s

/-- Lines 331-359 of `sys_halt`: the descriptors are closed, the vidmap page is
torn down, the user page is mapped to the parent, and the terminal table, the
current PCB, the kernel stack and the progress flag are set. -/
def halt_teardown (s : KState) : KState :=
  let s4 := halt_close_loop s 5 2
  let s5 := unMap4KBVidMemPage s4
  let s6 := reMap4MBPage s5 (toInt8 s5.cur.previous_id)
  let s7 := s6.setTerm s6.cur.terminal_id (fun x => { x with pcb := s6.pcb_pool s6.cur.previous_id })
  let s8 := s7.setTerm s7.cur.terminal_id (fun x => { x with vidmap := 0 })
  let s9 : KState := { s8 with pcb := s8.pcb_pool s8.cur.previous_id }
  let s10 : KState := { s9 with tss_esp0 := s9.cur.tss_esp }
  { s10 with progress := 0 }

/-- Lines 288-300 of `sys_halt`: progress flag, halt reason and the pool slot of
the dying process; `status` is a `uint8_t`. -/
def halt_begin (s : KState) (status : Nat) : KState :=
  let s1 : KState := { s with progress := 1 }
  let s2 : KState := { s1 with halt_status :=
    if status % 256 = 0 ∧ (s1.cur.sig_pending = DIV_ZERO ∨ s1.cur.sig_pending = SEGFAULT) then 256
    else ((status % 256 : Nat) : Int) }
  { s2 with pcb_pool := Function.update s2.pcb_pool s2.cur.process_id 0 }

/-- The function `sys_halt`. -/
def sys_halt (env : Env) (s : KState) (status : Nat) : halt_outcome × KState :=
  let s3 := halt_begin s status
  if s3.cur.process_id > 5 then (.hang, s3)
  else if s3.cur.process_id < TERMINAL_COUNT then
    match sys_execute env s3 (some shell_cmd) with
    | (.iret prog_esp prog_eip, s4) => (.shell prog_esp prog_eip, s4)
    | (.ret _, s4) => (.ret (-1), { s4 with progress := 0 })
  else
    (.to_parent (halt_teardown s3).halt_status s3.cur.ebp s3.cur.esp, halt_teardown s3)

/-- The function `sig_set (pcb, sig_num)`; `p` is the PCB pointer. -/
def sig_set (s : KState) (p : Nat) (sig_num : Nat) : KState :=
  if (s.pcb_mem p).sig_pending ≤ sig_num ∨ (s.pcb_mem p).sig_mask ≠ 0 then s
  else s.setPcb p (fun x => { x with sig_pending := sig_num })

/-- The function `sig_collect_esp`. -/
def sig_collect_esp (s : KState) (esp : Nat) : KState :=
  if esp > KERNEL_STACK_ADDR ∧ s.cur.sig_mask = 0 then
    s.setPcb s.pcb (fun x => { x with user_esp := esp })
  else s

/-- The function `sig_handle`: `none` when the default action is to do nothing
and the function returns, otherwise how the `sys_halt (0)` it calls ends. -/
def sig_handle (env : Env) (s : KState) (sig_num : Nat) : Option halt_outcome × KState :=
  if sig_num = DIV_ZERO ∨ sig_num = SEGFAULT ∨ sig_num = INTERRUPT ∨ sig_num = SYSKILL then
    (some (sys_halt env s 0).1, (sys_halt env s 0).2)
  else (none, s)

/-- How `sig_dispatch` ends: it returns `eax` to the linkage, it leaves through
`iret` into the user handler, or the default handler has ended the process
and control does not come back. -/
inductive dispatch_outcome where
  | ret (eax : Nat)
  | handler (eip user_esp : Nat)
  | halted (o : halt_outcome)
deriving DecidableEq, Repr

/-- The branch of `sig_dispatch` that calls the handler the user installed:
`linkage` is the address of `sig_linkage`, the registers come from `env`.  The
`memcpy` into `sig_stackshot` (byte 220 of the PCB, 108 bytes) takes
`sig_stacksize` bytes from the kernel stack at `ebp`, whatever their number:
from byte 108 on they run over the descriptor table. -/
def dispatch_custom (env : Env) (s : KState) (eax pending linkage : Nat) : dispatch_outcome × KState :=
  let user_esp := s.cur.user_esp
  if user_esp ≤ KERNEL_STACK_ADDR then (.ret eax, s)
  else
    let s1 := s.setPcb s.pcb (fun x => { x with
      sig_pending := NULLSIG, sig_mask := 1, sig_eax := eax, sig_ebp := env.ebp, sig_esp := env.esp })
    let s2 := s1.setPcb s1.pcb (fun x => { x with
      sig_stacksize := (x.tss_esp + (U32 - env.ebp % U32)) % U32 % 256 })
    let s3 := pcb_write s2 s2.pcb 220 s2.cur.sig_stacksize (fun k => ldb s2.mem (env.ebp + k))
    let s4 : KState := { s3 with mem := st32 (st32 s3.mem (user_esp - 4) pending) (user_esp - 8) linkage }
    let e := s4.pageDir 1
    let s5 : KState := { s4 with pageDir := Function.update s4.pageDir 1 ({ e with US := 1 }) }
    (.handler (s5.cur.sig_handlers pending) (user_esp - 8), s5)

/-- The branch of `sig_dispatch` that runs the default handler. -/
def dispatch_default (env : Env) (s : KState) (eax pending : Nat) : dispatch_outcome × KState :=
  let s1 := s.setPcb s.pcb (fun x => { x with sig_pending := NULLSIG, sig_mask := 1 })
  match sig_handle env s1 (pending % 256) with
  | (none, s2) => (.ret eax, s2.setPcb s2.pcb (fun x => { x with sig_mask := 0 }))
  | (some (.ret _), s2) => (.ret eax, s2.setPcb s2.pcb (fun x => { x with sig_mask := 0 }))
  | (some o, s2) => (.halted o, s2)

/-- The function `sig_dispatch (eax)`. -/
def sig_dispatch (env : Env) (s : KState) (eax linkage : Nat) : dispatch_outcome × KState :=
  if s.cur.sig_mask ≠ 0 then (.ret eax, s)
  else
    let pending := s.cur.sig_pending
    if s.cur.user_esp = 0 then (.ret eax, s)
    else if pending < 5 ∧ s.cur.sig_handlers pending ≠ 0 then dispatch_custom env s eax pending linkage
    else dispatch_default env s eax pending

/-- The store `pcb->sig_handlers[signum] = v` for any `signum`.  With the fields
of `pcb_t` laid out in order (the handlers at byte 200, after eight 32-bit
fields from byte 168, two bytes and padding at 164, `arg_buffer` from 36,
`command` from 4 and four bytes at 0) a negative index stores into the field
that lies `4 * signum` bytes before the array; below the PCB it stores into
the memory at `p + 200 + 4 * signum`, `p` being the address of the PCB. -/
def store_handler_word (s : KState) (p : Nat) (signum : Int) (v : Nat) : KState :=
  if 0 ≤ signum then
    s.setPcb p (fun x => { x with sig_handlers := Function.update x.sig_handlers signum.toNat v })
  else if signum = -1 then s.setPcb p (fun x => { x with user_esp := v })
  else if signum = -2 then s.setPcb p (fun x => { x with sig_eax := v })
  else if signum = -3 then s.setPcb p (fun x => { x with sig_esp := v })
  else if signum = -4 then s.setPcb p (fun x => { x with sig_ebp := v })
  else if signum = -5 then s.setPcb p (fun x => { x with tss_esp := v })
  else if signum = -6 then s.setPcb p (fun x => { x with esp := v })
  else if signum = -7 then s.setPcb p (fun x => { x with ebp := v })
  else if signum = -8 then s.setPcb p (fun x => { x with arg_len := v })
  else if signum = -9 then
    s.setPcb p (fun x => { x with
      sig_stacksize := v % 256, sig_mask := v / 256 % 256, pad := v / 65536 % 65536 })
  else if -41 ≤ signum then
    let o := (164 + 4 * signum).toNat
    s.setPcb p (fun x => { x with arg_buffer := fun i =>
      if o ≤ i ∧ i < o + 4 then v / 256 ^ (i - o) % 256 else x.arg_buffer i })
  else if -49 ≤ signum then
    let o := (196 + 4 * signum).toNat
    s.setPcb p (fun x => { x with command := fun i =>
      if o ≤ i ∧ i < o + 4 then v / 256 ^ (i - o) % 256 else x.command i })
  else if signum = -50 then
    s.setPcb p (fun x => { x with
      process_id := v % 256, terminal_id := v / 256 % 256
      previous_id := v / 65536 % 256, sig_pending := v / 16777216 % 256 })
  else { s with mem := st32 s.mem (toU32 ((p : Int) + 200 + 4 * signum)) v }

/-- The function `sys_set_handler`. -/
def sys_set_handler (s : KState) (signum : Int) (handler_address : Nat) : Int × KState :=
  if signum > 4 then (-1, s)
  else (0, store_handler_word s s.pcb signum handler_address)

def VIDEO_MEM_BYTES : Nat := 4096
def VIDEO_MEM_ADDR : Nat := 0xB8000
def VIDEO_BACKUP_ADDR0 : Nat := 0xB9000
def VIDEO_BACKUP_ADDR1 : Nat := 0xBA000
def VIDEO_BACKUP_ADDR2 : Nat := 0xBB000
def VIDEO_MEM_PAGE : Nat := 0xB8
def VIDEO_BACKUP_PAGE0 : Nat := 0xB9
def VIDEO_BACKUP_PAGE1 : Nat := 0xBA
def VIDEO_BACKUP_PAGE2 : Nat := 0xBB
def VIDEO_BACKUP_PAGE_EXTRA : Nat := 0xBC
def PAGE_DIR_SIZE : Nat := 1024
def PAGE_TABLE_SIZE : Nat := 1024

/-- The function `set_page_directory`. -/
def set_page_directory (s : KState) : KState :=
  { s with pageDir := fun i =>
      if i < PAGE_DIR_SIZE then
        { P := 0, RW := 1, US := 1, PWT := 0, PCD := 0, A := 0, Z := 0, PS := 0, G := 0, AVL := 0
          pd_address := 0 }
      else s.pageDir i }

/-- The function `set_page_table (pageTable)`, on the array it is given. -/
def set_page_table (pageTable : Nat → pageTable_t) : Nat → pageTable_t := fun i =>
  if i < PAGE_TABLE_SIZE then
    { P := 0, RW := 1, US := 0, PWT := 0, PCD := 0, A := 0, D := 0, PAT := 0, G := 0, AVL := 0
      physicalAddress := 0 }
  else pageTable i

/-- Lines 37-54 of `paging_init`: the four page-directory entries in use.
The arguments `low` and `high` are the addresses of the arrays `pageTableLow`
and `pageTableHigh`. -/
def paging_init_dir (s : KState) (low high : Nat) : KState :=
  let d0 := Function.update s.pageDir 0
    ({ s.pageDir 0 with P := 1, pd_address := low % U32 / 4096 })
  let d1 := Function.update d0 1 ({ d0 1 with P := 1, US := 0, PS := 1, pd_address := 1024 })
  let d2 := Function.update d1 32 ({ d1 32 with P := 1, US := 1, PS := 1 })
  let d3 := Function.update d2 33 ({ d2 33 with US := 1, pd_address := high % U32 / 4096 })
  { s with pageDir := d3 }

/-- Assignment of `P = 1` and of the frame to `pageTableLow [i]`. -/
def map_low (t : Nat → pageTable_t) (i page : Nat) : Nat → pageTable_t :=
  Function.update t i ({ t i with P := 1, physicalAddress := page })

/-- The function `paging_init`; `load_page_dir` acts on the control registers,
which are outside the modelled state. -/
def paging_init (s : KState) (low high : Nat) : KState :=
  let s1 := set_page_directory s
  let s2 : KState := { s1 with pageTableLow := set_page_table s1.pageTableLow }
  let s3 : KState := { s2 with pageTableHigh := set_page_table s2.pageTableHigh }
  let s4 := paging_init_dir s3 low high
  let t1 := map_low s4.pageTableLow 0xB8 VIDEO_MEM_PAGE
  let t2 := map_low t1 0xB9 VIDEO_BACKUP_PAGE0
  let t3 := map_low t2 0xBA VIDEO_BACKUP_PAGE1
  let t4 := map_low t3 0xBB VIDEO_BACKUP_PAGE2
  let t5 := map_low t4 0xBC VIDEO_BACKUP_PAGE_EXTRA
  let s5 : KState := { s4 with pageTableLow := t5 }
  let e : pageTable_t := { s5.pageTableHigh 0 with US := 1, P := 1, physicalAddress := VIDEO_MEM_PAGE }
  { s5 with pageTableHigh := Function.update s5.pageTableHigh 0 e }

/-! ## Scheduler (`scheduler.c`, `pit.c`) -/

/-- The assignments `switchEnvironmentInit` makes to `terminals [t]`. -/
def terminal_reset (addr page : Nat) (x : terminal_t) : terminal_t :=
  { x with video_backup_addr := addr, video_backup_page := page, initialized := 0
           screen_x := 0, screen_y := 0, echo := 0, vidmap := 0 }

/-- The function `switchEnvironmentInit`. -/
def switchEnvironmentInit (s : KState) : KState :=
  let s0 := s.setTerm 0 (terminal_reset VIDEO_BACKUP_ADDR0 VIDEO_BACKUP_PAGE0)
  let s1 := s0.setTerm 1 (terminal_reset VIDEO_BACKUP_ADDR1 VIDEO_BACKUP_PAGE1)
  s1.setTerm 2 (terminal_reset VIDEO_BACKUP_ADDR2 VIDEO_BACKUP_PAGE2)

/-- How `switchContext` (and `switchTerminalInit`, `pit_handle`) ends: it
returns to its caller, it has called `sys_execute ("shell")` which ended as
`o`, or it continues in the frame `ebp`/`esp` saved for the target terminal. -/
inductive switch_outcome where
  | returned
  | shell (o : exec_outcome)
  | resumed (ebp esp : Nat)
deriving DecidableEq, Repr

/-- The function `switchTerminalInit`; `env` gives the registers that the
`sys_execute` it calls reads. -/
def switchTerminalInit (env : Env) (s : KState) (terminal_id : Nat) : switch_outcome × KState :=
  if terminal_id ≥ TERMINAL_COUNT then (.returned, s)
  else
    let s1 : KState := { s with progress := 1 }
    let s2 : KState := { s1 with pcb := KERNEL_STACK_ADDR - (terminal_id + 1) * KERNEL_STACK_OFFSET }
    let s3 := s2.setPcb s2.pcb (fun x => { x with terminal_id := terminal_id })
    let s4 := s3.setPcb s3.pcb (fun x => { x with previous_id := terminal_id })
    let s5 := s4.setTerm terminal_id (fun x => { x with initialized := 1 })
    let s6 := s5.setTerm terminal_id (fun x => { x with pcb := s5.pcb })
    let s7 : KState := { s6 with progress := 0 }
    (.shell (sys_execute env s7 (some shell_cmd)).1, (sys_execute env s7 (some shell_cmd)).2)

/-- The function `switchVidMem`; the two `memcpy` calls copy between the
framebuffer and the backing pages, which lie in the kernel's byte memory. -/
def switchVidMem (s : KState) (terminal_id : Nat) : KState :=
  if terminal_id ≥ TERMINAL_COUNT then s
  else
    let s1 : KState := { s with progress := 1 }
    let m1 := memcpy_to s1.mem (s1.terminals s1.terminal_active).video_backup_addr
      (fun i => ldb s1.mem (VIDEO_MEM_ADDR + i)) VIDEO_MEM_BYTES
    let m2 := memcpy_to m1 VIDEO_MEM_ADDR
      (fun i => ldb m1 ((s1.terminals terminal_id).video_backup_addr + i)) VIDEO_MEM_BYTES
    let s2 : KState := { s1 with mem := m2 }
    let e : pageTable_t := { s2.pageTableHigh 0 with physicalAddress := VIDEO_MEM_PAGE }
    let s3 : KState :=
      if s2.video_mem = (s2.terminals terminal_id).video_backup_addr then
        { s2 with video_mem := VIDEO_MEM_ADDR, pageTableHigh := Function.update s2.pageTableHigh 0 e }
      else s2
    let s4 : KState := { s3 with terminal_active := terminal_id }
    { s4 with progress := 0 }

/-- Lines 121-142 of `switchContext`: the cursor, PCB, frame and kernel stack
of the running terminal are saved, the cursor of the target is loaded. -/
def switch_save (env : Env) (s : KState) (terminal_id : Nat) : KState :=
  let current_terminal := s.cur.terminal_id
  let s1 := s.setTerm current_terminal
    (fun x => { x with screen_x := s.screen_x, screen_y := s.screen_y })
  let s2 := s1.setTerm current_terminal (fun x => { x with pcb := s1.pcb })
  let s3 := s2.setTerm current_terminal
    (fun x => { x with ebp := env.ebp, esp := env.esp, tss_esp := s2.tss_esp0 })
  { s3 with
    screen_x := (s3.terminals terminal_id).screen_x
    screen_y := (s3.terminals terminal_id).screen_y }

/-- The condition at lines 162-163 of `switchContext`, under which the video
memory of the target is the framebuffer. -/
def video_to_vram (s : KState) (terminal_id : Nat) : Prop :=
  (s.scheduler_enable ≠ 0 ∧ (s.terminals terminal_id).initialized ≠ 0 ∧
    s.terminal_active = (s.pcb_mem (s.terminals terminal_id).pcb).terminal_id) ∨
  (s.scheduler_enable = 0 ∧ ((s.terminals terminal_id).initialized = 0 ∨
    s.terminal_active = (s.pcb_mem (s.terminals terminal_id).pcb).terminal_id))

instance (s : KState) (terminal_id : Nat) : Decidable (video_to_vram s terminal_id) := by
  unfold video_to_vram
  exact inferInstance

/-- Lines 144-175 of `switchContext`: the vidmap page is mapped or unmapped
and `video_mem` and the frame of the vidmap page-table entry are chosen.
The cursor register set by `set_cursor_loc` is outside the modelled state. -/
def switch_video (s : KState) (terminal_id : Nat) : KState :=
  let s5 := if (s.terminals terminal_id).vidmap ≠ 0 then map4KBVidMemPage s else unMap4KBVidMemPage s
  let e1 : pageTable_t := { s5.pageTableHigh 0 with physicalAddress := VIDEO_MEM_PAGE }
  let e2 : pageTable_t := { s5.pageTableHigh 0 with
    physicalAddress := (s5.terminals terminal_id).video_backup_page % 1048576 }
  if video_to_vram s5 terminal_id then
    { s5 with video_mem := VIDEO_MEM_ADDR, pageTableHigh := Function.update s5.pageTableHigh 0 e1 }
  else
    { s5 with
      video_mem := (s5.terminals terminal_id).video_backup_addr
      pageTableHigh := Function.update s5.pageTableHigh 0 e2 }

/-- Lines 186-210 of `switchContext`, for an initialised target. -/
def switch_resume (s : KState) (terminal_id : Nat) : switch_outcome × KState :=
  let ebp := (s.terminals terminal_id).ebp
  let esp := (s.terminals terminal_id).esp
  let s7 : KState := { s with pcb := (s.terminals terminal_id).pcb }
  let s8 := reMap4MBPage s7 (toInt8 s7.cur.process_id)
  let s9 : KState := { s8 with tss_esp0 := (s8.terminals terminal_id).tss_esp }
  (.resumed ebp esp, s9)

/-- The function `switchContext`: `env` gives the registers it saves,
`env_init` those read by the `sys_execute` of `switchTerminalInit`.  The
screen cleared by `clear ()` is outside the modelled state, as is all output
of `putc`. -/
def switchContext (env env_init : Env) (s : KState) (terminal_id : Nat) : switch_outcome × KState :=
  if terminal_id ≥ TERMINAL_COUNT then (.returned, s)
  else
    let s6 := switch_video (switch_save env s terminal_id) terminal_id
    if (s6.terminals terminal_id).initialized = 0 then switchTerminalInit env_init s6 terminal_id
    else switch_resume s6 terminal_id

/-- The argument of the `switchContext` call that `pit_handle` makes, `none`
when it makes none. -/
def pit_target (s : KState) : Option Nat :=
  if s.progress ≠ 0 ∨ (s.scheduler_enable = 0 ∧ s.cur.terminal_id = s.terminal_active) then none
  else if s.cur.terminal_id = 0 then some 1
  else if s.cur.terminal_id = 1 then some 2
  else if s.cur.terminal_id = 2 then some 0
  else none

/-- The function `pit_handle`; `send_eoi` acts on the interrupt controller,
which is outside the modelled state. -/
def pit_handle (env env_init : Env) (s : KState) : switch_outcome × KState :=
  match pit_target s with
  | none => (.returned, s)
  | some t => switchContext env env_init s t

/-! ## Sequences of operations and the properties stated of them -/

/-- What is stated of the running process: `tss.esp0` is the `tss_esp` of the
current PCB, which is `0x800000 - pid * 0x2000 - 4`; directory entry 32 is the
one `reMap4MBPage` installs for its `process_id`; the current PCB is
`pcb_pool [process_id]`; and it is the PCB of its terminal. -/
def running_ok (s : KState) : Prop :=
  s.tss_esp0 = s.cur.tss_esp ∧
  s.cur.tss_esp = KERNEL_STACK_ADDR - s.cur.process_id * KERNEL_STACK_OFFSET - 4 ∧
  s.pageDir 32 = (reMap4MBPage s (toInt8 s.cur.process_id)).pageDir 32 ∧
  s.pcb = s.pcb_pool s.cur.process_id ∧
  (s.terminals s.cur.terminal_id).pcb = s.pcb

/-- A call of one of the four descriptor system calls, with its arguments. -/
inductive fd_call where
  | c_open (filename : Option (List Nat))
  | c_write (fd : Int) (buf : Nat) (nbytes : Int)
  | c_read (env : Env) (fd : Int) (buf : Nat) (nbytes : Int)
  | c_close (fd : Int)

/-- The state after one descriptor call; `none` when the call does not return. -/
def fd_step (s : KState) : fd_call → Option KState
  | .c_open f => some (sys_open s f).2
  | .c_write fd buf n => (sys_write s fd buf n).map Prod.snd
  | .c_read env fd buf n => (sys_read env s fd buf n).map Prod.snd
  | .c_close fd => some (sys_close s fd).2

/-- The state after a sequence of descriptor calls that all return. -/
def fd_run (s : KState) : List fd_call → Option KState
  | [] => some s
  | c :: cs =>
    match fd_step s c with
    | none => none
    | some s1 => fd_run s1 cs

/-- The frequencies 2, 4, ..., 1024. -/
def rtc_freq_ok (v : Nat) : Prop := ∃ k, 1 ≤ k ∧ k ≤ 10 ∧ v = 2 ^ k

/-- Every descriptor of the current table that is flagged rtc has the rtc
operation table and stores one of the frequencies 2, 4, ..., 1024. -/
def rtc_fds_ok (s : KState) : Prop :=
  ∀ i, i < 8 → (s.cur.file_descriptor i).flags = FD_FLAG_RTC →
    (s.cur.file_descriptor i).file_op_table_ptr = .rtc_sys_calls ∧
    rtc_freq_ok (s.cur.file_descriptor i).inode

/-- What a run of `sys_execute` that enters the program has done with the PID
`pid`, `pool` being the process pool before the call: the PCB of slot `pid` is
the current PCB, it is entered in the pool at `pid` with `process_id = pid`,
the other slots of the pool are untouched and the progress flag is clear. -/
def committed (pool : Nat → Nat) (s' : KState) (pid : Nat) : Prop :=
  s'.pcb = KERNEL_STACK_ADDR - (pid + 1) * KERNEL_STACK_OFFSET ∧
  s'.pcb_pool pid = s'.pcb ∧
  s'.cur.process_id = pid ∧
  (∀ j, j ≠ pid → s'.pcb_pool j = pool j) ∧
  s'.progress = 0

/-! ## Example images and states -/

/-- Memory given by a table of (address, byte) pairs; zero elsewhere. -/
def sparse (l : List (Nat × Nat)) : Mem := fun a => (l.lookup a).getD 0

/-- An image at 0x410000 with six directory entries (".", "lst", "cat",
"verylargetextwithverylongname.tx", "rtc", "shell") and three inodes: inode 0
is empty, inode 1 ("lst") has 4100 bytes in data blocks 2 and 0, inode 2
("cat" and "shell") has 28 bytes in data block 1, an ELF header with entry
point 0x080482E8. -/
def fsDemo : FileSys :=
  { file_sys_start_addr := 4259840
    img := sparse
      [(4259840, 6), (4259844, 3), (4259848, 3), (4259904, 46), (4259936, 1), (4259968, 108),
       (4259969, 115), (4259970, 116), (4260000, 2), (4260004, 1), (4260032, 99), (4260033, 97),
       (4260034, 116), (4260064, 2), (4260068, 2), (4260096, 118), (4260097, 101),
       (4260098, 114), (4260099, 121), (4260100, 108), (4260101, 97), (4260102, 114),
       (4260103, 103), (4260104, 101), (4260105, 116), (4260106, 101), (4260107, 120),
       (4260108, 116), (4260109, 119), (4260110, 105), (4260111, 116), (4260112, 104),
       (4260113, 118), (4260114, 101), (4260115, 114), (4260116, 121), (4260117, 108),
       (4260118, 111), (4260119, 110), (4260120, 103), (4260121, 110), (4260122, 97),
       (4260123, 109), (4260124, 101), (4260125, 46), (4260126, 116), (4260127, 120),
       (4260128, 2), (4260160, 114), (4260161, 116), (4260162, 99), (4268032, 4), (4268033, 16),
       (4268036, 2), (4272128, 28), (4272132, 1), (4288510, 65), (4288511, 66), (4276224, 67),
       (4276225, 68), (4276226, 69), (4276227, 70), (4280320, 127), (4280321, 69), (4280322, 76),
       (4280323, 70), (4280344, 232), (4280345, 130), (4280346, 4), (4280347, 8),
       (4260224, 115), (4260225, 104), (4260226, 101), (4260227, 108), (4260228, 108),
       (4260256, 2), (4260260, 2)] }

/-- An image at 0x410000 with 257 inodes: inode 0 holds the one byte 'A',
inode 256 (the file "big") is empty. -/
def fsWide : FileSys :=
  { file_sys_start_addr := 4259840
    img := sparse
      [(4259840, 1), (4259844, 1), (4259845, 1), (4259848, 1), (4259904, 98), (4259905, 105),
       (4259906, 103), (4259936, 2), (4259941, 1), (4263936, 1), (5316608, 65)] }

/-- A dentry buffer of a caller. -/
def dentryDemo : dentry_t := ⟨[1, 2, 3], 7, 9, []⟩

/-- The 33-byte name of `file_name_char_limit`. -/
def name33 : List Nat :=
  [118, 101, 114, 121, 108, 97, 114, 103, 101, 116, 101, 120, 116, 119, 105, 116, 104, 118, 101,
   114, 121, 108, 111, 110, 103, 110, 97, 109, 101, 46, 116, 120, 116]

/-- The 32-byte name of `read_verylarge_txt_pass`. -/
def name32 : List Nat := name33.take 32

/-- A PCB area that was never written: every field zero. -/
def pcbZero : pcb_t :=
  { process_id := 0, terminal_id := 0, previous_id := 0, sig_pending := 0
    command := fun _ => 0, arg_buffer := fun _ => 0
    sig_stacksize := 0, sig_mask := 0, arg_len := 0
    ebp := 0, esp := 0, tss_esp := 0, sig_ebp := 0, sig_esp := 0, sig_eax := 0, user_esp := 0
    sig_handlers := fun _ => 0, sig_stackshot := fun _ => 0
    file_descriptor := fun _ => ⟨.null, 0, 0, FD_FLAG_EMPTY⟩ }

/-- A PCB area last used by a process that had a file open at descriptor 2
(inode 5, position 10) when it ended without closing it. -/
def pcbStale : pcb_t :=
  { pcbZero with
      file_descriptor := fun i =>
        if i = 2 then ⟨.file_sys_calls, 5, 10, FD_FLAG_FILE⟩ else ⟨.null, 0, 0, FD_FLAG_EMPTY⟩ }

/-- An entry of the terminal table before its terminal is initialised. -/
def termZero : terminal_t :=
  { video_backup_addr := 0, video_backup_page := 0, initialized := 0, ebp := 0, esp := 0
    tss_esp := 0, screen_x := 0, screen_y := 0, pcb := 0, echo := 0, vidmap := 0 }

/-- A page-directory entry as `set_page_directory` leaves it. -/
def pdeZero : pageDir_t :=
  { P := 0, RW := 1, US := 1, PWT := 0, PCD := 0, A := 0, Z := 0, PS := 0, G := 0, AVL := 0
    pd_address := 0 }

/-- A page-table entry as `set_page_table` leaves it. -/
def pteZero : pageTable_t :=
  { P := 0, RW := 1, US := 0, PWT := 0, PCD := 0, A := 0, D := 0, PAT := 0, G := 0, AVL := 0
    physicalAddress := 0 }

/-- The kernel right after `switchTerminalInit (0)` has pointed `pcb` at the
PCB area of slot 0 (0x7FE000), with the image `fs` mounted and the PCB area
holding `area`; the process pool is empty.  The operation tables are taken to
lie at 0x40C000, 0x40C010 and 0x40C020 of the kernel image. -/
def kInit (fs : FileSys) (area : pcb_t) : KState :=
  { fs := fs
    open_file_dentry := ⟨[], 0, 0, []⟩
    mem := fun _ => 0
    pcb := 8380416
    pcb_mem := fun a => if a = 8380416 then area else pcbZero
    progress := 0
    halt_status := 0
    pcb_pool := fun _ => 0
    terminals := fun t => if t = 0 then { termZero with initialized := 1, pcb := 8380416 } else termZero
    terminal_active := 0
    tss_esp0 := 0
    pageDir := fun _ => pdeZero
    pageTableLow := fun _ => pteZero
    pageTableHigh := fun _ => pteZero
    vrtc_counter := fun _ => 0
    vrtc_alarm := fun _ => 0
    rtc_open_flag := 1
    buf_local := fun _ _ => 0
    buf_ready := fun _ => 0
    buf_size_in := fun _ => 0
    tty := []
    op_table_addr := fun p =>
      match p with
      | .file_sys_calls => 0x40C000
      | .rtc_sys_calls => 0x40C010
      | .dir_sys_calls => 0x40C020
      | _ => 0 }

/-- Registers and stack contents of the example runs. -/
def envDemo : Env :=
  { ebp := 8388000, esp := 8387900, stack := fun _ => 0, kbd_buf := fun _ => 0, kbd_size := 0 }

/-- The command "cat abc". -/
def cmdCatAbc : List Nat := [99, 97, 116, 32, 97, 98, 99]

/-- The example kernel after `sys_execute ("cat abc")` from `kInit` on a stale
PCB area: the process created is PID 0. -/
def kCat : KState := (sys_execute envDemo (kInit fsDemo pcbStale) (some cmdCatAbc)).2

/-- The example kernel with all six slots of the process pool occupied. -/
def kFull : KState :=
  { kCat with pcb_pool := fun i => if i < 6 then KERNEL_STACK_ADDR - (i + 1) * KERNEL_STACK_OFFSET else 0 }

/-- The same process created on a PCB area that was all zero. -/
def kCatFresh : KState := (sys_execute envDemo (kInit fsDemo pcbZero) (some cmdCatAbc)).2

/-- The example process with "rtc" opened (at slot 2). -/
def kRtc : KState := (sys_open kCat (some [114, 116, 99])).2

/-- An image at 0x410000 with one file "fake" (inode 0, 28 bytes in data block
0) whose first four bytes are 0x00, 'E', 'L', 'F'. -/
def fsFake : FileSys :=
  { file_sys_start_addr := 4259840
    img := sparse
      [(4259840, 1), (4259844, 1), (4259848, 1), (4259904, 102), (4259905, 97), (4259906, 107),
       (4259907, 101), (4259936, 2), (4263936, 28), (4268033, 69), (4268034, 76), (4268035,
       70), (4268056, 232), (4268057, 130), (4268058, 4), (4268059, 8)] }

/-- The command "cat". -/
def cmdCat : List Nat := [99, 97, 116]

/-- The command "fake". -/
def cmdFake : List Nat := [102, 97, 107, 101]

/-- The example kernel after the process of PID 0 has executed "cat": the
process created is PID 1, its parent PID 0. -/
def kP1 : KState := (sys_execute envDemo kCat (some cmdCat)).2

/-- The example kernel after PID 1 has executed "cat": PID 2, parent 1. -/
def kP2 : KState := (sys_execute envDemo kP1 (some cmdCat)).2

/-- The example kernel after PID 2 has executed "cat": PID 3, parent 2. -/
def kP3 : KState := (sys_execute envDemo kP2 (some cmdCat)).2

/-- The process of PID 3 once it has entered the kernel from user mode with
stack pointer 0x083FFFF0 and the exception reporter has set DIV_ZERO. -/
def kP3DivZero : KState :=
  let k := sig_collect_esp kP3 138412016
  sig_set k k.pcb DIV_ZERO

/-- The process of PID 3 once it has entered the kernel from user mode and
`rtc_handle` has set ALARM. -/
def kP3Alarm : KState :=
  let k := sig_collect_esp kP3 138412016
  sig_set k k.pcb ALARM

/-- The process of PID 3 after six opens ("rtc", ".", "cat", "lst", "cat",
"cat") have filled slots 2..7. -/
def kP3Six : KState :=
  let k1 := (sys_open kP3 (some [114, 116, 99])).2
  let k2 := (sys_open k1 (some [46])).2
  let k3 := (sys_open k2 (some [99, 97, 116])).2
  let k4 := (sys_open k3 (some [108, 115, 116])).2
  let k5 := (sys_open k4 (some [99, 97, 116])).2
  (sys_open k5 (some [99, 97, 116])).2

/-- The kernel after `paging_init` (with the page tables at 0x405000 and
0x406000) and `switchEnvironmentInit`, before any terminal is initialised. -/
def kBoot : KState :=
  switchEnvironmentInit
    (paging_init { kInit fsDemo pcbZero with pcb := 0, terminals := fun _ => termZero }
      4214784 4218880)

/-- Registers at the point where `switchContext` saves them, in the examples. -/
def envSwitch : Env :=
  { ebp := 8379000, esp := 8378900, stack := fun _ => 0, kbd_buf := fun _ => 0, kbd_size := 0 }

/-- The kernel after `switchTerminalInit (0)`: the shell of terminal 0, PID 0. -/
def kT0 : KState := (switchTerminalInit envDemo kBoot 0).2

/-- The shell of terminal 0 has executed "cat": PID 1, on terminal 0. -/
def kT0Cat : KState := (sys_execute envDemo kT0 (some cmdCat)).2

/-- From `kT0Cat`, `switchContext (1)`: terminal 1 is initialised and its shell
runs as PID 2. -/
def kT1 : KState := (switchContext envSwitch envDemo kT0Cat 1).2

/-- From `kT1`, `switchContext (0)`: back on the process of PID 1. -/
def kBack : KState := (switchContext envSwitch envDemo kT1 0).2

/-- The shell of terminal 0 after the scheduler was enabled (Ctrl+S) and
`switchVidMem (1)` has made terminal 1, not yet initialised, the active one. -/
def kSched : KState := { switchVidMem kT0 1 with scheduler_enable := 1 }

/-- The keyboard hands over the line "hello!" (6 bytes). -/
def envLine : Env :=
  { envDemo with kbd_buf := cstr [104, 101, 108, 108, 111, 33], kbd_size := 6 }

/-- The shell of terminal 0 with "cat" open at descriptor 2, a handler for
ALARM installed at 0x08049000, ALARM pending after an entry from user mode with
stack pointer 0x083FFFF0, and the word 7 on its kernel stack at 0x7FFFF4. -/
def kSig : KState :=
  let k1 := (sys_open kT0 (some cmdCat)).2
  let k2 := (sys_set_handler k1 3 134516736).2
  let k3 := sig_collect_esp k2 138412016
  let k4 := sig_set k3 k3.pcb ALARM
  { k4 with mem := st32 k4.mem 8388596 7 }

/-- Registers in `sig_dispatch` with a kernel stack 160 bytes deep:
`ebp = tss_esp - 160` for the process of PID 0. -/
def envDeep : Env :=
  { ebp := 8388444, esp := 8388400, stack := fun _ => 0, kbd_buf := fun _ => 0, kbd_size := 0 }

/-- An image at 0x410000 whose boot block counts one directory entry ("a",
entry 0); entry 1 still holds the name "old" of a file that is no longer
counted. -/
def fsStale : FileSys :=
  { file_sys_start_addr := 4259840
    img := sparse
      [(4259840, 1), (4259844, 1), (4259848, 1), (4259904, 97), (4259936, 2),
       (4259968, 111), (4259969, 108), (4259970, 100), (4260000, 2)] }

/-- Registers and stack contents of a run in which the stack bytes that the
local `buf[1..3]` of `check_executable` comes to lie on hold 'E', 'L', 'F'. -/
def envElf : Env :=
  { envDemo with stack := sparse [(2, 69), (3, 76), (4, 70)] }

/-- From the shell of terminal 0 with the scheduler enabled (Ctrl+S), the next
timer tick: `pit_handle` calls `switchContext (1)`, terminal 1 is initialised
and its shell (PID 1) runs while terminal 0 stays the active one. -/
def kBg : KState := (pit_handle envDemo envDemo { kT0 with scheduler_enable := 1 }).2

/-- The command "cat " followed by an argument of 130 bytes: 128 times 'a',
then 'y', 'z'. -/
def cmdLong : List Nat := [99, 97, 116, 32] ++ List.replicate 128 97 ++ [121, 122]

/-- The example kernel after `sys_execute` of `cmdLong` from `kInit`. -/
def kLong : KState := (sys_execute envDemo (kInit fsDemo pcbZero) (some cmdLong)).2

/-- The example process with "rtc" open at descriptor 2 and the file "lst" at
descriptor 3. -/
def kRtcLst : KState := (sys_open kRtc (some [108, 115, 116])).2

/-- From `kRtcLst`, `sys_read (3, &pcb->file_descriptor[2].inode, 4)`: the
buffer is the inode member of descriptor 2 of the caller's own PCB
(0x7FE000 + 328 + 2 * 16 + 4). -/
def kFreq1 : KState :=
  ((sys_read_k envDemo kRtcLst 3 8380780 4).map Prod.snd).getD kRtcLst

/-- The example process with "rtc" open at descriptor 2 and the file "cat" at
descriptor 3. -/
def kRtcCat : KState := (sys_open kRtc (some cmdCat)).2

/-- From `kRtcCat`, `sys_read (3, &pcb->file_descriptor[2].inode, 4)`. -/
def kFreq2 : KState :=
  ((sys_read_k envDemo kRtcCat 3 8380780 4).map Prod.snd).getD kRtcCat

/-! # Theorems -/

/-! ## Memory -/

theorem ldb_lt (m : Mem) (a : Nat) : ldb m a < 256 := by
  unfold ldb; omega

theorem ldb_mod (m : Mem) (a : Nat) : ldb m (a % U32) = ldb m a := by
  unfold ldb; rw [Nat.mod_mod]

theorem ldb_add_mod (m : Mem) (a b : Nat) : ldb m (a % U32 + b) = ldb m (a + b) := by
  unfold ldb; rw [Nat.mod_add_mod]

theorem ld32_mod (m : Mem) (a : Nat) : ld32 m (a % U32) = ld32 m a := by
  unfold ld32; rw [ldb_mod, ldb_add_mod, ldb_add_mod, ldb_add_mod]

theorem ldb_congr (m : Mem) {a b : Nat} (h : a % U32 = b % U32) : ldb m a = ldb m b := by
  unfold ldb; rw [h]

theorem ld32_congr (m : Mem) {a b : Nat} (h : a % U32 = b % U32) : ld32 m a = ld32 m b := by
  rw [← ld32_mod m a, ← ld32_mod m b, h]

theorem stb_same (m : Mem) (a v : Nat) : stb m a v (a % U32) = v % 256 := by
  simp [stb]

theorem stb_other (m : Mem) (a v x : Nat) (h : x ≠ a % U32) : stb m a v x = m x := by
  simp [stb, h]

/-! ## `read_data` -/

theorem toInt32_lt (x : Nat) : toInt32 x < 2147483648 := by
  unfold toInt32 U32; split_ifs <;> omega

theorem read_count_succ (n : Nat) (r : Int) (hr : r > 0) :
    read_count (n + 1) r = read_count n (r - 1) + 1 := by
  unfold read_count
  by_cases hr1 : r - 1 > 0
  · simp only [hr, hr1, if_true]; omega
  · simp only [hr, hr1, if_true, if_false]; omega

theorem read_count_lt (n : Nat) (r : Int) (hr : r < 4294967296) : read_count n r < 4294967296 := by
  unfold read_count
  split_ifs <;> omega

theorem read_data_loop_ret (fs : FileSys) (ds is io buf : Nat) :
    ∀ (length : Nat) (r : Int) (br : Nat) (mem : Mem),
      (read_data_loop fs ds is io buf length r br mem).1 = ((br + read_count length r : Nat) : Int) := by
  intro length
  induction length with
  | zero => intro r br mem; simp [read_data_loop, read_count]
  | succ n ih =>
    intro r br mem
    unfold read_data_loop
    by_cases hr : r > 0
    · simp only [hr, if_true]
      rw [ih, read_count_succ n r hr]
      congr 1
      omega
    · simp [hr, read_count]

theorem read_data_loop_frame (fs : FileSys) (ds is io buf : Nat) :
    ∀ (length : Nat) (r : Int) (br : Nat) (mem : Mem) (a : Nat),
      (∀ k, k < read_count length r → a ≠ (buf + (br + k)) % U32) →
      (read_data_loop fs ds is io buf length r br mem).2 a = mem a := by
  intro length
  induction length with
  | zero => intro r br mem a _; simp [read_data_loop]
  | succ n ih =>
    intro r br mem a h
    unfold read_data_loop
    by_cases hr : r > 0
    · simp only [hr, if_true]
      have hc := read_count_succ n r hr
      rw [ih]
      · apply stb_other
        have := h 0 (by omega)
        simpa using this
      · intro k hk
        have := h (k + 1) (by omega)
        rw [show br + 1 + k = br + (k + 1) by omega]
        exact this
    · simp [hr]

theorem read_data_loop_bytes (fs : FileSys) (ds is io buf : Nat) :
    ∀ (length : Nat) (r : Int) (br : Nat) (mem : Mem) (k : Nat),
      r ≤ 4294967296 →
      k < read_count length r →
      ldb (read_data_loop fs ds is io buf length r br mem).2 (buf + (br + k))
        = ldb fs.img (read_src_addr fs ds is io (br + k)) := by
  intro length
  induction length with
  | zero => intro r br mem k _ hk; simp [read_count] at hk
  | succ n ih =>
    intro r br mem k hr32 hk
    by_cases hr : r > 0
    · have hc := read_count_succ n r hr
      have hcle := read_count_lt n (r - 1) (by omega)
      unfold read_data_loop
      simp only [hr, if_true]
      cases k with
      | zero =>
        unfold ldb
        rw [read_data_loop_frame]
        · simp only [Nat.add_zero]
          rw [stb_same]
          unfold read_src_addr
          simp [Nat.mod_mod]
        · intro j hj
          simp only [Nat.add_zero, U32]
          omega
      | succ k =>
        have := ih (r - 1) (br + 1) (stb mem (buf + br) (ldb fs.img
          ((ds + TOTAL_BLOCK_SIZE * ld32 fs.img ((is + (io + br) / TOTAL_BLOCK_SIZE * 4) % U32)
            + (io + br) % TOTAL_BLOCK_SIZE) % U32))) k (by omega) (by omega)
        rw [show br + 1 + k = br + (k + 1) by omega] at this
        exact this
    · simp [read_count, hr] at hk

theorem read_data_loop_bytes0 (fs : FileSys) (ds is io buf : Nat)
    (length : Nat) (r : Int) (mem : Mem) (k : Nat) (hr : r ≤ 4294967296)
    (hk : k < read_count length r) :
    ldb (read_data_loop fs ds is io buf length r 0 mem).2 (buf + k)
      = ldb fs.img (read_src_addr fs ds is io k) := by
  have := read_data_loop_bytes fs ds is io buf length r 0 mem k hr hk
  rw [Nat.zero_add] at this
  exact this

/-- The loop arguments `read_data` starts from, for a non-null buffer and a
valid inode. -/
theorem read_data_unfold (fs : FileSys) (inode offset buf length : Nat) (mem : Mem)
    (hbuf : buf ≠ 0) (hin : inode < n_inodes fs) :
    read_data fs inode offset buf length mem
      = read_data_loop fs
          ((fs.file_sys_start_addr + TOTAL_BLOCK_SIZE * (n_inodes fs + 1)) % U32)
          (((fs.file_sys_start_addr + TOTAL_BLOCK_SIZE * (inode + 1)) % U32
              + 4 * (offset / TOTAL_BLOCK_SIZE + 1)) % U32)
          (offset % TOTAL_BLOCK_SIZE) buf length
          (toInt32 (inode_size fs inode + (U32 - offset % U32))) 0 mem := by
  unfold read_data
  have h2 : ld32 fs.img (fs.file_sys_start_addr + 4) > inode := hin
  simp only [hbuf, if_false, h2, not_true_eq_false]
  rw [ld32_mod]
  rfl

/-- Return value of `read_data` for a non-null buffer and a valid inode. -/
theorem read_data_ret (fs : FileSys) (inode offset buf length : Nat) (mem : Mem)
    (hbuf : buf ≠ 0) (hin : inode < n_inodes fs) :
    (read_data fs inode offset buf length mem).1
      = ((read_count length (toInt32 (inode_size fs inode + (U32 - offset % U32))) : Nat) : Int) := by
  rw [read_data_unfold fs inode offset buf length mem hbuf hin, read_data_loop_ret]
  simp

/-- Value of `file_size_remaining` when the size and the offset are both below `2^31`. -/
theorem remaining_of_small (size offset : Nat) (hs : size < 2147483648) (ho : offset < 2147483648) :
    toInt32 (size + (U32 - offset % U32)) = (size : Int) - (offset : Int) := by
  unfold toInt32 U32
  split_ifs <;> omega

/-- Bytes copied by `read_data` when size and offset are both below `2^31`. -/
theorem read_count_of_small (length size offset : Nat) (hs : size < 2147483648)
    (ho : offset < 2147483648) :
    read_count length (toInt32 (size + (U32 - offset % U32))) = min length (size - offset) := by
  rw [remaining_of_small size offset hs ho]
  unfold read_count
  split_ifs <;> omega

/-- The byte `read_data` copies in iteration `k` is byte `(offset + k) mod 4096`
of the data block listed at entry `(offset + k) div 4096`. -/
theorem read_src_addr_eq (fs : FileSys) (inode offset k : Nat) :
    ldb fs.img (read_src_addr fs
          ((fs.file_sys_start_addr + TOTAL_BLOCK_SIZE * (n_inodes fs + 1)) % U32)
          (((fs.file_sys_start_addr + TOTAL_BLOCK_SIZE * (inode + 1)) % U32
              + 4 * (offset / TOTAL_BLOCK_SIZE + 1)) % U32)
          (offset % TOTAL_BLOCK_SIZE) k)
      = data_block_byte fs (inode_block_entry fs inode ((offset + k) / 4096)) ((offset + k) % 4096) := by
  unfold read_src_addr data_block_byte inode_block_entry
  have e1 : ld32 fs.img ((((fs.file_sys_start_addr + TOTAL_BLOCK_SIZE * (inode + 1)) % U32
              + 4 * (offset / TOTAL_BLOCK_SIZE + 1)) % U32
              + (offset % TOTAL_BLOCK_SIZE + k) / TOTAL_BLOCK_SIZE * 4) % U32)
      = ld32 fs.img (fs.file_sys_start_addr + TOTAL_BLOCK_SIZE * (inode + 1)
          + 4 * ((offset + k) / 4096 + 1)) := by
    apply ld32_congr
    simp only [TOTAL_BLOCK_SIZE, U32]
    omega
  rw [e1]
  apply ldb_congr
  simp only [TOTAL_BLOCK_SIZE, U32]
  generalize ld32 fs.img (fs.file_sys_start_addr + 4096 * (inode + 1) + 4 * ((offset + k) / 4096 + 1)) = e
  omega

/-- C1 (read at or past EOF): `read_data (0, 0xC0000000, buf, 1)` on the empty
inode 0 of the example image returns 1, although the offset is past the size
of the file, where the claim has 0. -/
theorem read_data_far_offset_not_eof :
    0 < n_inodes fsDemo ∧ inode_size fsDemo 0 ≤ 3221225472 ∧
    (read_data fsDemo 0 3221225472 PROGRAM_PAGE_ADDR 1 (fun _ => 0)).1 = 1 := by
  decide

/-- Byte `k` of the buffer after `read_data`, for `k` below the number of
bytes copied. -/
theorem read_data_byte_at (fs : FileSys) (inode offset buf length : Nat) (mem : Mem)
    (hbuf : buf ≠ 0) (hin : inode < n_inodes fs) (k : Nat)
    (hk : k < read_count length (toInt32 (inode_size fs inode + (U32 - offset % U32)))) :
    ldb (read_data fs inode offset buf length mem).2 (buf + k)
      = data_block_byte fs (inode_block_entry fs inode ((offset + k) / 4096))
          ((offset + k) % 4096) := by
  have hr := toInt32_lt (inode_size fs inode + (U32 - offset % U32))
  rw [read_data_unfold fs inode offset buf length mem hbuf hin,
    read_data_loop_bytes0 _ _ _ _ _ _ _ _ _ (by omega) hk]
  exact read_src_addr_eq fs inode offset k

/-- C2 (bytes copied by read_data): for a valid inode and a non-null buffer,
byte `k` of `buf`, for every `k` below the returned count, is byte
`(offset + k) mod 4096` of the data block whose number is entry
`(offset + k) div 4096` of the block-index table of the inode; the bytes of
`buf` from the returned count on, and all memory outside the bytes copied, are
unchanged. -/
theorem read_data_follows_block_table (fs : FileSys) (inode offset buf length : Nat) (mem : Mem)
    (hbuf : buf ≠ 0) (hin : inode < n_inodes fs) :
    (∀ k : Nat, (k : Int) < (read_data fs inode offset buf length mem).1 →
      ldb (read_data fs inode offset buf length mem).2 (buf + k)
        = data_block_byte fs (inode_block_entry fs inode ((offset + k) / 4096))
            ((offset + k) % 4096)) ∧
    (∀ k : Nat, (read_data fs inode offset buf length mem).1 ≤ (k : Int) → k < U32 →
      ldb (read_data fs inode offset buf length mem).2 (buf + k) = ldb mem (buf + k)) ∧
    (∀ a : Nat, (∀ k : Nat, (k : Int) < (read_data fs inode offset buf length mem).1 →
        a ≠ (buf + k) % U32) →
      (read_data fs inode offset buf length mem).2 a = mem a) := by
  have hret := read_data_ret fs inode offset buf length mem hbuf hin
  have hun := read_data_unfold fs inode offset buf length mem hbuf hin
  have hr := toInt32_lt (inode_size fs inode + (U32 - offset % U32))
  have hcl := read_count_lt length (toInt32 (inode_size fs inode + (U32 - offset % U32))) (by omega)
  have hcl2 : read_count length (toInt32 (inode_size fs inode + (U32 - offset % U32))) < 2147483648 := by
    unfold read_count; split_ifs <;> omega
  rw [hret]
  have frame : ∀ a : Nat, (∀ k : Nat,
        k < read_count length (toInt32 (inode_size fs inode + (U32 - offset % U32))) →
        a ≠ (buf + k) % U32) →
      (read_data fs inode offset buf length mem).2 a = mem a := by
    intro a h
    rw [hun]
    apply read_data_loop_frame
    intro k hk
    rw [Nat.zero_add]
    exact h k hk
  refine ⟨?_, ?_, ?_⟩
  · intro k hk
    have hk' : k < read_count length (toInt32 (inode_size fs inode + (U32 - offset % U32))) := by
      exact_mod_cast hk
    exact read_data_byte_at fs inode offset buf length mem hbuf hin k hk'
  · intro k hk hk32
    have hk' : read_count length (toInt32 (inode_size fs inode + (U32 - offset % U32))) ≤ k := by
      exact_mod_cast hk
    unfold ldb
    rw [frame]
    intro j hj
    simp only [U32] at hk32 ⊢
    omega
  · intro a h
    apply frame
    intro k hk
    exact h k (by exact_mod_cast hk)

/-- C2 at the example image: a read of four bytes at offset 4094 of inode 1
crosses from data block 2 into data block 0. -/
theorem read_data_follows_block_table_witness :
    (PROGRAM_PAGE_ADDR ≠ 0 ∧ 1 < n_inodes fsDemo) ∧
    (read_data fsDemo 1 4094 PROGRAM_PAGE_ADDR 4 (fun _ => 0)).1 = 4 ∧
    inode_block_entry fsDemo 1 0 = 2 ∧ inode_block_entry fsDemo 1 1 = 0 ∧
    ldb (read_data fsDemo 1 4094 PROGRAM_PAGE_ADDR 4 (fun _ => 0)).2 (PROGRAM_PAGE_ADDR + 2)
      = data_block_byte fsDemo (inode_block_entry fsDemo 1 ((4094 + 2) / 4096)) ((4094 + 2) % 4096) :=
  ⟨by decide, by decide, by decide, by decide,
   (read_data_follows_block_table fsDemo 1 4094 PROGRAM_PAGE_ADDR 4 (fun _ => 0)
      (by decide) (by decide)).1 2 (by decide)⟩

/-! ## `strncmp` and `read_dentry_by_name` -/

theorem toInt8_sub_eq_zero {a b : Nat} (ha : a < 256) (hb : b < 256) :
    toInt8 a - toInt8 b = 0 ↔ a = b := by
  unfold toInt8
  rw [Nat.mod_eq_of_lt ha, Nat.mod_eq_of_lt hb]
  split_ifs <;> omega

theorem strncmp_from_shift (s1 s2 : Nat → Nat) :
    ∀ (k i : Nat), strncmp_from s1 s2 (i + 1) k
      = strncmp_from (fun t => s1 (t + 1)) (fun t => s2 (t + 1)) i k := by
  intro k
  induction k with
  | zero => intro i; simp [strncmp_from]
  | succ k ih =>
    intro i
    simp only [strncmp_from]
    rw [ih]

theorem cstr_cons_succ (a : Nat) (q : List Nat) (t : Nat) : cstr (a :: q) (t + 1) = cstr q t := by
  simp [cstr]

theorem cstring_nil : cstring [] = [] := by simp [cstring]

theorem cstring_cons (a : Nat) (q : List Nat) :
    cstring (a :: q) = if a % 256 ≠ 0 then a % 256 :: cstring q else [] := by
  simp only [cstring, List.map_cons, List.takeWhile_cons]
  by_cases h : a % 256 = 0 <;> simp [h]

/-- The `strncmp` of a C string of at most `n` bytes against an `n`-byte field is 0
exactly when the field, cut at its first NUL, is the string. -/
theorem strncmp_from_eq_zero :
    ∀ (n : Nat) (q : List Nat) (f : Nat → Nat), (∀ t, f t < 256) → (cstring q).length ≤ n →
      (strncmp_from (cstr q) f 0 n = 0 ↔ ((List.range n).map f).takeWhile (· ≠ 0) = cstring q) := by
  intro n
  induction n with
  | zero =>
    intro q f _ hlen
    have : cstring q = [] := List.length_eq_zero.mp (by omega)
    simp [strncmp_from, this]
  | succ n ih =>
    intro q f hf hlen
    rw [List.range_succ_eq_map]
    simp only [strncmp_from, List.map_cons, List.map_map, List.takeWhile_cons]
    have hf0 := hf 0
    cases q with
    | nil =>
      have h0 : cstr [] 0 = 0 := by simp [cstr]
      rw [h0, cstring_nil]
      simp only [or_true, if_true]
      rw [toInt8_sub_eq_zero (by omega) hf0]
      by_cases h : f 0 = 0
      · simp [h]
      · have : (0 : Nat) ≠ f 0 := fun e => h e.symm
        simp [h, this]
    | cons a q =>
      have h0 : cstr (a :: q) 0 = a % 256 := by simp [cstr]
      have ha : a % 256 < 256 := by omega
      rw [h0, cstring_cons]
      by_cases haz : a % 256 = 0
      · simp only [haz, or_true, if_true, ne_eq, not_true_eq_false, if_false]
        rw [toInt8_sub_eq_zero (by omega) hf0]
        by_cases h : f 0 = 0
        · simp [h]
        · have : (0 : Nat) ≠ f 0 := fun e => h e.symm
          simp [h, this]
      · by_cases hne : a % 256 = f 0
        · have hfz : f 0 ≠ 0 := by rw [← hne]; exact haz
          have hlen1 : (cstring q).length ≤ n := by
            rw [cstring_cons] at hlen
            simp only [ne_eq, haz, not_false_eq_true, if_true, List.length_cons] at hlen
            omega
          have := ih q (fun t => f (t + 1)) (fun t => hf (t + 1)) hlen1
          simp only [hne, ne_eq, not_true_eq_false, hfz, or_self, if_false, not_false_eq_true,
            decide_True, if_true, List.cons.injEq, true_and]
          rw [strncmp_from_shift]
          have hc : (fun t => cstr (a :: q) (t + 1)) = cstr q := by
            funext t; exact cstr_cons_succ a q t
          rw [hc, this]
          rfl
        · simp only [ne_eq, hne, not_false_eq_true, true_or, if_true, haz]
          rw [toInt8_sub_eq_zero ha hf0]
          constructor
          · intro h; exact absurd h hne
          · intro h
            by_cases hfz : f 0 = 0
            · simp [hfz] at h
            · simp [hfz] at h
              exact absurd h.1.symm hne

/-- The comparison `read_dentry_by_name` makes at entry `j` succeeds exactly
when the name stored there is the query. -/
theorem dentry_match_iff (fs : FileSys) (fname : List Nat) (j : Nat) (hlen : strlen fname ≤ 32) :
    strncmp (cstr fname) (fun t => ldb fs.img (dentry_addr fs j + t)) 32 = 0
      ↔ stored_name fs j = cstring fname := by
  unfold strncmp stored_name
  exact strncmp_from_eq_zero 32 fname _ (fun t => ldb_lt _ _) hlen

theorem dentry_addr_succ (fs : FileSys) (j : Nat) : dentry_addr fs (j + 1) = dentry_addr fs j + 64 := by
  unfold dentry_addr; omega

/-- The scan fails exactly when no entry it visits matches, and then leaves
the dentry alone. -/
theorem read_dentry_loop_none (fs : FileSys) (fname : List Nat) (d : dentry_t)
    (hlen : strlen fname ≤ 32) :
    ∀ (k j0 : Nat), (∀ j, j0 ≤ j → j < j0 + k → stored_name fs j ≠ cstring fname) →
      read_dentry_by_name_loop fs fname d k (dentry_addr fs j0) = (-1, d) := by
  intro k
  induction k with
  | zero => intro j0 _; simp [read_dentry_by_name_loop]
  | succ k ih =>
    intro j0 h
    unfold read_dentry_by_name_loop
    have h0 : ¬ (strncmp (cstr fname) (fun t => ldb fs.img (dentry_addr fs j0 + t)) 32 = 0) :=
      fun hz => h j0 (le_refl _) (by omega) ((dentry_match_iff fs fname j0 hlen).mp hz)
    simp only [h0, if_false]
    rw [← dentry_addr_succ]
    apply ih
    intro j hj1 hj2
    exact h j (by omega) (by omega)

/-- The scan returns the type and inode number of the first matching entry. -/
theorem read_dentry_loop_first (fs : FileSys) (fname : List Nat) (d : dentry_t)
    (hlen : strlen fname ≤ 32) :
    ∀ (k j0 j : Nat), j0 ≤ j → j < j0 + k → stored_name fs j = cstring fname →
      (∀ j', j0 ≤ j' → j' < j → stored_name fs j' ≠ cstring fname) →
      read_dentry_by_name_loop fs fname d k (dentry_addr fs j0)
        = (0, { d with file_name := strncpy fname 32
                       file_type := stored_type fs j
                       inode_number := stored_inode fs j }) := by
  intro k
  induction k with
  | zero => intro j0 j h1 h2; omega
  | succ k ih =>
    intro j0 j h1 h2 hm hfirst
    unfold read_dentry_by_name_loop
    by_cases hj : j = j0
    · subst hj
      have hm' := (dentry_match_iff fs fname j hlen).mpr hm
      simp only [hm', if_true]
      unfold stored_type stored_inode
      rw [show dentry_addr fs j + 32 + 4 = dentry_addr fs j + 36 by omega]
    · have h0 : ¬ (strncmp (cstr fname) (fun t => ldb fs.img (dentry_addr fs j0 + t)) 32 = 0) :=
        fun hz => hfirst j0 (le_refl _) (by omega) ((dentry_match_iff fs fname j0 hlen).mp hz)
      simp only [h0, if_false]
      rw [← dentry_addr_succ]
      apply ih (j0 + 1) j (by omega) (by omega) hm
      intro j' hj1 hj2
      exact hfirst j' (by omega) hj2

/-- Among the entries below `n`, a matching one has a first matching one. -/
theorem first_match (P : Nat → Prop) (n : Nat) :
    (∃ j, j < n ∧ P j) → ∃ j, j < n ∧ P j ∧ ∀ j', j' < j → ¬ P j' := by
  classical
  rintro ⟨j, hj, hp⟩
  have hex : ∃ j, P j := ⟨j, hp⟩
  refine ⟨Nat.find hex, ?_, Nat.find_spec hex, fun j' hj' => Nat.find_min hex hj'⟩
  exact lt_of_le_of_lt (Nat.find_min' hex hp) hj

theorem read_dentry_by_name_unfold (fs : FileSys) (fname : List Nat) (d : dentry_t)
    (hlen : strlen fname ≤ 32) :
    read_dentry_by_name fs fname d = read_dentry_by_name_loop fs fname d 63 (dentry_addr fs 0) := by
  unfold read_dentry_by_name
  have : ¬ strlen fname > 32 := by omega
  simp only [this, if_false]
  rfl

/-- For a query of at most 32 bytes the lookup returns the first matching
entry of the 63. -/
theorem read_dentry_by_name_first (fs : FileSys) (fname : List Nat) (d : dentry_t)
    (hlen : strlen fname ≤ 32) (j : Nat) (hj : j < 63)
    (hm : stored_name fs j = cstring fname)
    (hf : ∀ j', j' < j → stored_name fs j' ≠ cstring fname) :
    read_dentry_by_name fs fname d
      = (0, { d with file_name := strncpy fname 32
                     file_type := stored_type fs j
                     inode_number := stored_inode fs j }) := by
  rw [read_dentry_by_name_unfold fs fname d hlen]
  exact read_dentry_loop_first fs fname d hlen 63 0 j (Nat.zero_le _) (by omega) hm
    (fun j' _ h => hf j' h)

/-- For a query of at most 32 bytes that no entry stores, the lookup fails
and leaves the dentry alone. -/
theorem read_dentry_by_name_none (fs : FileSys) (fname : List Nat) (d : dentry_t)
    (hlen : strlen fname ≤ 32)
    (h : ¬ ∃ j, j < 63 ∧ stored_name fs j = cstring fname) :
    read_dentry_by_name fs fname d = (-1, d) := by
  rw [read_dentry_by_name_unfold fs fname d hlen]
  apply read_dentry_loop_none fs fname d hlen
  intro j _ hj hm
  exact h ⟨j, by omega, hm⟩

/-- A stored name equal to the query is found. -/
theorem read_dentry_by_name_found (fs : FileSys) (fname : List Nat) (d : dentry_t)
    (hlen : strlen fname ≤ 32) (hex : ∃ j, j < 63 ∧ stored_name fs j = cstring fname) :
    (read_dentry_by_name fs fname d).1 = 0 := by
  obtain ⟨j, hj, hm, hf⟩ := first_match (fun j => stored_name fs j = cstring fname) 63 hex
  rw [read_dentry_by_name_first fs fname d hlen j hj hm hf]

/-- What the scan of `read_dentry_by_name` does: for a query of at most 32
bytes it returns 0 exactly when one of the 63 entry slots of the boot block,
counted by `n_dentries` or not, stores a name equal to the whole query, and -1
with the dentry untouched otherwise; a stored name of which the query is a
proper beginning, or that is a proper beginning of the query, does not match.
On success the dentry holds the file type and inode index of the first
matching slot. -/
theorem read_dentry_by_name_exact (fs : FileSys) (fname : List Nat) (d : dentry_t)
    (hlen : strlen fname ≤ 32) :
    ((read_dentry_by_name fs fname d).1 = 0
        ↔ ∃ j, j < 63 ∧ stored_name fs j = cstring fname) ∧
    ((read_dentry_by_name fs fname d).1 ≠ 0 → read_dentry_by_name fs fname d = (-1, d)) ∧
    (∀ j t, stored_name fs j = cstring fname ++ t → t ≠ [] →
        strncmp (cstr fname) (fun i => ldb fs.img (dentry_addr fs j + i)) 32 ≠ 0) ∧
    (∀ j t, cstring fname = stored_name fs j ++ t → t ≠ [] →
        strncmp (cstr fname) (fun i => ldb fs.img (dentry_addr fs j + i)) 32 ≠ 0) ∧
    (∀ j, j < 63 → stored_name fs j = cstring fname →
        (∀ j', j' < j → stored_name fs j' ≠ cstring fname) →
        read_dentry_by_name fs fname d
          = (0, { d with file_name := strncpy fname 32
                         file_type := stored_type fs j
                         inode_number := stored_inode fs j })) := by
  have hfirst := read_dentry_by_name_first fs fname d hlen
  have hnone := read_dentry_by_name_none fs fname d hlen
  refine ⟨⟨?_, ?_⟩, ?_, ?_, ?_, hfirst⟩
  · intro h0
    by_contra hne
    rw [hnone hne] at h0
    simp at h0
  · intro hex
    obtain ⟨j, hj, hm, hf⟩ := first_match (fun j => stored_name fs j = cstring fname) 63 hex
    rw [hfirst j hj hm hf]
  · intro h0
    by_cases hex : ∃ j, j < 63 ∧ stored_name fs j = cstring fname
    · obtain ⟨j, hj, hm, hf⟩ := first_match (fun j => stored_name fs j = cstring fname) 63 hex
      rw [hfirst j hj hm hf] at h0
      simp at h0
    · exact hnone hex
  · intro j t ht htne hz
    rw [dentry_match_iff fs fname j hlen, ht] at hz
    exact htne (List.append_right_eq_self.mp hz)
  · intro j t ht htne hz
    rw [dentry_match_iff fs fname j hlen, ht] at hz
    exact htne (List.self_eq_append_right.mp hz)

/-- The scan at the example image: "ls" (a beginning of the stored "lst") and
"cats" (which extends the stored "cat") are not found, "cat" is found at entry
2 with its type and inode index. -/
theorem read_dentry_by_name_exact_witness :
    strlen [99, 97, 116] ≤ 32 ∧
    read_dentry_by_name fsDemo [99, 97, 116] dentryDemo
      = (0, { dentryDemo with file_name := strncpy [99, 97, 116] 32
                              file_type := 2, inode_number := 2 }) ∧
    (read_dentry_by_name fsDemo [108, 115] dentryDemo).1 = -1 ∧
    (read_dentry_by_name fsDemo [99, 97, 116, 115] dentryDemo).1 = -1 :=
  ⟨by decide,
   (read_dentry_by_name_exact fsDemo [99, 97, 116] dentryDemo (by decide)).2.2.2.2 2
      (by decide) (by decide) (by decide),
   by decide, by decide⟩

/-- C3 (entries beyond the count): the example image has six directory
entries, none with an empty name, and `read_dentry_by_name ("")` returns 0,
with the type and inode of the unused slot 6, which `read_dentry_by_index`
refuses.  On the image that counts one entry, the name "old" left in slot 1 is
found as well. -/
theorem read_dentry_by_name_beyond_count :
    (n_dentries fsDemo = 6 ∧ (∀ j, j < 6 → stored_name fsDemo j ≠ []) ∧ strlen [] ≤ 32) ∧
    (read_dentry_by_name fsDemo [] dentryDemo).1 = 0 ∧
    (read_dentry_by_name fsDemo [] dentryDemo).2.file_type = stored_type fsDemo 6 ∧
    (read_dentry_by_name fsDemo [] dentryDemo).2.inode_number = stored_inode fsDemo 6 ∧
    (read_dentry_by_index fsDemo 6 dentryDemo).1 = -1 ∧
    (n_dentries fsStale = 1 ∧ stored_name fsStale 0 = [97] ∧
      stored_name fsStale 1 = [111, 108, 100]) ∧
    (read_dentry_by_name fsStale [111, 108, 100] dentryDemo).1 = 0 ∧
    (read_dentry_by_index fsStale 1 dentryDemo).1 = -1 := by
  decide!

/-- C4 (name length limit): a name longer than 32 bytes is never found and the
dentry of the caller is left as it was, whatever the directory holds; a name
of exactly 32 bytes is found when an entry stores these 32 bytes. -/
theorem read_dentry_by_name_length_limit (fs : FileSys) (fname : List Nat) (d : dentry_t) :
    (strlen fname > 32 → read_dentry_by_name fs fname d = (-1, d)) ∧
    (strlen fname = 32 → ∀ j, j < 63 → stored_name fs j = cstring fname →
        (read_dentry_by_name fs fname d).1 = 0) := by
  constructor
  · intro h
    unfold read_dentry_by_name
    simp [h]
  · intro h j hj hm
    exact read_dentry_by_name_found fs fname d (by omega) ⟨j, hj, hm⟩

/-- C4 at the example image: the 33-byte "verylargetextwithverylongname.txt" is
not found although its first 32 bytes are stored at entry 3; the 32-byte
"verylargetextwithverylongname.tx" is found. -/
theorem read_dentry_by_name_length_limit_witness :
    (strlen name33 > 32 ∧ name33.take 32 = stored_name fsDemo 3 ∧
      read_dentry_by_name fsDemo name33 dentryDemo = (-1, dentryDemo)) ∧
    (strlen name32 = 32 ∧ (read_dentry_by_name fsDemo name32 dentryDemo).1 = 0) :=
  ⟨⟨by decide, by decide,
    (read_dentry_by_name_length_limit fsDemo name33 dentryDemo).1 (by decide)⟩,
   ⟨by decide,
    (read_dentry_by_name_length_limit fsDemo name32 dentryDemo).2 (by decide) 3
      (by decide) (by decide)⟩⟩

/-! ## File-descriptor table: `sys_open`, `sys_close` -/

theorem setFd_slot (s : KState) (i : Nat) (d : file_desc_t) (j : Nat) :
    (s.setFd i d).cur.file_descriptor j = if j = i then d else s.cur.file_descriptor j := by
  simp [KState.setFd, KState.setPcb, KState.cur, Function.update]

theorem setFd_pcb (s : KState) (i : Nat) (d : file_desc_t) : (s.setFd i d).pcb = s.pcb := rfl

/-- Writing back the table a PCB already has changes nothing. -/
theorem setFd_restore (s : KState) (i : Nat) (d : file_desc_t) :
    (s.setFd i d).setFd i (s.cur.file_descriptor i) = s := by
  have h1 : ({ s.pcb_mem s.pcb with
        file_descriptor := Function.update (s.pcb_mem s.pcb).file_descriptor i
          ((s.pcb_mem s.pcb).file_descriptor i) } : pcb_t) = s.pcb_mem s.pcb := by
    rw [Function.update_eq_self]
  simp only [KState.setFd, KState.setPcb, KState.cur, Function.update_same, Function.update_idem]
  rw [h1, Function.update_eq_self]

/-- Every result of the slot loop of `sys_open`: failure with the state
unchanged, or an empty slot of the range filled with a non-empty descriptor. -/
theorem sys_open_loop_cases (s : KState) (dent : dentry_t) :
    ∀ (k i0 : Nat),
      sys_open_loop s dent k i0 = (-1, s) ∨
      ∃ i d, i0 ≤ i ∧ i < i0 + k ∧ (s.cur.file_descriptor i).flags = FD_FLAG_EMPTY ∧
        d.flags ≠ FD_FLAG_EMPTY ∧ sys_open_loop s dent k i0 = ((i : Int), s.setFd i d) := by
  intro k
  induction k with
  | zero => intro i0; left; rfl
  | succ k ih =>
    intro i0
    unfold sys_open_loop
    by_cases he : (s.cur.file_descriptor i0).flags = FD_FLAG_EMPTY
    · simp only [he, if_true]
      by_cases h1 : dent.file_type = FILE_TYPE_RTC
      · right
        exact ⟨i0, ⟨.rtc_sys_calls, 2, 0, FD_FLAG_RTC⟩, le_refl _, by omega, he, by decide,
          by rw [if_pos h1]⟩
      · by_cases h2 : dent.file_type = FILE_TYPE_DIR
        · right
          exact ⟨i0, ⟨.dir_sys_calls, 0, 0, FD_FLAG_DIR⟩, le_refl _, by omega, he, by decide,
            by rw [if_neg h1, if_pos h2]⟩
        · by_cases h3 : dent.file_type = FILE_TYPE_FILE
          · right
            have hfl : FD_FLAG_FILE ≠ FD_FLAG_EMPTY := by decide
            exact ⟨i0, ⟨.file_sys_calls, dent.inode_number, 0, FD_FLAG_FILE⟩, le_refl _, by omega,
              he, hfl, by rw [if_neg h1, if_neg h2, if_pos h3]⟩
          · left
            rw [if_neg h1, if_neg h2, if_neg h3]
    · simp only [he, if_false]
      rcases ih (i0 + 1) with h | ⟨i, d, h1, h2, h3, h4, h5⟩
      · left; exact h
      · right; exact ⟨i, d, by omega, by omega, h3, h4, h5⟩

/-- Every result of `sys_open`. -/
theorem sys_open_cases (s : KState) (filename : Option (List Nat)) :
    sys_open s filename = (-1, s) ∨
    ∃ i d, 2 ≤ i ∧ i ≤ 7 ∧ (s.cur.file_descriptor i).flags = FD_FLAG_EMPTY ∧
      d.flags ≠ FD_FLAG_EMPTY ∧ sys_open s filename = ((i : Int), s.setFd i d) := by
  unfold sys_open
  cases filename with
  | none => left; rfl
  | some f =>
    simp only
    by_cases h0 : cstr f 0 = 0
    · left; simp only [h0, if_true]
    · simp only [h0, if_false]
      by_cases h1 : (read_dentry_by_name s.fs f ⟨[], 0, 0, []⟩).1 = -1
      · left; simp only [h1, if_true]
      · simp only [h1, if_false]
        rcases sys_open_loop_cases s (read_dentry_by_name s.fs f ⟨[], 0, 0, []⟩).2 6 2 with
          h | ⟨i, d, h1, h2, h3, h4, h5⟩
        · left; exact h
        · right; exact ⟨i, d, h1, by omega, h3, h4, h5⟩

/-- C7 (sys_close): `sys_close (fd)` returns 0 exactly when `2 <= fd <= 7` and
slot `fd` is open; it then empties slot `fd` and leaves every other slot (and
the rest of the state) as it was.  For every other `fd` it returns -1 and
changes nothing. -/
theorem sys_close_open_slots_only (s : KState) (fd : Int) :
    ((sys_close s fd).1 = 0 ↔
      (2 ≤ fd ∧ fd ≤ 7 ∧ (s.cur.file_descriptor fd.toNat).flags ≠ FD_FLAG_EMPTY)) ∧
    ((2 ≤ fd ∧ fd ≤ 7 ∧ (s.cur.file_descriptor fd.toNat).flags ≠ FD_FLAG_EMPTY) →
      ((sys_close s fd).2.cur.file_descriptor fd.toNat).flags = FD_FLAG_EMPTY ∧
      (∀ j, j ≠ fd.toNat →
        (sys_close s fd).2.cur.file_descriptor j = s.cur.file_descriptor j) ∧
      (sys_close s fd).2 = s.setFd fd.toNat ⟨.null, 0, 0, FD_FLAG_EMPTY⟩) ∧
    (¬ (2 ≤ fd ∧ fd ≤ 7 ∧ (s.cur.file_descriptor fd.toNat).flags ≠ FD_FLAG_EMPTY) →
      sys_close s fd = (-1, s)) := by
  unfold sys_close
  by_cases h1 : fd < 2 ∨ fd > 7
  · rw [if_pos h1]
    refine ⟨⟨fun h => by simp at h, fun h => by omega⟩, fun h => by omega, fun _ => rfl⟩
  · rw [if_neg h1]
    by_cases h2 : (s.cur.file_descriptor fd.toNat).flags = FD_FLAG_EMPTY
    · rw [if_pos h2]
      refine ⟨⟨fun h => by simp at h, fun h => absurd h2 h.2.2⟩, fun h => absurd h2 h.2.2,
        fun _ => rfl⟩
    · rw [if_neg h2]
      refine ⟨⟨fun _ => ⟨by omega, by omega, h2⟩, fun _ => rfl⟩, fun _ => ⟨?_, ?_, rfl⟩,
        fun h => absurd ⟨by omega, by omega, h2⟩ h⟩
      · simp only [setFd_slot, if_true]
      · intro j hj
        simp only [setFd_slot, hj, if_false]

/-- C7 at the example process with "rtc" opened at slot 2: closing 2 succeeds
and empties the slot, closing the empty slot 6 and closing 1 fail. -/
theorem sys_close_open_slots_only_witness :
    ((2 : Int) ≤ 2 ∧ (2 : Int) ≤ 7 ∧
      (kRtc.cur.file_descriptor (2 : Int).toNat).flags ≠ FD_FLAG_EMPTY) ∧
    ((sys_close kRtc 2).2.cur.file_descriptor (2 : Int).toNat).flags = FD_FLAG_EMPTY ∧
    sys_close kRtc 6 = (-1, kRtc) ∧
    sys_close kRtc 1 = (-1, kRtc) :=
  ⟨by decide!,
   ((sys_close_open_slots_only kRtc 2).2.1 (by decide!)).1,
   (sys_close_open_slots_only kRtc 6).2.2 (by decide!),
   (sys_close_open_slots_only kRtc 1).2.2 (by decide!)⟩

/-- C8 as stated fails: in the process created by `sys_execute ("cat abc")` on
a PCB area whose slot 2 still holds the operation table, inode 5 and position
10 of its last user (only the flags are cleared), `sys_open ("cat")` returns 2,
`sys_close (2)` returns 0, and slot 2 is then all zero, not what it was. -/
theorem sys_open_close_not_identical :
    (sys_execute envDemo (kInit fsDemo pcbStale) (some cmdCatAbc)).2 = kCat ∧
    kCat.cur.file_descriptor 2 = ⟨.file_sys_calls, 5, 10, FD_FLAG_EMPTY⟩ ∧
    (sys_open kCat (some [99, 97, 116])).1 = 2 ∧
    (sys_close (sys_open kCat (some [99, 97, 116])).2 2).1 = 0 ∧
    (sys_close (sys_open kCat (some [99, 97, 116])).2 2).2.cur.file_descriptor 2
      = ⟨.null, 0, 0, FD_FLAG_EMPTY⟩ ∧
    (sys_close (sys_open kCat (some [99, 97, 116])).2 2).2.cur.file_descriptor 2
      ≠ kCat.cur.file_descriptor 2 :=
  ⟨by unfold kCat; rfl, by decide!, by decide!, by decide!, by decide!, by decide!⟩

/-- C8 as amended: if `sys_open (name)` returns `fd >= 0`, then `sys_close (fd)`
returns 0; afterwards every slot other than `fd` is as before the open in all
four fields, the flags of all slots are as before, and slot `fd` is empty with
its three other fields zero, so that the whole state is the one before the
open whenever these three fields of slot `fd` were zero before. -/
theorem sys_open_close_restores (s s1 : KState) (filename : Option (List Nat)) (fd : Int)
    (hopen : sys_open s filename = (fd, s1)) (hfd : 0 ≤ fd) :
    (sys_close s1 fd).1 = 0 ∧
    (∀ j, j ≠ fd.toNat → (sys_close s1 fd).2.cur.file_descriptor j = s.cur.file_descriptor j) ∧
    (∀ j, ((sys_close s1 fd).2.cur.file_descriptor j).flags = (s.cur.file_descriptor j).flags) ∧
    (sys_close s1 fd).2.cur.file_descriptor fd.toNat = ⟨.null, 0, 0, FD_FLAG_EMPTY⟩ ∧
    (s.cur.file_descriptor fd.toNat = ⟨.null, 0, 0, FD_FLAG_EMPTY⟩ → (sys_close s1 fd).2 = s) := by
  rcases sys_open_cases s filename with h | ⟨i, d, hi2, hi7, he, hd, h⟩
  · rw [h] at hopen
    have : fd = -1 := (congrArg Prod.fst hopen).symm
    omega
  · rw [h] at hopen
    have hfd' : fd = (i : Int) := (congrArg Prod.fst hopen).symm
    have hs1 : s1 = s.setFd i d := (congrArg Prod.snd hopen).symm
    subst hfd' hs1
    have hc : sys_close (s.setFd i d) (i : Int)
        = (0, (s.setFd i d).setFd i ⟨.null, 0, 0, FD_FLAG_EMPTY⟩) := by
      unfold sys_close
      have h1 : ¬ ((i : Int) < 2 ∨ (i : Int) > 7) := by omega
      have h2 : ¬ (((s.setFd i d).cur.file_descriptor (i : Int).toNat).flags = FD_FLAG_EMPTY) := by
        simp only [Int.toNat_ofNat, setFd_slot, if_true]
        exact hd
      rw [if_neg h1, if_neg h2]
      simp
    rw [hc]
    simp only [Int.toNat_ofNat]
    refine ⟨trivial, ?_, ?_, ?_, ?_⟩
    · intro j hj
      simp only [setFd_slot, hj, if_false]
    · intro j
      by_cases hj : j = i
      · subst hj
        simp only [setFd_slot, if_true]
        exact he.symm
      · simp only [setFd_slot, hj, if_false]
    · simp only [setFd_slot, if_true]
    · intro hz
      rw [← hz]
      exact setFd_restore s i d

/-- C8 as amended, at the example process created on a PCB area that was
all zero: open and close give back the very state. -/
theorem sys_open_close_restores_witness :
    (sys_open kCatFresh (some [99, 97, 116])).1 = 2 ∧
    (sys_close (sys_open kCatFresh (some [99, 97, 116])).2 2).2 = kCatFresh :=
  ⟨by decide!,
   (sys_open_close_restores kCatFresh (sys_open kCatFresh (some [99, 97, 116])).2
      (some [99, 97, 116]) 2 (by
        have h : (sys_open kCatFresh (some [99, 97, 116])).1 = 2 := by decide!
        exact Prod.ext h rfl) (by decide)).2.2.2.2 (by decide!)⟩

/-! ## Argument checks of the system calls -/

/-- C9 (null buffer in sys_getargs): in the process created by
`sys_execute ("cat abc")`, `sys_getargs (NULL, 128)` does not return -1: it
returns 0 after storing "abc" and a NUL at addresses 0..3. -/
theorem sys_getargs_null_buffer :
    (sys_execute envDemo (kInit fsDemo pcbStale) (some cmdCatAbc)).2 = kCat ∧
    kCat.cur.arg_len = 3 ∧
    (sys_getargs kCat 0 128).1 = 0 ∧
    (sys_getargs kCat 0 128).2.mem 0 = 97 ∧
    (sys_getargs kCat 0 128).2.mem 1 = 98 ∧
    (sys_getargs kCat 0 128).2.mem 2 = 99 ∧
    kCat.mem 0 = 0 :=
  ⟨by unfold kCat; rfl, by decide!, by decide!, by decide!, by decide!, by decide!, by decide!⟩

/-- The checks the sibling system calls do make: a null buffer in `sys_read`,
`sys_write` and `sys_vidmap`, and an `fd` outside 0..7 or naming an empty slot
of 2..7 in `sys_read`, `sys_write` and `sys_close`, give -1 with the state
unchanged. -/
theorem syscall_argument_checks (env : Env) (s : KState) (fd : Int) (buf : Nat) (nbytes : Int) :
    sys_read env s fd 0 nbytes = some (-1, s) ∧
    sys_write s fd 0 nbytes = some (-1, s) ∧
    sys_vidmap s 0 = (-1, s) ∧
    ((fd < 0 ∨ 7 < fd ∨ (2 ≤ fd ∧ (s.cur.file_descriptor fd.toNat).flags = FD_FLAG_EMPTY)) →
      sys_read env s fd buf nbytes = some (-1, s) ∧
      sys_write s fd buf nbytes = some (-1, s) ∧
      sys_close s fd = (-1, s)) := by
  refine ⟨by simp [sys_read], by simp [sys_write], by simp [sys_vidmap], ?_⟩
  intro h
  refine ⟨?_, ?_, ?_⟩
  · unfold sys_read
    by_cases h1 : buf = 0 ∨ fd > 7 ∨ fd < 0 ∨ nbytes < 0 ∨ fd = FD_STDOUT
    · rw [if_pos h1]
    · rw [if_neg h1]
      have h2 : fd ≥ 2 ∧ (s.cur.file_descriptor fd.toNat).flags = FD_FLAG_EMPTY := by
        rcases h with h | h | h
        · exact absurd (Or.inr (Or.inr (Or.inl h))) h1
        · exact absurd (Or.inr (Or.inl h)) h1
        · exact h
      rw [if_pos h2]
  · unfold sys_write
    by_cases h1 : buf = 0 ∨ fd > 7 ∨ fd < 0 ∨ nbytes < 0 ∨ fd = FD_STDIN
    · rw [if_pos h1]
    · rw [if_neg h1]
      have h2 : fd ≥ 2 ∧ (s.cur.file_descriptor fd.toNat).flags = FD_FLAG_EMPTY := by
        rcases h with h | h | h
        · exact absurd (Or.inr (Or.inr (Or.inl h))) h1
        · exact absurd (Or.inr (Or.inl h)) h1
        · exact h
      rw [if_pos h2]
  · unfold sys_close
    by_cases h1 : fd < 2 ∨ fd > 7
    · rw [if_pos h1]
    · rw [if_neg h1]
      have h2 : (s.cur.file_descriptor fd.toNat).flags = FD_FLAG_EMPTY := by
        rcases h with h | h | h
        · omega
        · omega
        · exact h.2
      rw [if_pos h2]

/-! ## Process pool: `find_next_pid`, `sys_execute` -/

theorem find_next_pid_loop_none (pool : Nat → Nat) :
    ∀ (k i0 : Nat), (∀ j, i0 ≤ j → j < i0 + k → pool j ≠ 0) →
      find_next_pid_loop pool k i0 = -1 := by
  intro k
  induction k with
  | zero => intro i0 _; rfl
  | succ k ih =>
    intro i0 h
    unfold find_next_pid_loop
    rw [if_neg (h i0 (le_refl _) (by omega))]
    exact ih (i0 + 1) (fun j h1 h2 => h j (by omega) (by omega))

theorem find_next_pid_loop_first (pool : Nat → Nat) :
    ∀ (k i0 i : Nat), i0 ≤ i → i < i0 + k → pool i = 0 →
      (∀ j, i0 ≤ j → j < i → pool j ≠ 0) →
      find_next_pid_loop pool k i0 = (i : Int) := by
  intro k
  induction k with
  | zero => intro i0 i h1 h2; omega
  | succ k ih =>
    intro i0 i h1 h2 hz hf
    unfold find_next_pid_loop
    by_cases hi : i = i0
    · subst hi
      rw [if_pos hz]
    · rw [if_neg (hf i0 (le_refl _) (by omega))]
      exact ih (i0 + 1) i (by omega) (by omega) hz (fun j hj1 hj2 => hf j (by omega) hj2)

/-- The function `find_next_pid` returns the least free slot of 0..5, and -1 exactly when
there is none. -/
theorem find_next_pid_spec (s : KState) :
    (find_next_pid s = -1 ↔ ∀ i, i < 6 → s.pcb_pool i ≠ 0) ∧
    (∀ i, i < 6 → s.pcb_pool i = 0 → (∀ j, j < i → s.pcb_pool j ≠ 0) →
      find_next_pid s = (i : Int)) := by
  have hfirst : ∀ i, i < 6 → s.pcb_pool i = 0 → (∀ j, j < i → s.pcb_pool j ≠ 0) →
      find_next_pid s = (i : Int) := by
    intro i hi hz hf
    exact find_next_pid_loop_first s.pcb_pool 6 0 i (Nat.zero_le _) (by omega) hz
      (fun j _ hj => hf j hj)
  refine ⟨⟨?_, ?_⟩, hfirst⟩
  · intro h i hi hz
    obtain ⟨j, hj, hjz, hjf⟩ := first_match (fun j => s.pcb_pool j = 0) 6 ⟨i, hi, hz⟩
    rw [hfirst j hj hjz hjf] at h
    omega
  · intro h
    exact find_next_pid_loop_none s.pcb_pool 6 0 (fun j _ hj => h j (by omega))

theorem execute_commit_pcb (env : Env) (s : KState) (pid : Nat) :
    (execute_commit env s pid).pcb = KERNEL_STACK_ADDR - (pid + 1) * KERNEL_STACK_OFFSET := rfl

theorem execute_commit_pool (env : Env) (s : KState) (pid : Nat) :
    (execute_commit env s pid).pcb_pool
      = Function.update s.pcb_pool pid (KERNEL_STACK_ADDR - (pid + 1) * KERNEL_STACK_OFFSET) := rfl

theorem execute_commit_pid (env : Env) (s : KState) (pid : Nat) :
    (execute_commit env s pid).cur.process_id
      = (s.pcb_mem (KERNEL_STACK_ADDR - (pid + 1) * KERNEL_STACK_OFFSET)).process_id := by
  simp [execute_commit, KState.setPcb, KState.setTerm, KState.cur]

theorem pcb_write_frame (s : KState) (p off len : Nat) (src : Nat → Nat) :
    (pcb_write s p off len src).pcb = s.pcb ∧
    (pcb_write s p off len src).pcb_pool = s.pcb_pool ∧
    (pcb_write s p off len src).fs = s.fs ∧
    (pcb_write s p off len src).pageDir = s.pageDir ∧
    (pcb_write s p off len src).pageTableLow = s.pageTableLow ∧
    (pcb_write s p off len src).pageTableHigh = s.pageTableHigh ∧
    (pcb_write s p off len src).terminals = s.terminals ∧
    (∀ q, q ≠ p → (pcb_write s p off len src).pcb_mem q = s.pcb_mem q) ∧
    (pcb_write s p off len src).pcb_mem p = copied_pcb s off len src (s.pcb_mem p) := by
  refine ⟨rfl, rfl, rfl, rfl, rfl, rfl, rfl, fun q hq => ?_, ?_⟩
  · simp [pcb_write, KState.setPcb, Function.update_noteq hq]
  · simp [pcb_write, KState.setPcb]

theorem copied_pcb_head (s : KState) (off len : Nat) (src : Nat → Nat) (x : pcb_t) (h : 4 ≤ off) :
    (copied_pcb s off len src x).process_id = x.process_id ∧
    (copied_pcb s off len src x).terminal_id = x.terminal_id ∧
    (copied_pcb s off len src x).previous_id = x.previous_id ∧
    (copied_pcb s off len src x).sig_pending = x.sig_pending := by
  refine ⟨?_, ?_, ?_, ?_⟩ <;>
  · simp only [copied_pcb, copied_byte]
    rw [if_neg (by omega)]

theorem execute_init_pcb_pid (s : KState) (pid : Nat) :
    ((execute_init_pcb s pid).pcb_mem
        (KERNEL_STACK_ADDR - (pid + 1) * KERNEL_STACK_OFFSET)).process_id = pid := by
  simp [execute_init_pcb, KState.setPcb]

theorem execute_create_pcb_pool (s : KState) (pid : Nat) (pn : List Nat) (pl : Nat)
    (ab : Nat → Nat) (al : Nat) :
    (execute_create_pcb s pid pn pl ab al).pcb_pool = s.pcb_pool := rfl

theorem execute_create_pcb_pid (s : KState) (pid : Nat) (pn : List Nat) (pl : Nat)
    (ab : Nat → Nat) (al : Nat) :
    ((execute_create_pcb s pid pn pl ab al).pcb_mem
        (KERNEL_STACK_ADDR - (pid + 1) * KERNEL_STACK_OFFSET)).process_id = pid := by
  have h := (pcb_write_frame (execute_init_pcb s pid)
    (KERNEL_STACK_ADDR - (pid + 1) * KERNEL_STACK_OFFSET) 36 al ab).2.2.2.2.2.2.2.2
  simp only [execute_create_pcb, KState.setPcb, Function.update_same, h,
    (copied_pcb_head _ _ _ _ _ (by omega : 4 ≤ 36)).1, execute_init_pcb_pid]

theorem execute_start_committed (env : Env) (s : KState) (pid : Nat) (pn : List Nat) (pl : Nat)
    (cmd : List Nat) (esp eip : Nat) (s' : KState)
    (h : execute_start env s (pid : Int) pn pl cmd = (.iret esp eip, s')) :
    committed s.pcb_pool s' pid := by
  unfold execute_start at h
  simp only at h
  split at h
  · exact absurd (congrArg Prod.fst h) (by simp)
  · have hs := (congrArg Prod.snd h).symm
    simp only [Int.toNat_ofNat] at hs
    subst hs
    refine ⟨execute_commit_pcb _ _ _, ?_, ?_, ?_, rfl⟩
    · rw [execute_commit_pool, execute_commit_pcb]; simp
    · rw [execute_commit_pid, execute_create_pcb_pid]
    · intro j hj
      rw [execute_commit_pool, execute_create_pcb_pool]
      simp [hj, reMap4MBPage]

theorem execute_parse_committed (env : Env) (s : KState) (pid : Nat) (command : Option (List Nat))
    (esp eip : Nat) (s' : KState)
    (h : execute_parse env s (pid : Int) command = (.iret esp eip, s')) :
    committed s.pcb_pool s' pid := by
  unfold execute_parse at h
  cases command with
  | none => exact absurd (congrArg Prod.fst h) (by simp)
  | some c =>
    simp only at h
    split at h
    · exact absurd (congrArg Prod.fst h) (by simp)
    · split at h
      · exact absurd (congrArg Prod.fst h) (by simp)
      · have hc := execute_start_committed env _ pid _ _ _ esp eip s' h
        exact hc

/-- C10 (process pool): with all six slots of the pool occupied `sys_execute`
returns -1 for every command and leaves the state as it was, with the progress
flag cleared; `find_next_pid` returns the least `i` in 0..5 with `pcb_pool[i]`
empty and -1 exactly when there is none, and a run of `sys_execute` that
starts a program gives it that PID: the PCB of slot `i` becomes the current
PCB, is entered at `pcb_pool[i]` with `process_id = i`, and no other slot of
the pool changes. -/
theorem sys_execute_pool (env : Env) (s : KState) (command : Option (List Nat)) :
    ((∀ i, i < 6 → s.pcb_pool i ≠ 0) →
      sys_execute env s command = (.ret (-1), { s with progress := 0 })) ∧
    (find_next_pid s = -1 ↔ ∀ i, i < 6 → s.pcb_pool i ≠ 0) ∧
    (∀ i, i < 6 → s.pcb_pool i = 0 → (∀ j, j < i → s.pcb_pool j ≠ 0) →
      find_next_pid s = (i : Int) ∧
      ∀ esp eip s', sys_execute env s command = (.iret esp eip, s') →
        s'.pcb = KERNEL_STACK_ADDR - (i + 1) * KERNEL_STACK_OFFSET ∧
        s'.pcb_pool i = s'.pcb ∧
        s'.cur.process_id = i ∧
        (∀ j, j ≠ i → s'.pcb_pool j = s.pcb_pool j) ∧
        s'.progress = 0) := by
  have hsame : find_next_pid { s with progress := 1 } = find_next_pid s := rfl
  refine ⟨?_, (find_next_pid_spec s).1, ?_⟩
  · intro hfull
    have h := (find_next_pid_spec s).1.mpr hfull
    unfold sys_execute
    simp only [hsame, h, if_true]
  · intro i hi hz hf
    have h := (find_next_pid_spec s).2 i hi hz hf
    refine ⟨h, ?_⟩
    intro esp eip s' hex
    unfold sys_execute at hex
    simp only [hsame, h] at hex
    have hne : ¬ ((i : Int) = -1) := by omega
    rw [if_neg hne] at hex
    have hc := execute_parse_committed env _ i command esp eip s' hex
    exact hc

/-- C10 at the example kernel: with the pool full, "cat abc" is refused and
only the progress flag is written; from the empty pool it is given PID 0. -/
theorem sys_execute_pool_witness :
    sys_execute envDemo kFull (some cmdCatAbc) = (.ret (-1), { kFull with progress := 0 }) ∧
    find_next_pid (kInit fsDemo pcbStale) = ((0 : Nat) : Int) :=
  ⟨(sys_execute_pool envDemo kFull (some cmdCatAbc)).1
      (fun i hi => by interval_cases i <;> decide!),
   ((sys_execute_pool envDemo (kInit fsDemo pcbStale) (some cmdCatAbc)).2.2 0 (by decide)
      (by decide!) (fun j hj => by omega)).1⟩

/-! ## `sys_read` on a regular file -/

theorem toU32_ofNat (x : Nat) (h : x < 4294967296) : toU32 (x : Int) = x := by
  unfold toU32
  omega

theorem toInt32_ofNat (x : Nat) (h : x < 2147483648) : toInt32 x = (x : Int) := by
  unfold toInt32 U32
  split_ifs <;> omega

/-- C16 (sig_set): `sig_set (pcb, n)` makes `n` the pending signal of the PCB
exactly when its mask is 0 and `n` is below the pending value (255 meaning
nothing pending), and then changes nothing but that field; in every other
case, in particular whenever the mask is set, the state is left as it is. -/
theorem sig_set_accepts_lower_number (s : KState) (p n : Nat) :
    (((s.pcb_mem p).sig_mask = 0 ∧ n < (s.pcb_mem p).sig_pending) →
      sig_set s p n = s.setPcb p (fun x => { x with sig_pending := n }) ∧
      (sig_set s p n).pcb_mem p = { s.pcb_mem p with sig_pending := n } ∧
      (∀ q, q ≠ p → (sig_set s p n).pcb_mem q = s.pcb_mem q)) ∧
    (¬ ((s.pcb_mem p).sig_mask = 0 ∧ n < (s.pcb_mem p).sig_pending) → sig_set s p n = s) ∧
    ((s.pcb_mem p).sig_mask ≠ 0 → sig_set s p n = s) := by
  unfold sig_set
  refine ⟨?_, ?_, ?_⟩
  · intro h
    have hc : ¬ ((s.pcb_mem p).sig_pending ≤ n ∨ (s.pcb_mem p).sig_mask ≠ 0) := by
      intro hc
      rcases hc with hc | hc
      · omega
      · exact hc h.1
    rw [if_neg hc]
    refine ⟨rfl, ?_, ?_⟩
    · simp [KState.setPcb]
    · intro q hq
      simp [KState.setPcb, Function.update, hq]
  · intro h
    have hc : (s.pcb_mem p).sig_pending ≤ n ∨ (s.pcb_mem p).sig_mask ≠ 0 := by
      by_cases hm : (s.pcb_mem p).sig_mask = 0
      · left
        by_contra hlt
        exact h ⟨hm, by omega⟩
      · right; exact hm
    rw [if_pos hc]
  · intro h
    rw [if_pos (Or.inr h)]

/-- C16 at the example process of PID 3: with nothing pending ALARM is
accepted, then DIV_ZERO replaces it, then ALARM is refused; with the mask set
nothing is accepted. -/
theorem sig_set_accepts_lower_number_witness :
    ((kP3.pcb_mem kP3.pcb).sig_mask = 0 ∧ ALARM < (kP3.pcb_mem kP3.pcb).sig_pending) ∧
    (sig_set kP3 kP3.pcb ALARM).pcb_mem kP3.pcb = { kP3.pcb_mem kP3.pcb with sig_pending := ALARM } ∧
    sig_set kP3DivZero kP3DivZero.pcb ALARM = kP3DivZero :=
  ⟨by decide!,
   ((sig_set_accepts_lower_number kP3 kP3.pcb ALARM).1 (by decide!)).2.1,
   (sig_set_accepts_lower_number kP3DivZero kP3DivZero.pcb ALARM).2.1 (by decide!)⟩

/-- C18 (negative signal number): in the example process of PID 3,
`sys_set_handler (-1, 12345)` does not return -1: it returns 0 and its store
`sig_handlers[-1] = 12345` overwrites `user_esp`, the field before the
handler table. -/
theorem sys_set_handler_negative_signum :
    kP3.cur.user_esp = 0 ∧
    (sys_set_handler kP3 (-1) 12345).1 = 0 ∧
    (sys_set_handler kP3 (-1) 12345).2.cur.user_esp = 12345 := by
  decide!

/-- The part of the contract of `sys_set_handler` that holds: for
`0 <= signum <= 4` it returns 0 and stores the handler, for `signum > 4` it
returns -1 and changes nothing. -/
theorem sys_set_handler_in_range (s : KState) (signum : Int) (fn : Nat) :
    (0 ≤ signum → signum ≤ 4 →
      sys_set_handler s signum fn
        = (0, s.setPcb s.pcb (fun x =>
            { x with sig_handlers := Function.update x.sig_handlers signum.toNat fn }))) ∧
    (4 < signum → sys_set_handler s signum fn = (-1, s)) := by
  unfold sys_set_handler store_handler_word
  constructor
  · intro h0 h4
    rw [if_neg (by omega), if_pos h0]
  · intro h
    rw [if_pos h]

/-! ## Paging: `reMap4MBPage`, `sys_vidmap` -/

/-- The address field that `reMap4MBPage` writes into page-directory entry 32. -/
theorem reMap4MBPage_pd (s : KState) (pid : Int) :
    ((reMap4MBPage s pid).pageDir 32).pd_address
      = ((0x800000 + pid * 0x400000) / 1024 % 1048576).toNat := by
  simp only [reMap4MBPage, Function.update_same]

/-- C20 (frame of the user page): after `reMap4MBPage (0)` the address field of
page-directory entry 32 is 0x2000, so the frame base (field times 4096) is
0x2000000 and not 0x800000; after `reMap4MBPage (5)` it is 0x7000000, outside
0x800000..0x2000000. -/
theorem reMap4MBPage_field_shifted_by_ten (s : KState) :
    ((reMap4MBPage s 0).pageDir 32).pd_address * 4096 = 0x2000000 ∧
    ((reMap4MBPage s 0).pageDir 32).pd_address * 4096 ≠ 0x800000 + 0 * 0x400000 ∧
    ((reMap4MBPage s 5).pageDir 32).pd_address * 4096 = 0x7000000 ∧
    ¬ (((reMap4MBPage s 5).pageDir 32).pd_address * 4096 < 0x2000000) := by
  have h0 := reMap4MBPage_pd s 0
  have h5 := reMap4MBPage_pd s 5
  have e0 : ((0x800000 + (0 : Int) * 0x400000) / 1024 % 1048576).toNat = 8192 := by decide
  have e5 : ((0x800000 + (5 : Int) * 0x400000) / 1024 % 1048576).toNat = 28672 := by decide
  rw [e0] at h0
  rw [e5] at h5
  rw [h0, h5]
  omega

/-- The address field `reMap4MBPage` writes for the PIDs 0..5: four times the
field that would give the frame `0x800000 + pid * 0x400000`. -/
theorem reMap4MBPage_field (s : KState) (pid : Nat) (h : pid ≤ 5) :
    ((reMap4MBPage s (pid : Int)).pageDir 32).pd_address * 4096
      = 4 * (0x800000 + pid * 0x400000) := by
  rw [reMap4MBPage_pd]
  omega

theorem ldb_stb_other (m : Mem) (a b v : Nat) (h : a % U32 ≠ b % U32) :
    ldb (stb m b v) a = ldb m a := by
  unfold ldb
  rw [stb_other _ _ _ _ h]

theorem ldb_stb_self (m : Mem) (a v : Nat) : ldb (stb m a v) a = v % 256 := by
  unfold ldb
  rw [stb_same, Nat.mod_mod]

/-- Reading back a 32-bit store. -/
theorem ld32_st32 (m : Mem) (a v : Nat) (hv : v < 4294967296) : ld32 (st32 m a v) a = v := by
  unfold ld32 st32
  have h01 : a % U32 ≠ (a + 1) % U32 := by unfold U32; omega
  have h02 : a % U32 ≠ (a + 2) % U32 := by unfold U32; omega
  have h03 : a % U32 ≠ (a + 3) % U32 := by unfold U32; omega
  have h12 : (a + 1) % U32 ≠ (a + 2) % U32 := by unfold U32; omega
  have h13 : (a + 1) % U32 ≠ (a + 3) % U32 := by unfold U32; omega
  have h23 : (a + 2) % U32 ≠ (a + 3) % U32 := by unfold U32; omega
  rw [ldb_stb_other _ _ _ _ h03, ldb_stb_other _ _ _ _ h02, ldb_stb_other _ _ _ _ h01,
    ldb_stb_self,
    ldb_stb_other _ _ _ _ h13, ldb_stb_other _ _ _ _ h12, ldb_stb_self,
    ldb_stb_other _ _ _ _ h23, ldb_stb_self, ldb_stb_self]
  omega

/-- C19 (caller on a background terminal): the scheduler has started the shell
of terminal 1 while terminal 0 is the active one; `sys_vidmap (0x08048000)`
called by that shell returns 0, stores
0x08400000 and sets the vidmap flag of terminal 1, but page-directory entry 33
is not present when the call returns.  The same call from the shell of the
active terminal maps the page, and so does the next `switchContext` to
terminal 1, which maps it whenever the vidmap flag is set. -/
theorem sys_vidmap_background_not_present :
    (pit_target { kT0 with scheduler_enable := 1 } = some 1 ∧
      kBg.cur.terminal_id = 1 ∧ kBg.terminal_active = 0 ∧ (kBg.pageDir 33).P = 0 ∧
      PROGRAM_PAGE_ADDR ≤ 134512640 ∧ 134512640 ≤ PROGRAM_STACK_ADDR - 4) ∧
    (sys_vidmap kBg 134512640).1 = 0 ∧
    ld32 (sys_vidmap kBg 134512640).2.mem 134512640 = PROGRAM_STACK_ADDR ∧
    ((sys_vidmap kBg 134512640).2.terminals 1).vidmap = 1 ∧
    ((sys_vidmap kBg 134512640).2.pageDir 33).P = 0 ∧
    ((sys_vidmap kT0 134512640).2.pageDir 33).P = 1 ∧
    ((switchContext envDemo envDemo (sys_vidmap kBg 134512640).2 1).2.pageDir 33).P = 1 := by
  decide!

/-- The lower bound of the pointer check: 0x08000000 is the first address of
the user slot, the four bytes there lie within it, and
`sys_vidmap (0x08000000)` returns -1. -/
theorem sys_vidmap_rejects_slot_start :
    (0x08000000 ≤ 134217728 ∧ 134217728 + 4 ≤ 0x08400000) ∧
    (sys_vidmap kP3 134217728).1 = -1 := by
  decide!

/-- What `sys_vidmap` does: `sys_vidmap (out_ptr)` returns 0 exactly when
`0x08048000 <= out_ptr <= 0x083FFFFC`, and -1 with nothing changed for every
other pointer, null included.  On success it stores 0x08400000 at `*out_ptr`
and sets the vidmap flag of the terminal of the caller; the present bit of
page-directory entry 33 (the vidmap page) is set when that terminal is the
active one, and the page directory is left as it was when it is not. -/
theorem sys_vidmap_checked_range (s : KState) (p : Nat) :
    ((sys_vidmap s p).1 = 0 ↔ (PROGRAM_PAGE_ADDR ≤ p ∧ p ≤ PROGRAM_STACK_ADDR - 4)) ∧
    (¬ (PROGRAM_PAGE_ADDR ≤ p ∧ p ≤ PROGRAM_STACK_ADDR - 4) → sys_vidmap s p = (-1, s)) ∧
    ((PROGRAM_PAGE_ADDR ≤ p ∧ p ≤ PROGRAM_STACK_ADDR - 4) →
      ld32 (sys_vidmap s p).2.mem p = PROGRAM_STACK_ADDR ∧
      ((sys_vidmap s p).2.terminals s.cur.terminal_id).vidmap = 1 ∧
      (s.cur.terminal_id = s.terminal_active → ((sys_vidmap s p).2.pageDir 33).P = 1) ∧
      (s.cur.terminal_id ≠ s.terminal_active → (sys_vidmap s p).2.pageDir = s.pageDir)) := by
  unfold sys_vidmap
  by_cases h : p = 0 ∨ p < PROGRAM_PAGE_ADDR ∨ p > PROGRAM_STACK_ADDR - 4
  · rw [if_pos h]
    have hn : ¬ (PROGRAM_PAGE_ADDR ≤ p ∧ p ≤ PROGRAM_STACK_ADDR - 4) := by
      unfold PROGRAM_PAGE_ADDR PROGRAM_STACK_ADDR at h ⊢
      omega
    refine ⟨⟨fun h0 => by simp at h0, fun hr => absurd hr hn⟩, fun _ => rfl, fun hr => absurd hr hn⟩
  · rw [if_neg h]
    have hr : PROGRAM_PAGE_ADDR ≤ p ∧ p ≤ PROGRAM_STACK_ADDR - 4 := by
      unfold PROGRAM_PAGE_ADDR PROGRAM_STACK_ADDR at h ⊢
      omega
    refine ⟨⟨fun _ => hr, fun _ => rfl⟩, fun hn => absurd hr hn, fun _ => ⟨?_, ?_, ?_, ?_⟩⟩
    · simp only
      rw [ld32_st32 _ _ _ (by decide)]
    · simp only []
      split <;> simp [KState.setTerm, map4KBVidMemPage]
    · intro ha
      have hcond : (s.setTerm s.cur.terminal_id (fun x => { x with vidmap := 1 })).cur.terminal_id
          = (s.setTerm s.cur.terminal_id (fun x => { x with vidmap := 1 })).terminal_active := ha
      simp only []
      rw [if_pos hcond]
      simp [map4KBVidMemPage]
    · intro ha
      have hcond : ¬ (s.setTerm s.cur.terminal_id (fun x => { x with vidmap := 1 })).cur.terminal_id
          = (s.setTerm s.cur.terminal_id (fun x => { x with vidmap := 1 })).terminal_active := ha
      simp only []
      rw [if_neg hcond]
      rfl

/-- The call at the example process of PID 3 (on the active terminal):
`sys_vidmap (0x08048000)` stores 0x08400000 there and maps the page. -/
theorem sys_vidmap_checked_range_witness :
    (PROGRAM_PAGE_ADDR ≤ 134512640 ∧ 134512640 ≤ PROGRAM_STACK_ADDR - 4) ∧
    ld32 (sys_vidmap kP3 134512640).2.mem 134512640 = PROGRAM_STACK_ADDR ∧
    (kP3.cur.terminal_id = kP3.terminal_active ∧ ((sys_vidmap kP3 134512640).2.pageDir 33).P = 1) :=
  ⟨by decide,
   ((sys_vidmap_checked_range kP3 134512640).2.2 (by decide)).1,
   by decide!,
   ((sys_vidmap_checked_range kP3 134512640).2.2 (by decide)).2.2.1 (by decide!)⟩

/-! ## `sys_halt` -/

/-- What `sys_close` can change: the descriptor table of the current PCB. -/
theorem sys_close_shape (s : KState) (fd : Int) :
    ∃ f, (sys_close s fd).2
      = { s with pcb_mem := Function.update s.pcb_mem s.pcb { s.cur with file_descriptor := f } } := by
  unfold sys_close
  by_cases h1 : fd < 2 ∨ fd > 7
  · rw [if_pos h1]
    exact ⟨s.cur.file_descriptor, by simp [KState.cur]⟩
  · rw [if_neg h1]
    by_cases h2 : (s.cur.file_descriptor fd.toNat).flags = FD_FLAG_EMPTY
    · rw [if_pos h2]
      exact ⟨s.cur.file_descriptor, by simp [KState.cur]⟩
    · rw [if_neg h2]
      exact ⟨_, rfl⟩

/-- What the closing loop of `sys_halt` can change: the descriptor table of the
current PCB. -/
theorem halt_close_loop_shape (k : Nat) : ∀ (s : KState) (i : Nat),
    ∃ f, halt_close_loop s k i
      = { s with pcb_mem := Function.update s.pcb_mem s.pcb { s.cur with file_descriptor := f } } := by
  induction k with
  | zero =>
    intro s i
    exact ⟨s.cur.file_descriptor, by simp [halt_close_loop, KState.cur]⟩
  | succ k ih =>
    intro s i
    unfold halt_close_loop
    by_cases h : i < 7
    · rw [if_pos h]
      obtain ⟨f1, h1⟩ := sys_close_shape s (i : Int)
      obtain ⟨f2, h2⟩ := ih (sys_close s (i : Int)).2 (i + 1)
      rw [h2, h1]
      exact ⟨f2, by simp [KState.cur]⟩
    · rw [if_neg h]
      exact ⟨s.cur.file_descriptor, by simp [KState.cur]⟩

/-- The state `sys_halt` leaves when it returns to the parent, field by field. -/
theorem halt_teardown_fields (s : KState) :
    (halt_teardown s).pcb_pool = s.pcb_pool ∧
    (halt_teardown s).halt_status = s.halt_status ∧
    (halt_teardown s).pcb = s.pcb_pool s.cur.previous_id ∧
    ((halt_teardown s).terminals s.cur.terminal_id).pcb = s.pcb_pool s.cur.previous_id ∧
    ((halt_teardown s).terminals s.cur.terminal_id).vidmap = 0 ∧
    ((halt_teardown s).pageDir 32).pd_address
      = ((0x800000 + toInt8 s.cur.previous_id * 0x400000) / 1024 % 1048576).toNat ∧
    ((halt_teardown s).pageDir 33).P = 0 ∧
    (halt_teardown s).tss_esp0 = (s.pcb_mem (s.pcb_pool s.cur.previous_id)).tss_esp ∧
    (halt_teardown s).progress = 0 := by
  obtain ⟨f, hf⟩ := halt_close_loop_shape 5 s 2
  unfold halt_teardown
  rw [hf]
  refine ⟨rfl, rfl, ?_, ?_, ?_, ?_, ?_, ?_, rfl⟩
  · simp [unMap4KBVidMemPage, reMap4MBPage, KState.setTerm, KState.cur]
  · simp [unMap4KBVidMemPage, reMap4MBPage, KState.setTerm, KState.cur]
  · simp [unMap4KBVidMemPage, reMap4MBPage, KState.setTerm, KState.cur]
  · simp [unMap4KBVidMemPage, reMap4MBPage, KState.setTerm, KState.cur]
  · simp [unMap4KBVidMemPage, reMap4MBPage, KState.setTerm, KState.cur]
  · simp only [unMap4KBVidMemPage, reMap4MBPage, KState.setTerm, KState.cur, Function.update_same]
    by_cases hp : s.pcb_pool (s.pcb_mem s.pcb).previous_id = s.pcb
    · rw [hp, Function.update_same]
    · rw [Function.update_noteq hp]

/-- The state after the first lines of `sys_halt`: the current PCB is the
same, its pool slot is cleared. -/
theorem halt_begin_fields (s : KState) (status : Nat) :
    (halt_begin s status).cur = s.cur ∧
    (halt_begin s status).pcb_mem = s.pcb_mem ∧
    (halt_begin s status).pcb_pool = Function.update s.pcb_pool s.cur.process_id 0 ∧
    (halt_begin s status).halt_status
      = (if status % 256 = 0 ∧ (s.cur.sig_pending = DIV_ZERO ∨ s.cur.sig_pending = SEGFAULT)
          then 256 else ((status % 256 : Nat) : Int)) :=
  ⟨rfl, rfl, rfl, rfl⟩

/-- The branch of `sys_halt` that returns to the parent (PIDs 3..5). -/
theorem sys_halt_to_parent (env : Env) (s : KState) (status : Nat)
    (h3 : 3 ≤ s.cur.process_id) (h5 : s.cur.process_id ≤ 5) :
    sys_halt env s status
      = (.to_parent (halt_begin s status).halt_status s.cur.ebp s.cur.esp,
          halt_teardown (halt_begin s status)) := by
  have hc : (halt_begin s status).cur = s.cur := rfl
  unfold sys_halt
  simp only [hc]
  rw [if_neg (by omega), if_neg (by unfold TERMINAL_COUNT; omega)]
  rw [(halt_teardown_fields (halt_begin s status)).2.1]

/-- C14 (base shell told by the PID): the process of PID 1 in the example was
executed by the process of PID 0 (its `previous_id` is 0, not its own PID), so
it is no base shell; `sys_halt` takes it for one and executes "shell" again
instead of returning to the parent. -/
theorem sys_halt_restarts_child_of_low_pid :
    kP1.cur.process_id = 1 ∧ kP1.cur.previous_id = 0 ∧
    (sys_halt envDemo kP1 5).1 = .shell (PROGRAM_STACK_ADDR - 4) 134513384 ∧
    (sys_halt envDemo kP1 5).2.cur.process_id = 1 := by
  decide!

/-- What `sys_halt` does by PID: it executes "shell" again exactly for the PIDs
below 3 (ending in the new shell, or returning -1 when that `sys_execute`
returns).  For the PIDs 3..5 it frees the pool slot, makes
`pcb_pool[previous_id]` (read after the slot was freed) the current PCB and
the PCB of the terminal, rewrites page-directory entry 32 for `previous_id`,
sets `tss.esp0` to the `tss_esp` of that PCB, clears the progress flag and
returns `halt_status` in the frame saved by the parent.  For a PID above 5 it
never returns. -/
theorem sys_halt_base_shell_by_pid (env : Env) (s : KState) (status : Nat) :
    (s.cur.process_id < 3 →
      (∀ a b s4, sys_execute env (halt_begin s status) (some shell_cmd) = (.iret a b, s4) →
        sys_halt env s status = (.shell a b, s4)) ∧
      (∀ v s4, sys_execute env (halt_begin s status) (some shell_cmd) = (.ret v, s4) →
        sys_halt env s status = (.ret (-1), { s4 with progress := 0 }))) ∧
    (3 ≤ s.cur.process_id → s.cur.process_id ≤ 5 →
      (sys_halt env s status).1
        = .to_parent (sys_halt env s status).2.halt_status s.cur.ebp s.cur.esp ∧
      (sys_halt env s status).2.pcb_pool = Function.update s.pcb_pool s.cur.process_id 0 ∧
      (sys_halt env s status).2.pcb
        = (Function.update s.pcb_pool s.cur.process_id 0) s.cur.previous_id ∧
      ((sys_halt env s status).2.terminals s.cur.terminal_id).pcb
        = (Function.update s.pcb_pool s.cur.process_id 0) s.cur.previous_id ∧
      ((sys_halt env s status).2.pageDir 32).pd_address
        = ((0x800000 + toInt8 s.cur.previous_id * 0x400000) / 1024 % 1048576).toNat ∧
      (sys_halt env s status).2.tss_esp0
        = (s.pcb_mem ((Function.update s.pcb_pool s.cur.process_id 0) s.cur.previous_id)).tss_esp ∧
      (sys_halt env s status).2.progress = 0) ∧
    (5 < s.cur.process_id → (sys_halt env s status).1 = .hang) := by
  have hc : (halt_begin s status).cur = s.cur := rfl
  refine ⟨fun h => ⟨?_, ?_⟩, fun h3 h5 => ?_, fun h => ?_⟩
  · intro a b s4 he
    unfold sys_halt
    simp only [hc]
    rw [if_neg (by omega), if_pos (by unfold TERMINAL_COUNT; omega), he]
  · intro v s4 he
    unfold sys_halt
    simp only [hc]
    rw [if_neg (by omega), if_pos (by unfold TERMINAL_COUNT; omega), he]
  · have hf := halt_teardown_fields (halt_begin s status)
    rw [hc] at hf
    rw [sys_halt_to_parent env s status h3 h5]
    obtain ⟨f1, f2, f3, f4, _, f6, _, f8, f9⟩ := hf
    exact ⟨by rw [f2], f1, f3, f4, f6, f8, f9⟩
  · unfold sys_halt
    simp only [hc]
    rw [if_pos h]

/-- The return to the parent at the example process of PID 3 (parent PID 2). -/
theorem sys_halt_base_shell_by_pid_witness :
    (3 ≤ kP3.cur.process_id ∧ kP3.cur.process_id ≤ 5) ∧
    (sys_halt envDemo kP3 5).2.pcb
      = (Function.update kP3.pcb_pool kP3.cur.process_id 0) kP3.cur.previous_id ∧
    (sys_halt envDemo kP3 5).2.pcb = kP2.pcb :=
  ⟨by decide!,
   ((sys_halt_base_shell_by_pid envDemo kP3 5).2.1 (by decide!) (by decide!)).2.2.1,
   by decide!⟩

/-! ## Signal delivery -/

/-- C17 as stated fails: the process of PID 3 has entered user mode, its mask
is clear, ALARM is pending and no handler is installed; `sig_dispatch`
returns to the linkage with the process still current and still in the pool. -/
theorem sig_dispatch_alarm_not_fatal :
    (kP3Alarm.cur.sig_mask = 0 ∧ kP3Alarm.cur.user_esp ≠ 0 ∧
      kP3Alarm.cur.sig_pending = ALARM ∧ kP3Alarm.cur.sig_handlers ALARM = 0) ∧
    (sig_dispatch envDemo kP3Alarm 7 4200000).1 = .ret 7 ∧
    (sig_dispatch envDemo kP3Alarm 7 4200000).2.pcb = kP3Alarm.pcb ∧
    (sig_dispatch envDemo kP3Alarm 7 4200000).2.pcb_pool 3 = kP3Alarm.pcb ∧
    (sig_dispatch envDemo kP3Alarm 7 4200000).2.cur.sig_pending = NULLSIG := by
  decide!

/-- C17 as amended: in `sig_dispatch`, for a process that has entered user
mode with its mask clear and a pending signal 0..4 without a user handler,
the pending signal is cleared and
* for DIV_ZERO, SEGFAULT and INTERRUPT the default handler calls
  `sys_halt (0)`: a process of PID 3..5 is ended (its pool slot is freed and
  control goes to the frame of the parent), and for the other PIDs
  `sig_dispatch` ends as that `sys_halt` does;
* for ALARM and USER1 the default handler does nothing: `sig_dispatch`
  clears the mask and returns `eax`, and the process continues. -/
theorem sig_dispatch_default_action (env : Env) (s : KState) (eax linkage : Nat)
    (hm : s.cur.sig_mask = 0) (hu : s.cur.user_esp ≠ 0) (hp : s.cur.sig_pending < 5)
    (hh : s.cur.sig_handlers s.cur.sig_pending = 0) :
    (s.cur.sig_pending ≤ 2 →
      sig_dispatch env s eax linkage
        = (match sys_halt env
              (s.setPcb s.pcb (fun x => { x with sig_pending := NULLSIG, sig_mask := 1 })) 0 with
          | (.ret _, s2) => (.ret eax, s2.setPcb s2.pcb (fun x => { x with sig_mask := 0 }))
          | (o, s2) => (.halted o, s2))) ∧
    (s.cur.sig_pending ≤ 2 → 3 ≤ s.cur.process_id → s.cur.process_id ≤ 5 →
      (sig_dispatch env s eax linkage).1 = .halted (.to_parent 0 s.cur.ebp s.cur.esp) ∧
      (sig_dispatch env s eax linkage).2.pcb_pool = Function.update s.pcb_pool s.cur.process_id 0) ∧
    (3 ≤ s.cur.sig_pending →
      sig_dispatch env s eax linkage
        = (.ret eax, (s.setPcb s.pcb (fun x => { x with sig_pending := NULLSIG, sig_mask := 1 })).setPcb
            s.pcb (fun x => { x with sig_mask := 0 }))) := by
  have hd : sig_dispatch env s eax linkage = dispatch_default env s eax s.cur.sig_pending := by
    unfold sig_dispatch
    rw [if_neg (fun hc => hc hm)]
    simp only []
    rw [if_neg hu, if_neg (fun hc => hc.2 hh)]
  have hmod : s.cur.sig_pending % 256 = s.cur.sig_pending := by omega
  refine ⟨fun h2 => ?_, fun h2 h3 h5 => ?_, fun h3 => ?_⟩
  · rw [hd]
    unfold dispatch_default sig_handle
    simp only [hmod]
    rw [if_pos (by unfold DIV_ZERO SEGFAULT INTERRUPT SYSKILL; omega)]
    rcases hs : sys_halt env
      (s.setPcb s.pcb (fun x => { x with sig_pending := NULLSIG, sig_mask := 1 })) 0 with ⟨o, s2⟩
    cases o <;> rfl
  · rw [hd]
    unfold dispatch_default sig_handle
    simp only [hmod]
    rw [if_pos (by unfold DIV_ZERO SEGFAULT INTERRUPT SYSKILL; omega)]
    have hcur : (s.setPcb s.pcb (fun x => { x with sig_pending := NULLSIG, sig_mask := 1 })).cur
        = { s.cur with sig_pending := NULLSIG, sig_mask := 1 } := by
      simp [KState.setPcb, KState.cur]
    have hs := sys_halt_to_parent env
      (s.setPcb s.pcb (fun x => { x with sig_pending := NULLSIG, sig_mask := 1 })) 0
      (by rw [hcur]; exact h3) (by rw [hcur]; exact h5)
    have hst : (halt_begin
        (s.setPcb s.pcb (fun x => { x with sig_pending := NULLSIG, sig_mask := 1 })) 0).halt_status
        = 0 := by
      rw [(halt_begin_fields _ _).2.2.2, hcur]
      simp [NULLSIG, DIV_ZERO, SEGFAULT]
    rw [hst, hcur] at hs
    rw [hs]
    refine ⟨rfl, ?_⟩
    simp only []
    rw [(halt_teardown_fields _).1, (halt_begin_fields _ _).2.2.1, hcur]
    rfl
  · rw [hd]
    unfold dispatch_default sig_handle
    simp only [hmod]
    rw [if_neg (by unfold DIV_ZERO SEGFAULT INTERRUPT SYSKILL; omega)]
    rfl

/-- C17 as amended, at the example process of PID 3: a pending DIV_ZERO ends
it, a pending ALARM does not. -/
theorem sig_dispatch_default_action_witness :
    (kP3DivZero.cur.sig_mask = 0 ∧ kP3DivZero.cur.user_esp ≠ 0 ∧ kP3DivZero.cur.sig_pending < 5 ∧
      kP3DivZero.cur.sig_handlers kP3DivZero.cur.sig_pending = 0) ∧
    (sig_dispatch envDemo kP3DivZero 7 4200000).2.pcb_pool
      = Function.update kP3DivZero.pcb_pool kP3DivZero.cur.process_id 0 ∧
    sig_dispatch envDemo kP3Alarm 7 4200000
      = (.ret 7, (kP3Alarm.setPcb kP3Alarm.pcb
            (fun x => { x with sig_pending := NULLSIG, sig_mask := 1 })).setPcb
          kP3Alarm.pcb (fun x => { x with sig_mask := 0 })) :=
  ⟨by decide!,
   ((sig_dispatch_default_action envDemo kP3DivZero 7 4200000 (by decide!) (by decide!)
      (by decide!) (by decide!)).2.1 (by decide!) (by decide!) (by decide!)).2,
   (sig_dispatch_default_action envDemo kP3Alarm 7 4200000 (by decide!) (by decide!)
      (by decide!) (by decide!)).2.2 (by decide!)⟩

/-- C13 (status of a process ended by an exception): the process of PID 3 has
entered user mode, the exception reporter has set DIV_ZERO with `sig_set`, no
handler is installed.  `sig_dispatch` clears the pending signal before its
default handler calls `sys_halt (0)`, so `sys_halt` does not see the signal
and the value handed to the parent is 0, not 256.  A plain `sys_halt (5)`
hands over 5. -/
theorem sig_dispatch_div_zero_status :
    (kP3DivZero.cur.sig_pending = DIV_ZERO ∧ kP3DivZero.cur.sig_handlers DIV_ZERO = 0) ∧
    (sig_dispatch envDemo kP3DivZero 7 4200000).1 = .halted (.to_parent 0 8388000 8387900) ∧
    (sig_dispatch envDemo kP3DivZero 7 4200000).2.halt_status = 0 ∧
    (sys_halt envDemo kP3 5).1 = .to_parent 5 8388000 8387900 := by
  decide!

/-- The value `sys_halt` hands to the parent for the PIDs 3..5: 256 when
`status` is 0 and DIV_ZERO or SEGFAULT is still pending in the PCB, otherwise
`status` as a byte. -/
theorem sys_halt_status (env : Env) (s : KState) (status : Nat)
    (h3 : 3 ≤ s.cur.process_id) (h5 : s.cur.process_id ≤ 5) :
    (sys_halt env s status).2.halt_status
      = (if status % 256 = 0 ∧ (s.cur.sig_pending = DIV_ZERO ∨ s.cur.sig_pending = SEGFAULT)
          then 256 else ((status % 256 : Nat) : Int)) := by
  rw [sys_halt_to_parent env s status h3 h5]
  simp only []
  rw [(halt_teardown_fields _).2.1, (halt_begin_fields _ _).2.2.2]

/-- C15 (descriptors at halt): the process of PID 3 has all of the slots 2..7
open; after `sys_halt` has returned to the parent the slots 2..6 of its table
are empty and slot 7 is still open, as it was.  The vidmap flag of the
terminal is 0 and the present bit of page-directory entry 33 is clear. -/
theorem sys_halt_leaves_slot_seven_open :
    (kP3Six.cur.file_descriptor 7).flags = FD_FLAG_FILE ∧
    (sys_halt envDemo kP3Six 0).1 = .to_parent 0 8388000 8387900 ∧
    ((sys_halt envDemo kP3Six 0).2.pcb_mem kP3Six.pcb).file_descriptor 7
      = kP3Six.cur.file_descriptor 7 ∧
    (((sys_halt envDemo kP3Six 0).2.pcb_mem kP3Six.pcb).file_descriptor 7).flags ≠ FD_FLAG_EMPTY ∧
    (((sys_halt envDemo kP3Six 0).2.pcb_mem kP3Six.pcb).file_descriptor 2).flags = FD_FLAG_EMPTY ∧
    (((sys_halt envDemo kP3Six 0).2.pcb_mem kP3Six.pcb).file_descriptor 3).flags = FD_FLAG_EMPTY ∧
    (((sys_halt envDemo kP3Six 0).2.pcb_mem kP3Six.pcb).file_descriptor 4).flags = FD_FLAG_EMPTY ∧
    (((sys_halt envDemo kP3Six 0).2.pcb_mem kP3Six.pcb).file_descriptor 5).flags = FD_FLAG_EMPTY ∧
    (((sys_halt envDemo kP3Six 0).2.pcb_mem kP3Six.pcb).file_descriptor 6).flags = FD_FLAG_EMPTY ∧
    ((sys_halt envDemo kP3Six 0).2.terminals kP3Six.cur.terminal_id).vidmap = 0 ∧
    ((sys_halt envDemo kP3Six 0).2.pageDir 33).P = 0 := by
  decide!

/-- C12 (negative length): the example process was executed with the command
"cat abc", so its argument is "abc"; `sys_getargs (buf, -1)` does not return
-1: it returns 0 and writes "abc" and the terminator to `buf`. -/
theorem sys_getargs_negative_nbytes :
    kCat.cur.arg_len = 3 ∧
    (sys_getargs kCat PROGRAM_PAGE_ADDR (-1)).1 = 0 ∧
    ldb (sys_getargs kCat PROGRAM_PAGE_ADDR (-1)).2.mem PROGRAM_PAGE_ADDR = 97 ∧
    ldb (sys_getargs kCat PROGRAM_PAGE_ADDR (-1)).2.mem (PROGRAM_PAGE_ADDR + 1) = 98 ∧
    ldb (sys_getargs kCat PROGRAM_PAGE_ADDR (-1)).2.mem (PROGRAM_PAGE_ADDR + 2) = 99 ∧
    ldb (sys_getargs kCat PROGRAM_PAGE_ADDR (-1)).2.mem (PROGRAM_PAGE_ADDR + 3) = 0 ∧
    ldb kCat.mem PROGRAM_PAGE_ADDR ≠ 97 := by
  decide!

/-! ## `check_executable` -/

/-- The comparison of three bytes with "ELF". -/
theorem strncmp_elf (b : Nat → Nat) (hb : ∀ i, b i < 256) :
    strncmp b (cstr [69, 76, 70]) 3 = 0 ↔ (b 0 = 69 ∧ b 1 = 76 ∧ b 2 = 70) := by
  have c0 : cstr [69, 76, 70] 0 = 69 := by decide
  have c1 : cstr [69, 76, 70] 1 = 76 := by decide
  have c2 : cstr [69, 76, 70] 2 = 70 := by decide
  have t0 := @toInt8_sub_eq_zero (b 0) 69 (hb 0) (by omega)
  have t1 := @toInt8_sub_eq_zero (b 1) 76 (hb 1) (by omega)
  have t2 := @toInt8_sub_eq_zero (b 2) 70 (hb 2) (by omega)
  unfold strncmp
  simp only [strncmp_from, c0, c1, c2, Nat.zero_add]
  by_cases h0 : b 0 = 69
  · by_cases h1 : b 1 = 76
    · by_cases h2 : b 2 = 70
      · simp [h0, h1, h2]
      · have e2 : ¬ (toInt8 (b 2) - toInt8 70 = 0) := fun h => h2 (t2.mp h)
        simp [h0, h1, h2, e2]
    · have e1 : ¬ (toInt8 (b 1) - toInt8 76 = 0) := fun h => h1 (t1.mp h)
      simp [h0, h1, e1]
  · have e0 : ¬ (toInt8 (b 0) - toInt8 69 = 0) := fun h => h0 (t0.mp h)
    simp [h0, e0]

/-- The value of `check_executable` is 1 or -1. -/
theorem check_executable_values (fs : FileSys) (d0 : dentry_t) (stack : Mem) (name : List Nat) :
    (check_executable fs d0 stack name).1 = 1 ∨ (check_executable fs d0 stack name).1 = -1 := by
  unfold check_executable
  simp only []
  split_ifs <;> simp

/-- When `check_executable` fails, `sys_execute` returns -1 and neither the
pool nor any PCB has changed. -/
theorem sys_execute_not_executable (env : Env) (s : KState) (c : List Nat)
    (h : (check_executable s.fs s.open_file_dentry env.stack (prog_name_of c)).1 = -1) :
    (sys_execute env s (some c)).1 = .ret (-1) ∧
    (sys_execute env s (some c)).2.pcb_pool = s.pcb_pool ∧
    (sys_execute env s (some c)).2.pcb = s.pcb ∧
    (sys_execute env s (some c)).2.pcb_mem = s.pcb_mem := by
  unfold sys_execute
  simp only []
  by_cases hp : find_next_pid { s with progress := 1 } = -1
  · rw [if_pos hp]
    exact ⟨rfl, rfl, rfl, rfl⟩
  · rw [if_neg hp]
    unfold execute_parse
    simp only []
    split_ifs with h0 h1
    · exact ⟨rfl, rfl, rfl, rfl⟩
    · exact ⟨rfl, rfl, rfl, rfl⟩
    · exact absurd h h1

/-- C11 (a file shorter than four bytes): the regular file "big" is empty, so
`read_data` fills none of the four bytes of the local `buf`, whose value
`check_executable` compares all the same.  When the stack bytes under
`buf[1..3]` hold 'E', 'L', 'F' it returns 1 and `sys_execute ("big")` starts
the empty file, having allocated PID 0; when they hold zeros it returns -1. -/
theorem check_executable_short_file :
    (inode_size fsWide 256 = 0 ∧
      read_dentry_by_name fsWide [98, 105, 103] ⟨[], 0, 0, []⟩
        = (0, ⟨strncpy [98, 105, 103] 32, FILE_TYPE_FILE, 256, []⟩) ∧
      (read_data fsWide 256 0 1 4 envElf.stack).1 = 0) ∧
    (check_executable fsWide ⟨[], 0, 0, []⟩ envElf.stack [98, 105, 103]).1 = 1 ∧
    (sys_execute envElf (kInit fsWide pcbZero) (some [98, 105, 103])).1
      = .iret (PROGRAM_STACK_ADDR - 4) 0 ∧
    ((kInit fsWide pcbZero).pcb_pool 0 = 0 ∧
      (sys_execute envElf (kInit fsWide pcbZero) (some [98, 105, 103])).2.pcb_pool 0 = 8380416 ∧
      (sys_execute envElf (kInit fsWide pcbZero) (some [98, 105, 103])).2.cur.process_id = 0) ∧
    (check_executable fsWide ⟨[], 0, 0, []⟩ envDemo.stack [98, 105, 103]).1 = -1 := by
  decide!

/-- The first byte is not examined: the file "fake" begins with 0x00, 'E', 'L',
'F', and `check_executable` returns 1 and `sys_execute` starts it. -/
theorem check_executable_ignores_first_byte :
    data_block_byte fsFake (inode_block_entry fsFake 0 0) 0 = 0 ∧
    (check_executable fsFake ⟨[], 0, 0, []⟩ (fun _ => 0) cmdFake).1 = 1 ∧
    (sys_execute envDemo (kInit fsFake pcbZero) (some cmdFake)).1
      = .iret (PROGRAM_STACK_ADDR - 4) 134513384 := by
  decide!

/-- What `check_executable` tests: it returns 1 or -1; it returns -1 when none
of the 63 entry slots has the name; for a file of at least four bytes it
returns 1 exactly when the bytes 1, 2 and 3 of the file are 'E', 'L', 'F' (byte
0 is not examined).  Whenever `check_executable` returns -1 for the program
name of a command, `sys_execute` returns -1 and has allocated no PID: the
pool, the current PCB and the PCBs are as before. -/
theorem check_executable_elf_letters (fs : FileSys) (d0 : dentry_t) (stack : Mem)
    (name : List Nat) :
    ((check_executable fs d0 stack name).1 = 1 ∨ (check_executable fs d0 stack name).1 = -1) ∧
    ((strlen name > 32 ∨ ¬ ∃ j, j < 63 ∧ stored_name fs j = cstring name) →
      (check_executable fs d0 stack name).1 = -1) ∧
    ((read_dentry_by_name fs name d0).1 ≠ -1 →
      (read_dentry_by_name fs name d0).2.inode_number < n_inodes fs →
      4 ≤ inode_size fs (read_dentry_by_name fs name d0).2.inode_number →
      inode_size fs (read_dentry_by_name fs name d0).2.inode_number < 2147483648 →
      ((check_executable fs d0 stack name).1 = 1 ↔
        (data_block_byte fs
            (inode_block_entry fs (read_dentry_by_name fs name d0).2.inode_number 0) 1 = 69 ∧
          data_block_byte fs
            (inode_block_entry fs (read_dentry_by_name fs name d0).2.inode_number 0) 2 = 76 ∧
          data_block_byte fs
            (inode_block_entry fs (read_dentry_by_name fs name d0).2.inode_number 0) 3 = 70))) ∧
    (∀ (env : Env) (s : KState) (c : List Nat),
      (check_executable s.fs s.open_file_dentry env.stack (prog_name_of c)).1 = -1 →
      (sys_execute env s (some c)).1 = .ret (-1) ∧
      (sys_execute env s (some c)).2.pcb_pool = s.pcb_pool ∧
      (sys_execute env s (some c)).2.pcb = s.pcb ∧
      (sys_execute env s (some c)).2.pcb_mem = s.pcb_mem) := by
  refine ⟨check_executable_values fs d0 stack name, ?_, ?_,
    fun env s c h => sys_execute_not_executable env s c h⟩
  · intro h
    have hr : (read_dentry_by_name fs name d0).1 = -1 := by
      by_cases hl : strlen name > 32
      · unfold read_dentry_by_name
        rw [if_pos hl]
      · rcases h with h | h
        · exact absurd h hl
        · rw [read_dentry_by_name_none fs name d0 (by omega) h]
    unfold check_executable
    simp only []
    rw [if_pos hr]
  · intro hr hin h4 hsz
    have hcount : read_count 4 (toInt32
        (inode_size fs (read_dentry_by_name fs name d0).2.inode_number + (U32 - 0 % U32))) = 4 := by
      rw [read_count_of_small 4 _ 0 hsz (by omega)]
      omega
    have hb : ∀ k, k < 4 →
        ldb (read_data fs (read_dentry_by_name fs name d0).2.inode_number 0 1 4 stack).2 (1 + k)
          = data_block_byte fs
              (inode_block_entry fs (read_dentry_by_name fs name d0).2.inode_number 0) k := by
      intro k hk
      have hx := read_data_byte_at fs (read_dentry_by_name fs name d0).2.inode_number 0 1 4 stack
        (by omega) hin k (by rw [hcount]; exact hk)
      rw [hx]
      have e1 : (0 + k) / 4096 = 0 := by omega
      have e2 : (0 + k) % 4096 = k := by omega
      rw [e1, e2]
    unfold check_executable
    simp only []
    rw [if_neg hr]
    have hs := strncmp_elf
      (fun i => ldb (read_data fs (read_dentry_by_name fs name d0).2.inode_number 0 1 4 stack).2
        (1 + (i + 1))) (fun i => ldb_lt _ _)
    simp only [] at hs
    rw [hb 1 (by omega), hb 2 (by omega), hb 3 (by omega)] at hs
    constructor
    · intro h1
      by_cases hc : strncmp
          (fun i => ldb (read_data fs (read_dentry_by_name fs name d0).2.inode_number 0 1 4 stack).2
            (1 + (i + 1))) (cstr [69, 76, 70]) 3 = 0
      · exact hs.mp hc
      · rw [if_neg hc] at h1
        simp at h1
    · intro h1
      rw [if_pos (hs.mpr h1)]

/-- The test on the example image: "cat" (bytes 0x7F 'E' 'L' 'F') is accepted,
"lst" (whose first four bytes are zero) is refused and `sys_execute ("lst")` returns -1
with the pool as it was. -/
theorem check_executable_elf_letters_witness :
    ((read_dentry_by_name fsDemo cmdCat ⟨[], 0, 0, []⟩).1 ≠ -1 ∧
      (read_dentry_by_name fsDemo cmdCat ⟨[], 0, 0, []⟩).2.inode_number < n_inodes fsDemo ∧
      4 ≤ inode_size fsDemo (read_dentry_by_name fsDemo cmdCat ⟨[], 0, 0, []⟩).2.inode_number) ∧
    ((check_executable fsDemo ⟨[], 0, 0, []⟩ (fun _ => 0) cmdCat).1 = 1 ↔
      (data_block_byte fsDemo (inode_block_entry fsDemo
          (read_dentry_by_name fsDemo cmdCat ⟨[], 0, 0, []⟩).2.inode_number 0) 1 = 69 ∧
        data_block_byte fsDemo (inode_block_entry fsDemo
          (read_dentry_by_name fsDemo cmdCat ⟨[], 0, 0, []⟩).2.inode_number 0) 2 = 76 ∧
        data_block_byte fsDemo (inode_block_entry fsDemo
          (read_dentry_by_name fsDemo cmdCat ⟨[], 0, 0, []⟩).2.inode_number 0) 3 = 70)) ∧
    (check_executable kCat.fs kCat.open_file_dentry envDemo.stack
        (prog_name_of [108, 115, 116])).1 = -1 ∧
    (sys_execute envDemo kCat (some [108, 115, 116])).1 = .ret (-1) ∧
    (sys_execute envDemo kCat (some [108, 115, 116])).2.pcb_pool = kCat.pcb_pool :=
  ⟨by decide!,
   (check_executable_elf_letters fsDemo ⟨[], 0, 0, []⟩ (fun _ => 0) cmdCat).2.2.1
     (by decide!) (by decide!) (by decide!) (by decide!),
   by decide!,
   ((check_executable_elf_letters fsDemo ⟨[], 0, 0, []⟩ (fun _ => 0) cmdCat).2.2.2
     envDemo kCat [108, 115, 116] (by decide!)).1,
   ((check_executable_elf_letters fsDemo ⟨[], 0, 0, []⟩ (fun _ => 0) cmdCat).2.2.2
     envDemo kCat [108, 115, 116] (by decide!)).2.1⟩

/-- An argument of 130 bytes: the copy into the 128 bytes of `arg_buffer` runs
over `sig_stacksize` and `sig_mask`, which take its last two bytes 'y' and
'z', and `sys_getargs` hands all 130 bytes back. -/
theorem sys_execute_long_argument :
    kLong.cur.arg_len = 130 ∧ kLong.cur.arg_buffer 127 = 97 ∧
    kLong.cur.sig_stacksize = 121 ∧ kLong.cur.sig_mask = 122 ∧
    (sys_getargs kLong PROGRAM_PAGE_ADDR 200).1 = 0 ∧
    ldb (sys_getargs kLong PROGRAM_PAGE_ADDR 200).2.mem (PROGRAM_PAGE_ADDR + 128) = 121 ∧
    ldb (sys_getargs kLong PROGRAM_PAGE_ADDR 200).2.mem (PROGRAM_PAGE_ADDR + 129) = 122 := by
  decide!

/-- The part of the contract of `sys_getargs` that holds: for a length
`0 <= n < 2^31` it returns 0 exactly when the argument is non-empty and
`n >= arg_len + 1`, and a call that fails changes nothing. -/
theorem sys_getargs_nonneg (s : KState) (buf : Nat) (n : Nat) (hn : n < 2147483648)
    (hl : s.cur.arg_len + 1 < U32) :
    ((sys_getargs s buf (n : Int)).1 = 0 ↔ (s.cur.arg_len ≠ 0 ∧ s.cur.arg_len + 1 ≤ n)) ∧
    ((sys_getargs s buf (n : Int)).1 ≠ 0 → sys_getargs s buf (n : Int) = (-1, s)) := by
  have hu : toU32 (n : Int) = n := toU32_ofNat n (by omega)
  have hm : (s.cur.arg_len + 1) % U32 = s.cur.arg_len + 1 := Nat.mod_eq_of_lt hl
  unfold sys_getargs
  rw [hu, hm]
  by_cases h0 : s.cur.arg_len = 0
  · rw [if_pos h0]
    simp [h0]
  · rw [if_neg h0]
    by_cases h1 : s.cur.arg_len + 1 > n
    · rw [if_pos h1]
      simp
      omega
    · rw [if_neg h1]
      simp
      omega

/-! ## Timer tick -/

/-- C23 (pit_handle): for a running process on terminal 0, 1 or 2,
`pit_handle` makes no call of `switchContext` when the progress flag is set,
and none when the scheduler is disabled and the terminal of the running
process is the active one; in every other case it calls `switchContext` with
the target `(terminal + 1) mod 3`. -/
theorem pit_handle_round_robin (env env_init : Env) (s : KState) (h : s.cur.terminal_id < 3) :
    ((s.progress ≠ 0 ∨ (s.scheduler_enable = 0 ∧ s.cur.terminal_id = s.terminal_active)) →
      pit_target s = none ∧ pit_handle env env_init s = (.returned, s)) ∧
    (¬ (s.progress ≠ 0 ∨ (s.scheduler_enable = 0 ∧ s.cur.terminal_id = s.terminal_active)) →
      pit_target s = some ((s.cur.terminal_id + 1) % 3) ∧
      pit_handle env env_init s
        = switchContext env env_init s ((s.cur.terminal_id + 1) % 3)) := by
  constructor
  · intro hc
    have ht : pit_target s = none := by
      unfold pit_target
      rw [if_pos hc]
    refine ⟨ht, ?_⟩
    unfold pit_handle
    rw [ht]
  · intro hc
    have ht : pit_target s = some ((s.cur.terminal_id + 1) % 3) := by
      unfold pit_target
      rw [if_neg hc]
      have h3 : s.cur.terminal_id = 0 ∨ s.cur.terminal_id = 1 ∨ s.cur.terminal_id = 2 := by omega
      rcases h3 with h0 | h0 | h0 <;> rw [h0] <;> rfl
    refine ⟨ht, ?_⟩
    unfold pit_handle
    rw [ht]

/-- C23 at the example shell of terminal 1 while terminal 0 is the active one:
the tick switches to terminal 2. -/
theorem pit_handle_round_robin_witness :
    (kT1.cur.terminal_id < 3 ∧
      ¬ (kT1.progress ≠ 0 ∨ (kT1.scheduler_enable = 0 ∧ kT1.cur.terminal_id = kT1.terminal_active))) ∧
    pit_target kT1 = some ((kT1.cur.terminal_id + 1) % 3) ∧
    (kT1.cur.terminal_id + 1) % 3 = 2 :=
  ⟨by decide!,
   ((pit_handle_round_robin envSwitch envDemo kT1 (by decide!)).2 (by decide!)).1,
   by decide!⟩

/-! ## `rtc_write` -/

/-- The loop of `rtc_write` accepts exactly 2, 4, ..., 1024. -/
theorem rtc_write_loop_spec (v : Int) :
    rtc_write_loop v 10 15 = true ↔ ∃ k : Nat, 1 ≤ k ∧ k ≤ 10 ∧ v = 2 ^ k := by
  have hl : rtc_write_loop v 10 15 = true ↔
      (v = 2 ∨ v = 4 ∨ v = 8 ∨ v = 16 ∨ v = 32 ∨ v = 64 ∨ v = 128 ∨ v = 256 ∨ v = 512 ∨
        v = 1024) := by
    simp [rtc_write_loop, Nat.shiftRight_eq_div_pow]
  rw [hl]
  constructor
  · intro h
    rcases h with h | h | h | h | h | h | h | h | h | h
    · exact ⟨1, by omega, by omega, by rw [h]; norm_num⟩
    · exact ⟨2, by omega, by omega, by rw [h]; norm_num⟩
    · exact ⟨3, by omega, by omega, by rw [h]; norm_num⟩
    · exact ⟨4, by omega, by omega, by rw [h]; norm_num⟩
    · exact ⟨5, by omega, by omega, by rw [h]; norm_num⟩
    · exact ⟨6, by omega, by omega, by rw [h]; norm_num⟩
    · exact ⟨7, by omega, by omega, by rw [h]; norm_num⟩
    · exact ⟨8, by omega, by omega, by rw [h]; norm_num⟩
    · exact ⟨9, by omega, by omega, by rw [h]; norm_num⟩
    · exact ⟨10, by omega, by omega, by rw [h]; norm_num⟩
  · rintro ⟨k, h1, h2, hv⟩
    interval_cases k <;> simp [hv]

/-- C26 (rtc_write): with the RTC opened, `rtc_write` returns 0 exactly when
`buf` is not null and the `int` it points to is a power of two from 2 to 1024,
and -1 in every other case; it changes nothing. -/
theorem rtc_write_valid_frequencies (s : KState) (fd : Int) (buf : Nat) (nbytes : Int)
    (hopen : s.rtc_open_flag ≠ 0) :
    ((rtc_write s fd buf nbytes).1 = 0 ↔
      (buf ≠ 0 ∧ ∃ k : Nat, 1 ≤ k ∧ k ≤ 10 ∧ toInt32 (ld32 s.mem buf) = 2 ^ k)) ∧
    ((rtc_write s fd buf nbytes).1 ≠ 0 → (rtc_write s fd buf nbytes).1 = -1) ∧
    (rtc_write s fd buf nbytes).2 = s := by
  unfold rtc_write
  rw [if_neg hopen]
  by_cases hb : buf = 0
  · rw [if_pos hb]
    simp [hb]
  · rw [if_neg hb]
    simp only []
    by_cases hl : rtc_write_loop (toInt32 (ld32 s.mem buf)) 10 15 = true
    · rw [if_pos hl]
      exact ⟨⟨fun _ => ⟨hb, (rtc_write_loop_spec _).mp hl⟩, fun _ => rfl⟩,
        fun h => absurd rfl h, rfl⟩
    · rw [if_neg hl]
      refine ⟨⟨fun h => by simp at h, fun h => absurd ((rtc_write_loop_spec _).mpr h.2) hl⟩,
        fun _ => rfl, rfl⟩

/-- C26 on the example process: 1024 is accepted, 666 and -512 are not. -/
theorem rtc_write_valid_frequencies_witness :
    kCat.rtc_open_flag ≠ 0 ∧
    ((rtc_write { kCat with mem := st32 kCat.mem 4096 1024 } 2 4096 4).1 = 0 ↔
      ((4096 : Nat) ≠ 0 ∧ ∃ k : Nat, 1 ≤ k ∧ k ≤ 10 ∧
        toInt32 (ld32 ({ kCat with mem := st32 kCat.mem 4096 1024 } : KState).mem 4096) = 2 ^ k)) ∧
    (rtc_write { kCat with mem := st32 kCat.mem 4096 1024 } 2 4096 4).1 = 0 ∧
    (rtc_write { kCat with mem := st32 kCat.mem 4096 666 } 2 4096 4).1 = -1 ∧
    (rtc_write { kCat with mem := st32 kCat.mem 4096 (toU32 (-512)) } 2 4096 4).1 = -1 ∧
    (rtc_write kCat 2 0 4).1 = -1 :=
  ⟨by decide!,
   (rtc_write_valid_frequencies { kCat with mem := st32 kCat.mem 4096 1024 } 2 4096 4
      (by decide!)).1,
   by decide!, by decide!, by decide!, by decide!⟩

/-! ## Terminal driver -/

theorem memcpy_to_other (m : Mem) (dst : Nat) (src : Nat → Nat) (a : Nat) :
    ∀ n, (∀ k, k < n → a % U32 ≠ (dst + k) % U32) →
      ldb (memcpy_to m dst src n) a = ldb m a := by
  intro n
  induction n with
  | zero => intro _; rfl
  | succ n ih =>
    intro h
    simp only [memcpy_to]
    rw [ldb_stb_other _ _ _ _ (h n (by omega))]
    exact ih (fun k hk => h k (by omega))

theorem memcpy_to_at (m : Mem) (dst : Nat) (src : Nat → Nat) :
    ∀ n k, k < n → dst + n ≤ U32 → ldb (memcpy_to m dst src n) (dst + k) = src k % 256 := by
  intro n
  induction n with
  | zero => intro k hk; omega
  | succ n ih =>
    intro k hk hn
    simp only [memcpy_to]
    by_cases hkn : k = n
    · rw [hkn, ldb_stb_self]
    · have hne : (dst + k) % U32 ≠ (dst + n) % U32 := by
        unfold U32 at hn ⊢
        omega
      rw [ldb_stb_other _ _ _ _ hne]
      exact ih k (by omega) (by omega)

/-- C28 (count above the line buffer): `terminal_read (buf, 9999)` on the
example process, the keyboard handing over the line "hello!": the call does
not return -1, it returns 6 with the line copied to `buf`. -/
theorem terminal_read_large_count :
    (terminal_read envLine kCat 0 PROGRAM_PAGE_ADDR 9999).1 = 6 ∧
    ldb (terminal_read envLine kCat 0 PROGRAM_PAGE_ADDR 9999).2.mem PROGRAM_PAGE_ADDR = 104 ∧
    ldb (terminal_read envLine kCat 0 PROGRAM_PAGE_ADDR 9999).2.mem (PROGRAM_PAGE_ADDR + 5) = 33 := by
  decide!

/-- The part of the contract of the terminal driver that holds: a null `buf`
gives -1 in `terminal_read` and `terminal_write`; for a non-null `buf` and a
line of `kbd_size` bytes, `terminal_read` returns `min (n, kbd_size)` and
copies that many bytes of the line; `terminal_write` returns `n`. -/
theorem terminal_read_write_contract (env : Env) (s : KState) (fd : Int) (buf n : Nat)
    (hbuf : buf ≠ 0) (hn : n < 2147483648) (hfit : buf + min env.kbd_size n ≤ U32) :
    (terminal_read env s fd 0 n).1 = -1 ∧
    (terminal_write s fd 0 n).1 = -1 ∧
    (terminal_read env s fd buf n).1 = ((min env.kbd_size n : Nat) : Int) ∧
    (∀ k, k < min env.kbd_size n →
      ldb (terminal_read env s fd buf n).2.mem (buf + k) = env.kbd_buf k % 256) ∧
    (terminal_write s fd buf n).1 = (n : Int) := by
  refine ⟨by simp [terminal_read], by simp [terminal_write], ?_, ?_, ?_⟩
  · unfold terminal_read
    rw [if_neg hbuf]
    simp only [copy_buffer, terminal_open, Function.update_same]
    exact toInt32_ofNat _ (by omega)
  · intro k hk
    unfold terminal_read
    rw [if_neg hbuf]
    simp only [copy_buffer, terminal_open, Function.update_same]
    rw [memcpy_to_at _ _ _ _ k hk hfit]
    have hk2 : k < env.kbd_size := by omega
    simp [hk2]
  · unfold terminal_write
    rw [if_neg hbuf]
    exact toInt32_ofNat _ hn

/-! ## The stack snapshot of `sig_dispatch` -/

/-- C29 (no bound on the snapshot): the shell of terminal 0 has "cat" open at
descriptor 2 and a handler installed for the pending ALARM; `sig_dispatch`
runs with `tss_esp - ebp = 160`, more than the 108 bytes of `sig_stackshot`.
It does not fail closed: it enters the handler, having copied 160 bytes, and
the copy has overwritten descriptor 2 with the stack words behind the first
27 (the pointer to the operation table becomes `NULL`, inode 2 becomes 0, the
flags become the stack word 7).  With `tss_esp - ebp = 300` it enters the
handler as well, the byte count kept in the `uint8_t sig_stacksize` being 44. -/
theorem sig_dispatch_snapshot_overruns :
    (kSig.cur.tss_esp - envDeep.ebp = 160 ∧
      kSig.cur.file_descriptor 2 = ⟨.file_sys_calls, 2, 0, FD_FLAG_FILE⟩) ∧
    (sig_dispatch envDeep kSig 7 4200000).1 = .handler 134516736 138412008 ∧
    (sig_dispatch envDeep kSig 7 4200000).2.cur.sig_stacksize = 160 ∧
    (sig_dispatch envDeep kSig 7 4200000).2.cur.file_descriptor 2 = ⟨.null, 0, 0, 7⟩ ∧
    (sig_dispatch { envDeep with ebp := 8388304 } kSig 7 4200000).1
      = .handler 134516736 138412008 ∧
    (sig_dispatch { envDeep with ebp := 8388304 } kSig 7 4200000).2.cur.sig_stacksize = 44 := by
  decide!

/-- What `sig_dispatch` does for a pending signal with a user handler: whatever
`ebp` is, it enters the handler, and the byte count it saves, which
`sys_sigreturn` copies back, is `tss_esp - ebp` reduced to a byte. -/
theorem sig_dispatch_enters_handler (env : Env) (s : KState) (eax linkage : Nat)
    (hm : s.cur.sig_mask = 0) (hu : KERNEL_STACK_ADDR < s.cur.user_esp)
    (hp : s.cur.sig_pending < 5) (hh : s.cur.sig_handlers s.cur.sig_pending ≠ 0) :
    (sig_dispatch env s eax linkage).1
      = .handler (s.cur.sig_handlers s.cur.sig_pending) (s.cur.user_esp - 8) ∧
    (sig_dispatch env s eax linkage).2.cur.sig_stacksize
      = (s.cur.tss_esp + (U32 - env.ebp % U32)) % U32 % 256 := by
  have hu0 : s.cur.user_esp ≠ 0 := by unfold KERNEL_STACK_ADDR at hu; omega
  unfold sig_dispatch
  rw [if_neg (fun hc => hc hm)]
  simp only []
  rw [if_neg hu0, if_pos ⟨hp, hh⟩]
  unfold dispatch_custom
  simp only []
  rw [if_neg (by omega)]
  constructor
  · simp [KState.setPcb, KState.cur, pcb_write, copied_pcb, copied_word]
    intro h5 h1
    omega
  · simp [KState.setPcb, KState.cur, pcb_write, copied_pcb, copied_byte]

/-! ## `switchVidMem` and the video target of `switchContext` -/

theorem ldb_mod256 (m : Mem) (a : Nat) : ldb m a % 256 = ldb m a :=
  Nat.mod_eq_of_lt (ldb_lt m a)

/-- The memory `switchVidMem (t)` leaves for `t < 3`. -/
theorem switchVidMem_mem (s : KState) (t : Nat) (ht : t < 3) :
    (switchVidMem s t).mem
      = memcpy_to
          (memcpy_to s.mem (s.terminals s.terminal_active).video_backup_addr
            (fun i => ldb s.mem (VIDEO_MEM_ADDR + i)) VIDEO_MEM_BYTES)
          VIDEO_MEM_ADDR
          (fun i => ldb
            (memcpy_to s.mem (s.terminals s.terminal_active).video_backup_addr
              (fun i => ldb s.mem (VIDEO_MEM_ADDR + i)) VIDEO_MEM_BYTES)
            ((s.terminals t).video_backup_addr + i)) VIDEO_MEM_BYTES := by
  unfold switchVidMem
  rw [if_neg (by unfold TERMINAL_COUNT; omega)]
  simp only []
  split <;> rfl

/-- C25 (switchVidMem): with the backing pages where `switchEnvironmentInit`
puts them and an active terminal `a < 3`: for `t < 3` other than `a`, after
`switchVidMem (t)` the 4096 bytes of the framebuffer are what the backing page
of `t` held, the backing page of `a` holds what the framebuffer held, the
backing page of the third terminal is unchanged, `terminal_active` is `t` and
the progress flag is clear; for `t = a` the framebuffer is unchanged; for
`t >= 3` the state is unchanged. -/
theorem switchVidMem_swaps (s : KState) (t : Nat)
    (ha : s.terminal_active < 3)
    (hb : ∀ i, i < 3 → (s.terminals i).video_backup_addr = VIDEO_BACKUP_ADDR0 + i * 4096) :
    (t < 3 → t ≠ s.terminal_active →
      (∀ k, k < 4096 →
        ldb (switchVidMem s t).mem (VIDEO_MEM_ADDR + k)
          = ldb s.mem (VIDEO_BACKUP_ADDR0 + t * 4096 + k) ∧
        ldb (switchVidMem s t).mem (VIDEO_BACKUP_ADDR0 + s.terminal_active * 4096 + k)
          = ldb s.mem (VIDEO_MEM_ADDR + k) ∧
        (∀ c, c < 3 → c ≠ t → c ≠ s.terminal_active →
          ldb (switchVidMem s t).mem (VIDEO_BACKUP_ADDR0 + c * 4096 + k)
            = ldb s.mem (VIDEO_BACKUP_ADDR0 + c * 4096 + k))) ∧
      (switchVidMem s t).terminal_active = t ∧ (switchVidMem s t).progress = 0) ∧
    (t = s.terminal_active →
      ∀ k, k < 4096 → ldb (switchVidMem s t).mem (VIDEO_MEM_ADDR + k) = ldb s.mem (VIDEO_MEM_ADDR + k)) ∧
    (3 ≤ t → switchVidMem s t = s) := by
  have hba := hb s.terminal_active ha
  refine ⟨fun ht hne => ⟨fun k hk => ⟨?_, ?_, ?_⟩, ?_, ?_⟩, fun hta k hk => ?_, fun h3 => ?_⟩
  · rw [switchVidMem_mem s t ht, hba, hb t ht]
    unfold VIDEO_MEM_BYTES
    rw [memcpy_to_at _ _ _ 4096 k hk (by unfold VIDEO_MEM_ADDR U32; omega), ldb_mod256]
    apply memcpy_to_other
    intro j hj
    unfold VIDEO_BACKUP_ADDR0 U32
    omega
  · rw [switchVidMem_mem s t ht, hba, hb t ht]
    unfold VIDEO_MEM_BYTES
    rw [memcpy_to_other _ _ _ _ 4096 (by
      intro j hj
      unfold VIDEO_BACKUP_ADDR0 VIDEO_MEM_ADDR U32
      omega)]
    rw [memcpy_to_at _ _ _ 4096 k hk (by unfold VIDEO_BACKUP_ADDR0 U32; omega), ldb_mod256]
  · intro c hc hct hca
    rw [switchVidMem_mem s t ht, hba, hb t ht]
    unfold VIDEO_MEM_BYTES
    rw [memcpy_to_other _ _ _ _ 4096 (by
      intro j hj
      unfold VIDEO_BACKUP_ADDR0 VIDEO_MEM_ADDR U32
      omega)]
    apply memcpy_to_other
    intro j hj
    unfold VIDEO_BACKUP_ADDR0 U32
    omega
  · unfold switchVidMem
    rw [if_neg (by unfold TERMINAL_COUNT; omega)]
  · unfold switchVidMem
    rw [if_neg (by unfold TERMINAL_COUNT; omega)]
  · have ht : t < 3 := by omega
    rw [switchVidMem_mem s t ht, hta, hba]
    unfold VIDEO_MEM_BYTES
    rw [memcpy_to_at _ _ _ 4096 k hk (by unfold VIDEO_MEM_ADDR U32; omega), ldb_mod256]
    rw [memcpy_to_at _ _ _ 4096 k hk (by unfold VIDEO_BACKUP_ADDR0 U32; omega), ldb_mod256]
  · unfold switchVidMem
    rw [if_pos (by unfold TERMINAL_COUNT; omega)]

/-- C25 at the shell of terminal 0 (the active terminal): `switchVidMem (1)`. -/
theorem switchVidMem_swaps_witness :
    (kT0.terminal_active < 3 ∧
      (∀ i, i < 3 → (kT0.terminals i).video_backup_addr = VIDEO_BACKUP_ADDR0 + i * 4096) ∧
      1 ≠ kT0.terminal_active) ∧
    (∀ k, k < 4096 →
      ldb (switchVidMem kT0 1).mem (VIDEO_MEM_ADDR + k)
        = ldb kT0.mem (VIDEO_BACKUP_ADDR0 + 1 * 4096 + k)) ∧
    (switchVidMem kT0 1).terminal_active = 1 :=
  ⟨⟨by decide!, by decide!, by decide!⟩,
   fun k hk => (((switchVidMem_swaps kT0 1 (by decide!) (by decide!)).1
      (by decide) (by decide!)).1 k hk).1,
   ((switchVidMem_swaps kT0 1 (by decide!) (by decide!)).1 (by decide) (by decide!)).2.1⟩

/-- The entry of the target in the terminal table after lines 121-142 of
`switchContext`. -/
theorem switch_save_terminal (env : Env) (s : KState) (t : Nat) :
    ((switch_save env s t).terminals t).initialized = (s.terminals t).initialized ∧
    ((switch_save env s t).terminals t).video_backup_addr = (s.terminals t).video_backup_addr ∧
    ((switch_save env s t).terminals t).video_backup_page = (s.terminals t).video_backup_page ∧
    ((switch_save env s t).terminals t).pcb
      = (if t = s.cur.terminal_id then s.pcb else (s.terminals t).pcb) := by
  by_cases h : t = s.cur.terminal_id
  · rw [if_pos h]
    subst h
    simp [switch_save, KState.setTerm]
  · rw [if_neg h]
    simp [switch_save, KState.setTerm, Function.update_noteq h]


/-- The two outcomes of the choice of the video target. -/
theorem switch_video_fields (s : KState) (t : Nat) :
    (video_to_vram s t →
      (switch_video s t).video_mem = VIDEO_MEM_ADDR ∧
      ((switch_video s t).pageTableHigh 0).physicalAddress = VIDEO_MEM_PAGE) ∧
    (¬ video_to_vram s t →
      (switch_video s t).video_mem = (s.terminals t).video_backup_addr ∧
      ((switch_video s t).pageTableHigh 0).physicalAddress
        = (s.terminals t).video_backup_page % 1048576) := by
  have h1 : video_to_vram (map4KBVidMemPage s) t ↔ video_to_vram s t := Iff.rfl
  have h2 : video_to_vram (unMap4KBVidMemPage s) t ↔ video_to_vram s t := Iff.rfl
  by_cases hvm : (s.terminals t).vidmap ≠ 0
  · constructor
    · intro hc
      unfold switch_video
      simp only []
      rw [if_pos hvm, if_pos (h1.mpr hc)]
      exact ⟨rfl, by simp only [Function.update_same]⟩
    · intro hc
      unfold switch_video
      simp only []
      rw [if_pos hvm, if_neg (fun h => hc (h1.mp h))]
      exact ⟨rfl, by simp only [Function.update_same]; rfl⟩
  · constructor
    · intro hc
      unfold switch_video
      simp only []
      rw [if_neg hvm, if_pos (h2.mpr hc)]
      exact ⟨rfl, by simp only [Function.update_same]⟩
    · intro hc
      unfold switch_video
      simp only []
      rw [if_neg hvm, if_neg (fun h => hc (h2.mp h))]
      exact ⟨rfl, by simp only [Function.update_same]; rfl⟩

/-- The video target `switchContext (t)` chooses, for a state in which the
PCB kept for an initialised terminal other than the running one belongs to
that terminal: the framebuffer exactly when `t` is the active terminal and is
initialised or the scheduler is disabled, or the scheduler is disabled and `t`
is not initialised; otherwise the backing page of `t`. -/
theorem switch_video_target (env : Env) (s : KState) (t : Nat)
    (hown : (s.terminals t).initialized ≠ 0 → t ≠ s.cur.terminal_id →
      (s.pcb_mem (s.terminals t).pcb).terminal_id = t) :
    (((t = s.terminal_active ∧ ((s.terminals t).initialized ≠ 0 ∨ s.scheduler_enable = 0)) ∨
        (s.scheduler_enable = 0 ∧ (s.terminals t).initialized = 0)) →
      (switch_video (switch_save env s t) t).video_mem = VIDEO_MEM_ADDR ∧
      ((switch_video (switch_save env s t) t).pageTableHigh 0).physicalAddress = VIDEO_MEM_PAGE) ∧
    (¬ ((t = s.terminal_active ∧ ((s.terminals t).initialized ≠ 0 ∨ s.scheduler_enable = 0)) ∨
        (s.scheduler_enable = 0 ∧ (s.terminals t).initialized = 0)) →
      (switch_video (switch_save env s t) t).video_mem = (s.terminals t).video_backup_addr ∧
      ((switch_video (switch_save env s t) t).pageTableHigh 0).physicalAddress
        = (s.terminals t).video_backup_page % 1048576) := by
  obtain ⟨hinit, haddr, hpage, hpcb⟩ := switch_save_terminal env s t
  have hmem : (switch_save env s t).pcb_mem = s.pcb_mem := rfl
  have htid : (s.terminals t).initialized ≠ 0 →
      ((switch_save env s t).pcb_mem ((switch_save env s t).terminals t).pcb).terminal_id = t := by
    intro hi
    rw [hmem, hpcb]
    by_cases h : t = s.cur.terminal_id
    · rw [if_pos h]
      exact h.symm
    · rw [if_neg h]
      exact hown hi h
  have hv : ∀ s5 : KState, s5.terminals = (switch_save env s t).terminals →
      s5.pcb_mem = (switch_save env s t).pcb_mem →
      s5.scheduler_enable = s.scheduler_enable → s5.terminal_active = s.terminal_active →
      (video_to_vram s5 t ↔
        ((t = s.terminal_active ∧ ((s.terminals t).initialized ≠ 0 ∨ s.scheduler_enable = 0)) ∨
          (s.scheduler_enable = 0 ∧ (s.terminals t).initialized = 0))) := by
    intro s5 h1 h2 h3 h4
    unfold video_to_vram
    rw [h1, h2, h3, h4, hinit]
    by_cases hi : (s.terminals t).initialized = 0
    · simp [hi]
    · rw [htid hi]
      constructor
      · rintro (⟨a, _, c⟩ | ⟨a, b | c⟩)
        · exact Or.inl ⟨c.symm, Or.inl hi⟩
        · exact absurd b hi
        · exact Or.inl ⟨c.symm, Or.inr a⟩
      · rintro (⟨a, b | c⟩ | ⟨a, b⟩)
        · by_cases hs : s.scheduler_enable = 0
          · exact Or.inr ⟨hs, Or.inr a.symm⟩
          · exact Or.inl ⟨hs, hi, a.symm⟩
        · exact Or.inr ⟨c, Or.inr a.symm⟩
        · exact absurd b hi
  have hsv := switch_video_fields (switch_save env s t) t
  have hcond := hv (switch_save env s t) rfl rfl rfl rfl
  rw [haddr, hpage] at hsv
  exact ⟨fun hc => hsv.1 (hcond.mpr hc), fun hc => hsv.2 (fun h => hc (hcond.mp h))⟩

/-- C24 (video target for an uninitialised active terminal): the scheduler is
enabled, terminal 1 is the active terminal and is not initialised, terminal 0
is running; `switchContext (1)` points `video_mem` and the vidmap page-table
entry at the backing page of terminal 1 (0xBA000), not at the framebuffer,
and starts the shell of terminal 1 with that target. -/
theorem switchContext_uninitialised_active_target :
    (kSched.scheduler_enable = 1 ∧ kSched.terminal_active = 1 ∧
      (kSched.terminals 1).initialized = 0 ∧ kSched.cur.terminal_id = 0 ∧
      (kSched.pcb_mem (kSched.terminals 0).pcb).terminal_id = 0) ∧
    (switch_video (switch_save envSwitch kSched 1) 1).video_mem = VIDEO_BACKUP_ADDR1 ∧
    ((switch_video (switch_save envSwitch kSched 1) 1).pageTableHigh 0).physicalAddress
      = VIDEO_BACKUP_PAGE1 ∧
    (switchContext envSwitch envDemo kSched 1).2.video_mem = VIDEO_BACKUP_ADDR1 ∧
    ((switchContext envSwitch envDemo kSched 1).2.pageTableHigh 0).physicalAddress
      = VIDEO_BACKUP_PAGE1 ∧
    (switchContext envSwitch envDemo kSched 1).2.cur.terminal_id = 1 ∧
    (switchContext envSwitch envDemo kSched 1).2.terminal_active = 1 := by
  decide!

/-! ## Reading a directory -/

theorem kstb_eq (s : KState) (a v : Nat) (h : pcb_at (a % U32) = none) :
    kstb s a v = { s with mem := stb s.mem a v } := by
  unfold kstb
  rw [h]

theorem kldb_eq (s : KState) (a : Nat) (h : pcb_at (a % U32) = none) :
    kldb s a = ldb s.mem a := by
  unfold kldb
  rw [h]

theorem kmemcpy_eq (s : KState) (dst : Nat) (src : Nat → Nat) :
    ∀ n, (∀ i, i < n → pcb_at ((dst + i) % U32) = none) →
      kmemcpy s dst src n = { s with mem := memcpy_to s.mem dst src n } := by
  intro n
  induction n with
  | zero => intro _; rfl
  | succ n ih =>
    intro h
    unfold kmemcpy
    rw [ih (fun i hi => h i (by omega)), kstb_eq _ _ _ (h n (by omega))]
    rfl

theorem read_data_loop_k_eq (fs : FileSys) (ds is io buf : Nat) :
    ∀ (length : Nat) (rem : Int) (br : Nat) (s : KState),
      (∀ i, i < length → pcb_at ((buf + br + i) % U32) = none) →
      read_data_loop_k fs ds is io buf length rem br s
        = ((read_data_loop fs ds is io buf length rem br s.mem).1,
            { s with mem := (read_data_loop fs ds is io buf length rem br s.mem).2 }) := by
  intro length
  induction length with
  | zero => intro rem br s _; rfl
  | succ n ih =>
    intro rem br s h
    unfold read_data_loop_k read_data_loop
    by_cases hr : rem > 0
    · rw [if_pos hr, if_pos hr]
      simp only []
      rw [kstb_eq _ _ _ (by have := h 0 (by omega); simpa using this)]
      rw [ih (rem - 1) (br + 1) _ (fun i hi => by
        have := h (i + 1) (by omega)
        rw [show buf + (br + 1) + i = buf + br + (i + 1) by omega]
        exact this)]
    · rw [if_neg hr, if_neg hr]

theorem read_data_k_eq (s : KState) (inode offset buf length : Nat)
    (h : ∀ i, i < length → pcb_at ((buf + i) % U32) = none) :
    read_data_k s inode offset buf length
      = ((read_data s.fs inode offset buf length s.mem).1,
          { s with mem := (read_data s.fs inode offset buf length s.mem).2 }) := by
  unfold read_data_k read_data
  by_cases hb : buf = 0
  · rw [if_pos hb, if_pos hb]
  · rw [if_neg hb, if_neg hb]
    simp only []
    by_cases hi : ¬ (ld32 s.fs.img (s.fs.file_sys_start_addr + 4) > inode)
    · rw [if_pos hi, if_pos hi]
    · rw [if_neg hi, if_neg hi]
      exact read_data_loop_k_eq _ _ _ _ _ _ _ _ _ (fun i hi => by simpa using h i hi)

theorem file_read_k_eq (s : KState) (fd : Int) (buf : Nat) (nbytes : Int)
    (h : ∀ i, i ≤ toU32 nbytes → pcb_at ((buf + i) % U32) = none) :
    file_read_k s fd buf nbytes = file_read s fd buf nbytes := by
  unfold file_read_k file_read
  simp only []
  rw [kldb_eq s buf (by simpa using h 0 (by omega)),
    read_data_k_eq s _ _ buf _ (fun i hi => h i (by omega))]

theorem dir_read_k_eq (env : Env) (s : KState) (fd : Int) (buf : Nat) (nbytes : Int)
    (h : ∀ i, i ≤ toU32 nbytes → pcb_at ((buf + i) % U32) = none) :
    dir_read_k env s fd buf nbytes = dir_read env s fd buf nbytes := by
  unfold dir_read_k dir_read
  simp only []
  rw [kmemcpy_eq s buf _ _ (fun i hi => h i (by omega))]

theorem terminal_read_k_eq (env : Env) (s : KState) (fd : Int) (buf n : Nat)
    (h : ∀ i, i ≤ n → pcb_at ((buf + i) % U32) = none) :
    terminal_read_k env s fd buf n = terminal_read env s fd buf n := by
  unfold terminal_read_k terminal_read
  simp only []
  rw [kmemcpy_eq _ buf _ _ (fun i hi => h i (by omega))]

theorem op_read_k_eq (env : Env) (s : KState) (p : file_op_ptr) (fd : Int) (buf : Nat)
    (nbytes : Int) (h : ∀ i, i ≤ toU32 nbytes → pcb_at ((buf + i) % U32) = none) :
    op_read_k env s p fd buf nbytes = op_read env s p fd buf nbytes := by
  cases p with
  | null => rfl
  | file_sys_calls =>
    show some (file_read_k s fd buf nbytes) = some (file_read s fd buf nbytes)
    rw [file_read_k_eq s fd buf nbytes h]
  | rtc_sys_calls => rfl
  | dir_sys_calls =>
    show some (dir_read_k env s fd buf nbytes) = some (dir_read env s fd buf nbytes)
    rw [dir_read_k_eq env s fd buf nbytes h]
  | wild w => rfl

/-- The two readings of `sys_read` agree on every buffer that meets no PCB:
`sys_read_k` is `sys_read` when `buf` and the `nbytes` bytes that follow lie
outside the six PCB areas. -/
theorem sys_read_k_eq (env : Env) (s : KState) (fd : Int) (buf : Nat) (nbytes : Int)
    (h : ∀ i, i ≤ toU32 nbytes → pcb_at ((buf + i) % U32) = none) :
    sys_read_k env s fd buf nbytes = sys_read env s fd buf nbytes := by
  unfold sys_read_k sys_read
  by_cases h1 : buf = 0 ∨ fd > 7 ∨ fd < 0 ∨ nbytes < 0 ∨ fd = FD_STDOUT
  · rw [if_pos h1, if_pos h1]
  · rw [if_neg h1, if_neg h1]
    by_cases h2 : fd ≥ 2 ∧ (s.cur.file_descriptor fd.toNat).flags = FD_FLAG_EMPTY
    · rw [if_pos h2, if_pos h2]
    · rw [if_neg h2, if_neg h2]
      by_cases h3 : fd = FD_STDIN
      · rw [if_pos h3, if_pos h3]
        simp only []
        rw [terminal_read_k_eq env _ fd buf _ h]
      · rw [if_neg h3, if_neg h3]
        simp only []
        by_cases h4 : (s.cur.file_descriptor fd.toNat).flags = FD_FLAG_RTC
        · rw [if_pos h4, if_pos h4]
          exact op_read_k_eq env s _ _ buf nbytes h
        · rw [if_neg h4, if_neg h4]
          by_cases h5 : (s.cur.file_descriptor fd.toNat).flags = FD_FLAG_DIR
          · rw [if_pos h5, if_pos h5, op_read_k_eq env s _ _ buf nbytes h]
          · rw [if_neg h5, if_neg h5]
            by_cases h6 : (s.cur.file_descriptor fd.toNat).flags = FD_FLAG_FILE
            · rw [if_pos h6, if_pos h6]
              by_cases h7 : nbytes = 0
              · rw [if_pos h7, if_pos h7]
              · rw [if_neg h7, if_neg h7]
                rw [kstb_eq s buf _ (by simpa using h 0 (by omega))]
                rw [op_read_k_eq env _ _ _ buf nbytes h]
                rfl
            · rw [if_neg h6, if_neg h6]

/-! ## The frequency kept in an rtc descriptor -/

theorem ld32_lt (m : Mem) (a : Nat) : ld32 m a < U32 := by
  unfold ld32 U32
  have h0 := ldb_lt m a
  have h1 := ldb_lt m (a + 1)
  have h2 := ldb_lt m (a + 2)
  have h3 := ldb_lt m (a + 3)
  omega

/-- The descriptor `sys_open` writes: an rtc descriptor has the rtc table and
the frequency 2. -/
theorem sys_open_loop_desc (s : KState) (dent : dentry_t) :
    ∀ (k i0 : Nat),
      sys_open_loop s dent k i0 = (-1, s) ∨
      ∃ (i : Nat) (d : file_desc_t), sys_open_loop s dent k i0 = ((i : Int), s.setFd i d) ∧
        (d.flags = FD_FLAG_RTC → d.file_op_table_ptr = .rtc_sys_calls ∧ d.inode = 2) := by
  intro k
  induction k with
  | zero => intro i0; left; rfl
  | succ k ih =>
    intro i0
    unfold sys_open_loop
    by_cases he : (s.cur.file_descriptor i0).flags = FD_FLAG_EMPTY
    · rw [if_pos he]
      by_cases h1 : dent.file_type = FILE_TYPE_RTC
      · right
        exact ⟨i0, ⟨.rtc_sys_calls, 2, 0, FD_FLAG_RTC⟩, by rw [if_pos h1], fun _ => ⟨rfl, rfl⟩⟩
      · by_cases h2 : dent.file_type = FILE_TYPE_DIR
        · right
          exact ⟨i0, ⟨.dir_sys_calls, 0, 0, FD_FLAG_DIR⟩, by rw [if_neg h1, if_pos h2],
            fun h => absurd (show FD_FLAG_DIR = FD_FLAG_RTC from h) (by decide)⟩
        · by_cases h3 : dent.file_type = FILE_TYPE_FILE
          · right
            exact ⟨i0, ⟨.file_sys_calls, dent.inode_number, 0, FD_FLAG_FILE⟩,
              by rw [if_neg h1, if_neg h2, if_pos h3],
              fun h => absurd (show FD_FLAG_FILE = FD_FLAG_RTC from h) (by decide)⟩
          · left
            rw [if_neg h1, if_neg h2, if_neg h3]
    · rw [if_neg he]
      exact ih (i0 + 1)

theorem sys_open_desc (s : KState) (filename : Option (List Nat)) :
    sys_open s filename = (-1, s) ∨
    ∃ (i : Nat) (d : file_desc_t), sys_open s filename = ((i : Int), s.setFd i d) ∧
      (d.flags = FD_FLAG_RTC → d.file_op_table_ptr = .rtc_sys_calls ∧ d.inode = 2) := by
  unfold sys_open
  cases filename with
  | none => left; rfl
  | some f =>
    simp only
    by_cases h0 : cstr f 0 = 0
    · left; rw [if_pos h0]
    · rw [if_neg h0]
      by_cases h1 : (read_dentry_by_name s.fs f ⟨[], 0, 0, []⟩).1 = -1
      · left; rw [if_pos h1]
      · rw [if_neg h1]
        exact sys_open_loop_desc s _ 6 2

/-- Writing a descriptor that is not an rtc descriptor, or is one with a valid
frequency, keeps the property of the table. -/
theorem rtc_fds_ok_setFd (s : KState) (i : Nat) (d : file_desc_t) (h : rtc_fds_ok s)
    (hd : d.flags = FD_FLAG_RTC → d.file_op_table_ptr = .rtc_sys_calls ∧ rtc_freq_ok d.inode) :
    rtc_fds_ok (s.setFd i d) := by
  intro j hj hf
  rw [setFd_slot] at hf ⊢
  by_cases hji : j = i
  · rw [if_pos hji] at hf ⊢
    exact hd hf
  · rw [if_neg hji] at hf ⊢
    exact h j hj hf

/-- A state with the same current descriptor table has the property too. -/
theorem rtc_fds_ok_congr (s s' : KState)
    (hc : ∀ i, (s'.cur.file_descriptor i).flags = (s.cur.file_descriptor i).flags ∧
      (s'.cur.file_descriptor i).file_op_table_ptr = (s.cur.file_descriptor i).file_op_table_ptr ∧
      (s'.cur.file_descriptor i).inode = (s.cur.file_descriptor i).inode)
    (h : rtc_fds_ok s) : rtc_fds_ok s' := by
  intro j hj hf
  obtain ⟨c1, c2, c3⟩ := hc j
  rw [c1] at hf
  rw [c2, c3]
  exact h j hj hf

theorem rtc_freq_ok_two : rtc_freq_ok 2 := ⟨1, by omega, by omega, by norm_num⟩

/-- What `rtc_write` has checked when it returns 0. -/
theorem rtc_write_zero (s : KState) (fd : Int) (buf : Nat) (n : Int)
    (h : (rtc_write s fd buf n).1 = 0) : rtc_freq_ok (ld32 s.mem buf) := by
  unfold rtc_write at h
  by_cases h0 : s.rtc_open_flag = 0
  · rw [if_pos h0] at h
    exact absurd (show (-1 : Int) = 0 from h) (by decide)
  · rw [if_neg h0] at h
    by_cases hb : buf = 0
    · rw [if_pos hb] at h
      exact absurd (show (-1 : Int) = 0 from h) (by decide)
    · rw [if_neg hb] at h
      simp only [] at h
      by_cases hl : rtc_write_loop (toInt32 (ld32 s.mem buf)) 10 15 = true
      · obtain ⟨k, k1, k2, hk⟩ := (rtc_write_loop_spec _).mp hl
        refine ⟨k, k1, k2, ?_⟩
        have hlt := ld32_lt s.mem buf
        have hpow : ((2 ^ k : Nat) : Int) = (2 : Int) ^ k := by push_cast; rfl
        have hle : 2 ^ k ≤ 2 ^ 10 := Nat.pow_le_pow_right (by omega) k2
        have h1024 : (2 : Nat) ^ 10 = 1024 := by norm_num
        rw [h1024] at hle
        rw [← hpow] at hk
        generalize 2 ^ k = m at hk hle ⊢
        unfold toInt32 U32 at hk
        unfold U32 at hlt
        split_ifs at hk <;> omega
      · rw [if_neg hl] at h
        exact absurd (show (-1 : Int) = 0 from h) (by decide)

theorem rtc_write_state (s : KState) (fd : Int) (buf : Nat) (n : Int) :
    (rtc_write s fd buf n).2 = s := by
  unfold rtc_write
  simp only []
  split_ifs <;> rfl

/-- The function `sys_write` keeps the property of the table, and a call that
does not return 0 leaves the table as it was. -/
theorem sys_write_rtc_fds (s : KState) (fd : Int) (buf : Nat) (n : Int) (r : Int) (s' : KState)
    (hw : sys_write s fd buf n = some (r, s')) :
    (rtc_fds_ok s → rtc_fds_ok s') ∧
    (r ≠ 0 → s'.cur.file_descriptor = s.cur.file_descriptor) := by
  unfold sys_write at hw
  by_cases h1 : buf = 0 ∨ fd > 7 ∨ fd < 0 ∨ n < 0 ∨ fd = FD_STDIN
  · rw [if_pos h1] at hw
    cases hw
    exact ⟨id, fun _ => rfl⟩
  · rw [if_neg h1] at hw
    by_cases h2 : fd ≥ 2 ∧ (s.cur.file_descriptor fd.toNat).flags = FD_FLAG_EMPTY
    · rw [if_pos h2] at hw
      cases hw
      exact ⟨id, fun _ => rfl⟩
    · rw [if_neg h2] at hw
      by_cases h3 : fd = FD_STDOUT
      · rw [if_pos h3] at hw
        have hs : s'.cur = s.cur := by
          have := congrArg (fun x => x.map (fun y => y.2.cur)) hw
          simp only [Option.map_some'] at this
          rw [← Option.some_inj.mp this]
          unfold terminal_write
          split_ifs <;> rfl
        exact ⟨fun h => rtc_fds_ok_congr s s' (fun i => by rw [hs]; exact ⟨rfl, rfl, rfl⟩) h,
          fun _ => by rw [hs]⟩
      · rw [if_neg h3] at hw
        simp only [] at hw
        by_cases h4 : (s.cur.file_descriptor fd.toNat).flags = FD_FLAG_RTC
        · rw [if_pos h4] at hw
          by_cases h5 : (rtc_write s fd buf n).1 = 0
          · rw [if_pos h5, rtc_write_state] at hw
            cases hw
            refine ⟨fun h => rtc_fds_ok_setFd s _ _ h (fun _ => ⟨?_, rtc_write_zero s fd buf n h5⟩),
              fun hr => absurd h5 hr⟩
            exact (h fd.toNat (by omega) h4).1
          · rw [if_neg h5] at hw
            have hs : s' = s := by
              have := congrArg (fun x => x.map Prod.snd) hw
              simp only [Option.map_some', rtc_write_state] at this
              exact (Option.some_inj.mp this).symm
            rw [hs]
            exact ⟨id, fun _ => rfl⟩
        · rw [if_neg h4] at hw
          have hs : s' = s := by
            unfold op_write at hw
            split at hw
            · exact absurd hw (by simp)
            · cases hw; rfl
            · have := congrArg (fun x => x.map Prod.snd) hw
              simp only [Option.map_some', rtc_write_state] at this
              exact (Option.some_inj.mp this).symm
            · cases hw; rfl
            · exact absurd hw (by simp)
          rw [hs]
          exact ⟨id, fun _ => rfl⟩

theorem dir_read_cur (env : Env) (s : KState) (a : Int) (buf : Nat) (n : Int) :
    (dir_read env s a buf n).2.cur = s.cur := by
  unfold dir_read
  simp only []
  split_ifs <;> rfl

theorem rtc_read_cur (s : KState) (a : Int) (buf : Nat) (n : Int) (q : Int × KState)
    (h : rtc_read s a buf n = some q) : q.2.cur = s.cur := by
  unfold rtc_read at h
  simp only [] at h
  split_ifs at h
  · rw [← Option.some_inj.mp h]
  · rw [← Option.some_inj.mp h]
    rfl

/-- A driver called through `op_read` leaves the PCBs alone. -/
theorem op_read_cur (env : Env) (s : KState) (p : file_op_ptr) (a : Int) (buf : Nat) (n : Int)
    (q : Int × KState) (h : op_read env s p a buf n = some q) : q.2.cur = s.cur := by
  cases p with
  | null => exact absurd h (by simp [op_read])
  | file_sys_calls =>
    have e : some (file_read s a buf n) = some q := h
    rw [← Option.some_inj.mp e]
    rfl
  | rtc_sys_calls => exact rtc_read_cur s a buf n q h
  | dir_sys_calls =>
    have e : some (dir_read env s a buf n) = some q := h
    rw [← Option.some_inj.mp e]
    exact dir_read_cur env s a buf n
  | wild w => exact absurd h (by simp [op_read])

/-- The function `sys_read` changes no flag, operation table or inode field of
the current descriptor table. -/
theorem sys_read_fds (env : Env) (s : KState) (fd : Int) (buf : Nat) (n : Int) (r : Int)
    (s' : KState) (hr : sys_read env s fd buf n = some (r, s')) :
    ∀ i, (s'.cur.file_descriptor i).flags = (s.cur.file_descriptor i).flags ∧
      (s'.cur.file_descriptor i).file_op_table_ptr = (s.cur.file_descriptor i).file_op_table_ptr ∧
      (s'.cur.file_descriptor i).inode = (s.cur.file_descriptor i).inode := by
  have hpos : ∀ (s1 : KState) (v : Int), s1.cur = s.cur → ∀ i,
      ((s1.setFd fd.toNat { s1.cur.file_descriptor fd.toNat with file_position := v }).cur.file_descriptor i).flags
        = (s.cur.file_descriptor i).flags ∧
      ((s1.setFd fd.toNat { s1.cur.file_descriptor fd.toNat with file_position := v }).cur.file_descriptor i).file_op_table_ptr
        = (s.cur.file_descriptor i).file_op_table_ptr ∧
      ((s1.setFd fd.toNat { s1.cur.file_descriptor fd.toNat with file_position := v }).cur.file_descriptor i).inode
        = (s.cur.file_descriptor i).inode := by
    intro s1 v hc i
    rw [setFd_slot]
    by_cases hi : i = fd.toNat
    · rw [if_pos hi, hc, hi]
      exact ⟨rfl, rfl, rfl⟩
    · rw [if_neg hi, hc]
      exact ⟨rfl, rfl, rfl⟩
  unfold sys_read at hr
  by_cases h1 : buf = 0 ∨ fd > 7 ∨ fd < 0 ∨ n < 0 ∨ fd = FD_STDOUT
  · rw [if_pos h1] at hr
    cases hr
    exact fun i => ⟨rfl, rfl, rfl⟩
  · rw [if_neg h1] at hr
    by_cases h2 : fd ≥ 2 ∧ (s.cur.file_descriptor fd.toNat).flags = FD_FLAG_EMPTY
    · rw [if_pos h2] at hr
      cases hr
      exact fun i => ⟨rfl, rfl, rfl⟩
    · rw [if_neg h2] at hr
      by_cases h3 : fd = FD_STDIN
      · rw [if_pos h3] at hr
        simp only [] at hr
        have hs : s'.cur = s.cur := by
          have := congrArg (fun x => x.map (fun y => y.2.cur)) hr
          simp only [Option.map_some'] at this
          rw [← Option.some_inj.mp this]
          unfold terminal_read
          split_ifs <;> rfl
        intro i
        rw [hs]
        exact ⟨rfl, rfl, rfl⟩
      · rw [if_neg h3] at hr
        simp only [] at hr
        by_cases h4 : (s.cur.file_descriptor fd.toNat).flags = FD_FLAG_RTC
        · rw [if_pos h4] at hr
          have hs := op_read_cur env s _ _ buf n (r, s') hr
          intro i
          have hs2 : s'.cur = s.cur := hs
          rw [hs2]
          exact ⟨rfl, rfl, rfl⟩
        · rw [if_neg h4] at hr
          by_cases h5 : (s.cur.file_descriptor fd.toNat).flags = FD_FLAG_DIR
          · rw [if_pos h5] at hr
            cases hop : op_read env s (s.cur.file_descriptor fd.toNat).file_op_table_ptr
                (s.cur.file_descriptor fd.toNat).file_position buf n with
            | none =>
              rw [hop] at hr
              exact absurd hr (by simp)
            | some q =>
              rw [hop] at hr
              obtain ⟨br, s1⟩ := q
              have e := Option.some_inj.mp hr
              have e2 : s' = _ := (congrArg Prod.snd e).symm
              rw [e2]
              exact hpos s1 _ (op_read_cur env s _ _ buf n (br, s1) hop)
          · rw [if_neg h5] at hr
            by_cases h6 : (s.cur.file_descriptor fd.toNat).flags = FD_FLAG_FILE
            · rw [if_pos h6] at hr
              by_cases h7 : n = 0
              · rw [if_pos h7] at hr
                cases hr
                exact fun i => ⟨rfl, rfl, rfl⟩
              · rw [if_neg h7] at hr
                cases hop : op_read env
                    { s with mem := stb s.mem buf ((s.cur.file_descriptor fd.toNat).inode % 256) }
                    (s.cur.file_descriptor fd.toNat).file_op_table_ptr
                    (s.cur.file_descriptor fd.toNat).file_position buf n with
                | none =>
                  rw [hop] at hr
                  exact absurd hr (by simp)
                | some q =>
                  rw [hop] at hr
                  obtain ⟨br, s1⟩ := q
                  have e := Option.some_inj.mp hr
                  have e2 : s' = _ := (congrArg Prod.snd e).symm
                  rw [e2]
                  have hc := op_read_cur env _ _ _ buf n (br, s1) hop
                  exact hpos s1 _ hc
            · rw [if_neg h6] at hr
              cases hr
              exact fun i => ⟨rfl, rfl, rfl⟩

/-- One descriptor call keeps the property of the table. -/
theorem fd_step_rtc_fds (s : KState) (c : fd_call) (s' : KState) (hs : fd_step s c = some s')
    (h : rtc_fds_ok s) : rtc_fds_ok s' := by
  cases c with
  | c_open f =>
    have e : s' = (sys_open s f).2 := (Option.some_inj.mp hs).symm
    rw [e]
    rcases sys_open_desc s f with h1 | ⟨i, d, h1, h2⟩
    · rw [h1]; exact h
    · rw [h1]
      exact rtc_fds_ok_setFd s i d h
        (fun hf => ⟨(h2 hf).1, by rw [(h2 hf).2]; exact rtc_freq_ok_two⟩)
  | c_write fd buf n =>
    change Option.map Prod.snd (sys_write s fd buf n) = some s' at hs
    cases hw : sys_write s fd buf n with
    | none => rw [hw] at hs; exact absurd hs (by simp)
    | some r =>
      rw [hw] at hs
      have e : s' = r.2 := (Option.some_inj.mp hs).symm
      rw [e]
      exact (sys_write_rtc_fds s fd buf n r.1 r.2 hw).1 h
  | c_read env fd buf n =>
    change Option.map Prod.snd (sys_read env s fd buf n) = some s' at hs
    cases hr : sys_read env s fd buf n with
    | none => rw [hr] at hs; exact absurd hs (by simp)
    | some r =>
      rw [hr] at hs
      have e : s' = r.2 := (Option.some_inj.mp hs).symm
      rw [e]
      exact rtc_fds_ok_congr s r.2 (sys_read_fds env s fd buf n r.1 r.2 hr) h
  | c_close fd =>
    have e : s' = (sys_close s fd).2 := (Option.some_inj.mp hs).symm
    rw [e]
    unfold sys_close
    split_ifs
    · exact h
    · exact h
    · exact rtc_fds_ok_setFd s _ _ h (fun hf => absurd hf (by decide))

/-- A sequence of descriptor calls keeps the property of the table. -/
theorem fd_run_rtc_fds : ∀ (calls : List fd_call) (s s' : KState),
    fd_run s calls = some s' → rtc_fds_ok s → rtc_fds_ok s' := by
  intro calls
  induction calls with
  | nil =>
    intro s s' hs h
    have e : s' = s := (Option.some_inj.mp hs).symm
    rw [e]; exact h
  | cons c cs ih =>
    intro s s' hs h
    unfold fd_run at hs
    cases h1 : fd_step s c with
    | none => rw [h1] at hs; exact absurd hs (by simp)
    | some s1 =>
      rw [h1] at hs
      exact ih s1 s' hs (fd_step_rtc_fds s c s1 h1 h)

theorem execute_commit_fds (env : Env) (s : KState) (pid : Nat) :
    (execute_commit env s pid).cur.file_descriptor
      = (s.pcb_mem (KERNEL_STACK_ADDR - (pid + 1) * KERNEL_STACK_OFFSET)).file_descriptor := by
  simp [execute_commit, KState.setPcb, KState.setTerm, KState.cur]

theorem execute_create_pcb_fds (s : KState) (pid : Nat) (pn : List Nat) (pl : Nat)
    (ab : Nat → Nat) (al : Nat) (i : Nat) (hi : i < 8) :
    (((execute_create_pcb s pid pn pl ab al).pcb_mem
        (KERNEL_STACK_ADDR - (pid + 1) * KERNEL_STACK_OFFSET)).file_descriptor i).flags
      = FD_FLAG_EMPTY := by
  simp [execute_create_pcb, KState.setPcb, hi]

/-- The descriptor table of a process `sys_execute` has just created: all
eight flags are `FD_FLAG_EMPTY`. -/
theorem sys_execute_fds_empty (env : Env) (s : KState) (c : Option (List Nat)) (a b : Nat)
    (s0 : KState) (h : sys_execute env s c = (.iret a b, s0)) :
    ∀ i, i < 8 → (s0.cur.file_descriptor i).flags = FD_FLAG_EMPTY := by
  have hstart : ∀ (s : KState) (pid : Int) (pn : List Nat) (pl : Nat) (cmd : List Nat),
      execute_start env s pid pn pl cmd = (.iret a b, s0) →
      ∀ i, i < 8 → (s0.cur.file_descriptor i).flags = FD_FLAG_EMPTY := by
    intro s pid pn pl cmd h i hi
    unfold execute_start at h
    simp only at h
    split at h
    · exact absurd (congrArg Prod.fst h) (by simp)
    · have hs := (congrArg Prod.snd h).symm
      simp only at hs
      rw [hs, execute_commit_fds]
      exact execute_create_pcb_fds _ _ _ _ _ _ i hi
  unfold sys_execute at h
  simp only at h
  split at h
  · exact absurd (congrArg Prod.fst h) (by simp)
  · unfold execute_parse at h
    cases c with
    | none => exact absurd (congrArg Prod.fst h) (by simp)
    | some c =>
      simp only at h
      split at h
      · exact absurd (congrArg Prod.fst h) (by simp)
      · split at h
        · exact absurd (congrArg Prod.fst h) (by simp)
        · exact hstart _ _ _ _ _ h

/-- The countdown `rtc_read` loads for a valid frequency. -/
theorem rtc_countdown (v : Nat) (h : rtc_freq_ok v) :
    toInt32 v ≠ 0 ∧ 1 ≤ Int.tdiv 1024 (toInt32 v) ∧ Int.tdiv 1024 (toInt32 v) ≤ 512 := by
  obtain ⟨k, k1, k2, hv⟩ := h
  subst hv
  interval_cases k <;> decide

/-- What holds while every buffer lies in the byte memory, apart from the PCBs
(the calls are those of `sys_read`, not of `sys_read_k`): in the descriptor
table of a process created by `sys_execute`, after any sequence of `sys_open`,
`sys_write`, `sys_read` and `sys_close` calls that return, every descriptor
flagged rtc has the rtc operation table and stores one of 2, 4, ..., 1024 (2
when `sys_open` has just written it; a `sys_write` that does not return 0
leaves the table as it was); so the divisor of `1024 / freq` in `rtc_read` is
not zero, the quotient is between 1 and 512, and a `sys_read` on such a
descriptor returns. -/
theorem rtc_descriptor_frequency (env : Env) (s : KState) (c : Option (List Nat)) (a b : Nat)
    (s0 : KState) (h : sys_execute env s c = (.iret a b, s0)) (calls : List fd_call)
    (s1 : KState) (hrun : fd_run s0 calls = some s1) :
    rtc_fds_ok s1 ∧
    (∀ i, i < 8 → (s1.cur.file_descriptor i).flags = FD_FLAG_RTC →
      toInt32 (s1.cur.file_descriptor i).inode ≠ 0 ∧
      1 ≤ Int.tdiv 1024 (toInt32 (s1.cur.file_descriptor i).inode) ∧
      Int.tdiv 1024 (toInt32 (s1.cur.file_descriptor i).inode) ≤ 512) ∧
    (∀ (envr : Env) (fd : Int) (buf : Nat) (n : Int), 2 ≤ fd → fd ≤ 7 →
      (s1.cur.file_descriptor fd.toNat).flags = FD_FLAG_RTC →
      ∃ r, sys_read envr s1 fd buf n = some r) ∧
    (∀ (f : Option (List Nat)) (i : Nat), (sys_open s1 f).1 = (i : Int) →
      ((sys_open s1 f).2.cur.file_descriptor i).flags = FD_FLAG_RTC →
      ((sys_open s1 f).2.cur.file_descriptor i).inode = 2) ∧
    (∀ (fd : Int) (buf : Nat) (n r : Int) (s2 : KState), sys_write s1 fd buf n = some (r, s2) →
      r ≠ 0 → s2.cur.file_descriptor = s1.cur.file_descriptor) := by
  have h0 : rtc_fds_ok s0 := by
    intro i hi hf
    rw [sys_execute_fds_empty env s c a b s0 h i hi] at hf
    exact absurd hf (by decide)
  have h1 := fd_run_rtc_fds calls s0 s1 hrun h0
  refine ⟨h1, fun i hi hf => rtc_countdown _ (h1 i hi hf).2, ?_, ?_, ?_⟩
  · intro envr fd buf n hfd2 hfd7 hf
    obtain ⟨hp, hv⟩ := h1 fd.toNat (by omega) hf
    have hz := (rtc_countdown _ hv).1
    unfold sys_read
    by_cases c1 : buf = 0 ∨ fd > 7 ∨ fd < 0 ∨ n < 0 ∨ fd = FD_STDOUT
    · rw [if_pos c1]
      exact ⟨_, rfl⟩
    · rw [if_neg c1]
      have c2 : ¬ (fd ≥ 2 ∧ (s1.cur.file_descriptor fd.toNat).flags = FD_FLAG_EMPTY) := by
        rw [hf]
        exact fun hc => absurd hc.2 (by decide)
      have c3 : ¬ (fd = FD_STDIN) := by unfold FD_STDIN; omega
      rw [if_neg c2, if_neg c3]
      simp only []
      rw [if_pos hf, hp]
      show ∃ r, rtc_read s1 (toInt32 (s1.cur.file_descriptor fd.toNat).inode) buf n = some r
      unfold rtc_read
      by_cases c4 : s1.rtc_open_flag = 0
      · rw [if_pos c4]
        exact ⟨_, rfl⟩
      · rw [if_neg c4, if_neg hz]
        exact ⟨_, rfl⟩
  · intro f i hi hf
    rcases sys_open_desc s1 f with e | ⟨j, d, e, hd⟩
    · rw [e] at hi
      simp only at hi
      omega
    · rw [e] at hi hf ⊢
      simp only at hi hf ⊢
      have hij : j = i := by omega
      subst hij
      rw [setFd_slot, if_pos rfl] at hf ⊢
      exact (hd hf).2
  · intro fd buf n r s2 hw hr
    exact (sys_write_rtc_fds s1 fd buf n r s2 hw).2 hr

/-- The frequency on the example process after "rtc" is opened at slot 2. -/
theorem rtc_descriptor_frequency_witness :
    sys_execute envDemo (kInit fsDemo pcbStale) (some cmdCatAbc)
      = (.iret (PROGRAM_STACK_ADDR - 4) 134513384, kCat) ∧
    fd_run kCat [.c_open (some [114, 116, 99])] = some kRtc ∧
    rtc_fds_ok kRtc ∧
    (kRtc.cur.file_descriptor 2).flags = FD_FLAG_RTC ∧
    Int.tdiv 1024 (toInt32 (kRtc.cur.file_descriptor 2).inode) ≤ 512 :=
  ⟨Prod.ext (by decide!) rfl, rfl,
   (rtc_descriptor_frequency envDemo (kInit fsDemo pcbStale) (some cmdCatAbc)
      (PROGRAM_STACK_ADDR - 4) 134513384 kCat (Prod.ext (by decide!) rfl)
      [.c_open (some [114, 116, 99])] kRtc rfl).1,
   by decide!,
   ((rtc_descriptor_frequency envDemo (kInit fsDemo pcbStale) (some cmdCatAbc)
      (PROGRAM_STACK_ADDR - 4) 134513384 kCat (Prod.ext (by decide!) rfl)
      [.c_open (some [114, 116, 99])] kRtc rfl).2.1 2 (by decide) (by decide!)).2.2⟩

/-- C30 (a buffer inside the PCB): the example process has "rtc" open at
descriptor 2 (frequency 2) and the file "lst", whose first bytes are zero, at
descriptor 3.  `sys_read (3, buf, 4)` with `buf` the address of
`pcb->file_descriptor[2].inode` in its own PCB returns 4, and descriptor 2,
still flagged rtc, stores the frequency 0: the next `sys_read (2, ..)` does
not return, `rtc_read` dividing 1024 by 0.  With the file "cat" at descriptor
3 the frequency stored is 0x464C457F, and 1024 divided by it is 0. -/
theorem sys_read_overwrites_rtc_frequency :
    (kRtcLst.pcb + 328 + 2 * 16 + 4 = 8380780 ∧
      kRtcLst.cur.file_descriptor 2 = ⟨.rtc_sys_calls, 2, 0, FD_FLAG_RTC⟩ ∧
      kRtcLst.cur.file_descriptor 3 = ⟨.file_sys_calls, 1, 0, FD_FLAG_FILE⟩) ∧
    (sys_read_k envDemo kRtcLst 3 8380780 4).map Prod.fst = some 4 ∧
    kFreq1.cur.file_descriptor 2 = ⟨.rtc_sys_calls, 0, 0, FD_FLAG_RTC⟩ ∧
    kFreq1.cur.file_descriptor 3 = ⟨.file_sys_calls, 1, 4, FD_FLAG_FILE⟩ ∧
    (sys_read_k envDemo kFreq1 2 PROGRAM_PAGE_ADDR 4).map Prod.fst = none ∧
    (sys_read envDemo kFreq1 2 PROGRAM_PAGE_ADDR 4).map Prod.fst = none ∧
    (sys_read_k envDemo kRtcCat 3 8380780 4).map Prod.fst = some 4 ∧
    kFreq2.cur.file_descriptor 2 = ⟨.rtc_sys_calls, 1179403647, 0, FD_FLAG_RTC⟩ ∧
    Int.tdiv 1024 (toInt32 1179403647) = 0 := by
  decide!

/-- C21 fails in the code: `switchTerminalInit (t)` takes the PCB area of slot
`t` as the PCB of the new terminal and writes `terminal_id` and `previous_id`
there, whether or not a process lives in that slot. From terminal
initialisation (`switchTerminalInit (0)`, shell PID 0), `sys_execute ("cat")`
starts PID 1 on terminal 0; `switchContext (1)` initialises terminal 1 and
overwrites the `terminal_id` of PID 1 with 1 (its shell then gets PID 2);
`switchContext (0)` resumes PID 1. Each step finishes, what is stated holds
after the first three, and after the last `tss.esp0`, the directory entry and
`pcb_pool` are as stated, but the running PCB names terminal 1, whose `pcb`
is the shell of PID 2. -/
theorem switchTerminalInit_overwrites_live_pcb :
    (switchTerminalInit envDemo kBoot 0).1 = .shell (.iret (PROGRAM_STACK_ADDR - 4) 134513384) ∧
    (sys_execute envDemo kT0 (some cmdCat)).1 = .iret (PROGRAM_STACK_ADDR - 4) 134513384 ∧
    (switchContext envSwitch envDemo kT0Cat 1).1 = .shell (.iret (PROGRAM_STACK_ADDR - 4) 134513384) ∧
    (switchContext envSwitch envDemo kT1 0).1 = .resumed 8379000 8378900 ∧
    running_ok kT0 ∧ running_ok kT0Cat ∧ running_ok kT1 ∧
    kT0Cat.pcb = 8372224 ∧ kT0Cat.cur.process_id = 1 ∧
    (kT0Cat.pcb_mem 8372224).terminal_id = 0 ∧
    (kT1.pcb_mem 8372224).terminal_id = 1 ∧
    kT1.cur.process_id = 2 ∧ kT1.cur.terminal_id = 1 ∧ kT1.pcb = 8364032 ∧
    kBack.pcb = 8372224 ∧ kBack.cur.process_id = 1 ∧ kBack.cur.terminal_id = 1 ∧
    kBack.tss_esp0 = kBack.cur.tss_esp ∧
    kBack.cur.tss_esp = KERNEL_STACK_ADDR - kBack.cur.process_id * KERNEL_STACK_OFFSET - 4 ∧
    kBack.pageDir 32 = (reMap4MBPage kBack (toInt8 kBack.cur.process_id)).pageDir 32 ∧
    kBack.pcb = kBack.pcb_pool kBack.cur.process_id ∧
    (kBack.terminals kBack.cur.terminal_id).pcb = 8364032 ∧
    (kBack.terminals 0).pcb = 8372224 ∧
    ¬ running_ok kBack := by
  unfold running_ok
  decide!

/-! ## The paging structures -/

end ECE391
